import Mathlib

/-!
# GK20A GPC PLL: coefficient solver and programming sequence

A shallow embedding of `drivers/video/tegra/host/gk20a/clk_gk20a.c`.

* Every C value of type `u32` is a natural number below `U32 = 2^32`; each
  arithmetic operation that can leave that range in C is followed by `% U32`.
* A division whose divisor is zero stops the run with the outcome `div0`.
* `BUG()` / `BUG_ON()` stop the run with the outcome `bug`.
* Loops are structurally recursive on a fuel argument; `none` means that the
  fuel was used up before the loop left.
-/

namespace Gk20a

/-! ## Machine integers -/

/-- Modulus of the C type `u32`. -/
def U32 : Nat := 4294967296

/-- Modelled from the spec: the kernel helper `abs()` (not among the source files of
this driver) applied to a `u32` difference.  The argument is reinterpreted as a signed
32-bit integer and its magnitude is returned, which is the `|a - b|` of the spec for
operands less than `2^31` apart. -/
def abs_u32 (d : Nat) : Nat :=
  if d < 2147483648 then d else U32 - d

/-! ## Data model -/

/-- The structure `struct pll_parms`, field order as in the initialiser of
`gpc_pll_params`. -/
structure pll_parms where
  min_freq : Nat
  max_freq : Nat
  min_vco : Nat
  max_vco : Nat
  min_u : Nat
  max_u : Nat
  min_M : Nat
  max_M : Nat
  min_N : Nat
  max_N : Nat
  min_PL : Nat
  max_PL : Nat
deriving DecidableEq

/-- The table `gpc_pll_params` ("from vbios PLL info table"). -/
def gpc_pll_params : pll_parms :=
  { min_freq := 403, max_freq := 806
    min_vco := 1100, max_vco := 2200
    min_u := 25, max_u := 100
    min_M := 1, max_M := 255
    min_N := 8, max_N := 255
    min_PL := 1, max_PL := 63 }

/-- The structure `struct pll`: the fields the driver reads.  The field `id` is only
ever written, with a constant, and is left out. -/
structure pll where
  clk_in : Nat
  M : Nat
  N : Nat
  PL : Nat
  freq : Nat
deriving DecidableEq

/-! ## `clk_config_pll` -/

/-- The local variables `best_delta`, `best_M`, `best_N`, `best_PL`. -/
structure Best where
  best_delta : Nat
  best_M : Nat
  best_N : Nat
  best_PL : Nat
deriving DecidableEq

/-- How a loop of the search was left. -/
inductive Scan where
  /-- the loop ran to its end or hit `break` -/
  | next (b : Best)
  /-- `goto found_match` -/
  | found (b : Best)
  /-- a division by zero -/
  | div0
deriving DecidableEq

/-- Lines 113-134: the candidate `(m, n, pl)` is weighed against the best one so far. -/
def try_candidate (ref_clk_f min_vco_f max_vco_f target_clk_f pl m n : Nat)
    (best_fit : Bool) (b : Best) : Scan :=
  let vco_f := (ref_clk_f * n % U32) / m
  if min_vco_f ≤ vco_f ∧ vco_f ≤ max_vco_f then
    if pl = 0 then Scan.div0
    else
      let lwv := ((vco_f + pl / 2) % U32) / pl
      let delta := abs_u32 ((lwv + U32 - target_clk_f) % U32)
      if delta < b.best_delta then
        if delta = 0 ∨ (best_fit = false ∧ vco_f / delta > 218) then
          Scan.found ⟨delta, m, n, pl⟩
        else Scan.next ⟨delta, m, n, pl⟩
      else Scan.next b
  else Scan.next b

/-- Lines 107-135: `for (; n <= n2; n++)`. -/
def n_loop (p : pll_parms) (ref_clk_f min_vco_f max_vco_f target_clk_f pl m n2 : Nat)
    (best_fit : Bool) : Nat → Nat → Best → Option Scan
  | 0, _, _ => none
  | fuel + 1, n, b =>
    if n ≤ n2 then
      if n < p.min_N then
        n_loop p ref_clk_f min_vco_f max_vco_f target_clk_f pl m n2 best_fit fuel
          ((n + 1) % U32) b
      else if n > p.max_N then some (Scan.next b)
      else
        match try_candidate ref_clk_f min_vco_f max_vco_f target_clk_f pl m n best_fit b with
        | Scan.next b1 =>
          n_loop p ref_clk_f min_vco_f max_vco_f target_clk_f pl m n2 best_fit fuel
            ((n + 1) % U32) b1
        | r => some r
    else some (Scan.next b)

/-- Lines 93-136: `for (m = min_M; m <= max_M; m++)`, with `target_vco_f` already set
to `target_clk_f * pl`. -/
def m_loop (p : pll_parms) (ref_clk_f min_vco_f max_vco_f target_clk_f pl target_vco_f : Nat)
    (best_fit : Bool) : Nat → Nat → Best → Option Scan
  | 0, _, _ => none
  | fuel + 1, m, b =>
    if m ≤ p.max_M then
      if m = 0 then some Scan.div0
      else
        let u_f := ref_clk_f / m
        if u_f < p.min_u then some (Scan.next b)
        else if u_f > p.max_u then
          m_loop p ref_clk_f min_vco_f max_vco_f target_clk_f pl target_vco_f best_fit fuel
            ((m + 1) % U32) b
        else if ref_clk_f = 0 then some Scan.div0
        else
          let n := (target_vco_f * m % U32) / ref_clk_f
          let n2 := ((target_vco_f * m % U32 + (ref_clk_f - 1)) % U32) / ref_clk_f
          if n > p.max_N then some (Scan.next b)
          else
            match n_loop p ref_clk_f min_vco_f max_vco_f target_clk_f pl m n2 best_fit fuel n b with
            | some (Scan.next b1) =>
              m_loop p ref_clk_f min_vco_f max_vco_f target_clk_f pl target_vco_f best_fit fuel
                ((m + 1) % U32) b1
            | r => r
    else some (Scan.next b)

/-- Lines 90-137: `for (pl = high_PL; pl >= low_PL; pl--)`. -/
def pl_loop (p : pll_parms) (ref_clk_f min_vco_f max_vco_f target_clk_f low_PL : Nat)
    (best_fit : Bool) : Nat → Nat → Best → Option Scan
  | 0, _, _ => none
  | fuel + 1, pl, b =>
    if pl ≥ low_PL then
      match m_loop p ref_clk_f min_vco_f max_vco_f target_clk_f pl (target_clk_f * pl % U32)
          best_fit fuel p.min_M b with
      | some (Scan.next b1) =>
        pl_loop p ref_clk_f min_vco_f max_vco_f target_clk_f low_PL best_fit fuel
          (if pl = 0 then U32 - 1 else pl - 1) b1
      | r => r
    else some (Scan.next b)

/-- How `clk_config_pll` ends. -/
inductive Solve where
  /-- `return 0`, with the updated `*pll` and the value written to `*target_freq` -/
  | ok (q : pll) (target_freq : Nat)
  /-- `BUG_ON(best_delta == ~0)` -/
  | bug
  /-- a division by zero -/
  | div0
deriving DecidableEq

/-- Lines 139-160: the label `found_match` and what follows it. -/
def found_match (q : pll) (b : Best) : Solve :=
  if b.best_delta = U32 - 1 then Solve.bug
  else if b.best_M * b.best_PL % U32 = 0 then Solve.div0
  else
    let freq := (q.clk_in * b.best_N % U32) / (b.best_M * b.best_PL % U32)
    Solve.ok { q with M := b.best_M, N := b.best_N, PL := b.best_PL, freq := freq } freq

/-- The function `clk_config_pll(clk, pll, pll_params, target_freq, best_fit)`; the
argument `target_freq` is the value of `*target_freq` on entry. -/
def clk_config_pll (fuel : Nat) (q : pll) (p : pll_parms) (target_freq : Nat)
    (best_fit : Bool) : Option Solve :=
  let ref_clk_f := q.clk_in
  let target_clk_f := target_freq
  let target_vco_f := (target_clk_f + target_clk_f / 50) % U32
  let max_vco_f := if p.max_vco < target_vco_f then target_vco_f else p.max_vco
  let min_vco_f := p.min_vco
  if target_vco_f = 0 then some Solve.div0
  else
    let high_PL := max (min (((max_vco_f + target_vco_f - 1) % U32) / target_vco_f) p.max_PL)
      p.min_PL
    let low_PL := max (min (min_vco_f / target_vco_f) p.max_PL) p.min_PL
    match pl_loop p ref_clk_f min_vco_f max_vco_f target_clk_f low_PL best_fit fuel high_PL
        ⟨U32 - 1, p.max_M, p.min_N, p.min_PL⟩ with
    | none => none
    | some Scan.div0 => some Solve.div0
    | some (Scan.next b) => some (found_match q b)
    | some (Scan.found b) => some (found_match q b)

/-- Fuel that lets every search over `gpc_pll_params` run to its end. -/
def solver_fuel : Nat := 600

/-! ## Registers, the voltage regulator and the trace of a run -/

/-- Modelled from the spec: `set_field` of `gk20a.h`, which is not among the source
files; the read-modify-write step of the sequencer, clearing the bits of `mask` in `val`
and setting those of `field`. -/
def set_field (val mask field : Nat) : Nat :=
  (val &&& ((U32 - 1) ^^^ mask)) ||| field

/-- Modelled from the spec: the errno value `EINVAL` of the kernel headers, which are
not among the source files. -/
def EINVAL : Int := 22

/-- The constant of the source `#define MHz 1000000`. -/
def MHz : Nat := 1000000

/-- The register map of `hw_trim_gk20a.h`.  That header is not among the source files,
so its offsets, masks and field values are a parameter of the model; each field stands
for the accessor `trim_sys_<field>()`. -/
structure trim_sys where
  sel_vco_r : Nat
  sel_vco_gpc2clk_out_m : Nat
  sel_vco_gpc2clk_out_bypass_f : Nat
  sel_vco_gpc2clk_out_vco_f : Nat
  gpcpll_cfg_r : Nat
  gpcpll_cfg_enable_m : Nat
  gpcpll_cfg_enable_no_f : Nat
  gpcpll_cfg_enable_yes_f : Nat
  gpcpll_cfg_enb_lckdet_m : Nat
  gpcpll_cfg_enb_lckdet_power_on_f : Nat
  gpcpll_cfg_enb_lckdet_power_off_f : Nat
  gpcpll_cfg_pll_lock_true_f : Nat
  gpcpll_coeff_r : Nat
  gpcpll_coeff_mdiv_f : Nat → Nat
  gpcpll_coeff_ndiv_f : Nat → Nat
  gpcpll_coeff_pldiv_f : Nat → Nat
  gpc2clk_out_r : Nat
  gpc2clk_out_sdiv14_m : Nat
  gpc2clk_out_vcodiv_m : Nat
  gpc2clk_out_bypdiv_m : Nat
  gpc2clk_out_sdiv14_indiv4_mode_f : Nat
  gpc2clk_out_vcodiv_by1_f : Nat
  gpc2clk_out_bypdiv_by1_f : Nat

/-- What a run does to the world outside the driver, in order. -/
inductive Ev where
  /-- `gk20a_readl(g, r)` returned `v` -/
  | readl (r v : Nat)
  /-- `gk20a_writel(g, r, v)` -/
  | writel (r v : Nat)
  /-- `udelay(usecs)` -/
  | udelay (usecs : Nat)
  /-- `tegra_dvfs_set_rate(c, rate)` returned `ret` -/
  | dvfs_set_rate (c : Option Nat) (rate : Nat) (ret : Int)
  /-- `clk_get_sys("tegra_gk20a", "PLLG_ref")` returned `c` -/
  | clk_get_sys (c : Option Nat)
  /-- `BUG()` or a failed `BUG_ON()` -/
  | bug
deriving DecidableEq

/-- The world outside the driver: what a register read, a voltage call and the clock
lookup answer, each as a function of everything the run has done so far.  A clock
handle is `some c`, and `none` stands for a pointer that `IS_ERR_OR_NULL` rejects. -/
structure Env where
  readl : List Ev → Nat → Nat
  tegra_dvfs_set_rate : List Ev → Option Nat → Nat → Int
  clk_get_sys : List Ev → Option Nat

/-- The call `gk20a_readl(g, r)`: the value read and the extended trace. -/
def gk20a_readl (E : Env) (tr : List Ev) (r : Nat) : Nat × List Ev :=
  (E.readl tr r % U32, tr ++ [Ev.readl r (E.readl tr r % U32)])

/-- The call `gk20a_writel(g, r, v)`. -/
def gk20a_writel (tr : List Ev) (r v : Nat) : List Ev :=
  tr ++ [Ev.writel r v]

/-- The call `tegra_dvfs_set_rate(c, rate)`: its return value and the extended trace. -/
def tegra_dvfs_set_rate (E : Env) (tr : List Ev) (c : Option Nat) (rate : Nat) :
    Int × List Ev :=
  (E.tegra_dvfs_set_rate tr c rate, tr ++ [Ev.dvfs_set_rate c rate (E.tegra_dvfs_set_rate tr c rate)])

/-- The structure `struct clk_gk20a`, the part of `struct gk20a` this file works on. -/
structure clk_gk20a where
  tegra_clk : Option Nat
  gpc_pll : pll
  pll_delay : Nat
  sw_ready : Bool
deriving DecidableEq

/-- How a driver function ends. -/
inductive Status where
  /-- the function returned `err` -/
  | ret (err : Int)
  /-- the run stopped in `BUG()` or `BUG_ON()` -/
  | bug
  /-- the run stopped in a division by zero -/
  | div0
  /-- the search of `clk_config_pll` did not leave its loops within `solver_fuel` -/
  | hang
deriving DecidableEq

/-- The result of a driver function: how it ended, the clock state and the trace. -/
structure Run where
  status : Status
  clk : clk_gk20a
  trace : List Ev
deriving DecidableEq

/-! ## `clk_program_gpc_pll` -/

/-- One pass of the body of the lock-wait loop, lines 204-207: `true` when the lock bit
was read as set (`goto pll_locked`). -/
def poll_lock (T : trim_sys) (E : Env) (tr : List Ev) : Bool × List Ev :=
  let r := gk20a_readl E tr T.gpcpll_cfg_r
  if r.1 &&& T.gpcpll_cfg_pll_lock_true_f ≠ 0 then (true, r.2)
  else (false, r.2 ++ [Ev.udelay 100])

/-- Lines 203-208: `do { ... } while (--timeout > 0)`.  The first argument is the value
`--timeout` takes after the pass that is about to run, that is the number of passes that
may still follow it. -/
def wait_pll_lock (T : trim_sys) (E : Env) : Nat → List Ev → Bool × List Ev
  | 0, tr => poll_lock T E tr
  | left + 1, tr =>
    match poll_lock T E tr with
    | (true, tr1) => (true, tr1)
    | (false, tr1) => wait_pll_lock T E left tr1

/-- Lines 202-208: `timeout = clk->pll_delay / 100 + 1` and the lock-wait loop.  For a
`u32` value of `pll_delay` the sum does not wrap, so after the first pass `--timeout` is
`pll_delay / 100`. -/
def lock_wait (T : trim_sys) (E : Env) (pll_delay : Nat) (tr : List Ev) : Bool × List Ev :=
  wait_pll_lock T E (pll_delay / 100) tr

/-- Lines 169-199: bypass, disable, coefficients, enable, lock-detect power. -/
def gpc_pll_setup (T : trim_sys) (E : Env) (clk : clk_gk20a) (tr : List Ev) : List Ev :=
  let data := gk20a_readl E tr T.sel_vco_r
  let tr := gk20a_writel data.2 T.sel_vco_r
    (set_field data.1 T.sel_vco_gpc2clk_out_m T.sel_vco_gpc2clk_out_bypass_f)
  let cfg := gk20a_readl E tr T.gpcpll_cfg_r
  let tr := gk20a_writel cfg.2 T.gpcpll_cfg_r
    (set_field cfg.1 T.gpcpll_cfg_enable_m T.gpcpll_cfg_enable_no_f)
  let coeff := T.gpcpll_coeff_mdiv_f clk.gpc_pll.M ||| T.gpcpll_coeff_ndiv_f clk.gpc_pll.N |||
    T.gpcpll_coeff_pldiv_f clk.gpc_pll.PL
  let tr := gk20a_writel tr T.gpcpll_coeff_r coeff
  let cfg := gk20a_readl E tr T.gpcpll_cfg_r
  let tr := gk20a_writel cfg.2 T.gpcpll_cfg_r
    (set_field cfg.1 T.gpcpll_cfg_enable_m T.gpcpll_cfg_enable_yes_f)
  let cfg := gk20a_readl E tr T.gpcpll_cfg_r
  if cfg.1 &&& T.gpcpll_cfg_enb_lckdet_power_off_f ≠ 0 then
    gk20a_writel cfg.2 T.gpcpll_cfg_r
      (set_field cfg.1 T.gpcpll_cfg_enb_lckdet_m T.gpcpll_cfg_enb_lckdet_power_on_f)
  else cfg.2

/-- The function `clk_program_gpc_pll(g, clk)`.  `BUG()` stops the run, so the
`return -EBUSY` after it is never reached. -/
def clk_program_gpc_pll (T : trim_sys) (E : Env) (clk : clk_gk20a) (tr : List Ev) :
    Status × List Ev :=
  let tr := gpc_pll_setup T E clk tr
  match lock_wait T E clk.pll_delay tr with
  | (false, tr) => (Status.bug, tr ++ [Ev.bug])
  | (true, tr) =>
    let data := gk20a_readl E tr T.sel_vco_r
    let tr := gk20a_writel data.2 T.sel_vco_r
      (set_field data.1 T.sel_vco_gpc2clk_out_m T.sel_vco_gpc2clk_out_vco_f)
    (Status.ret 0, tr)

/-! ## Initialisation and the rate interface -/

/-- The function `gk20a_init_clk_reset_enable_hw(g)`. -/
def gk20a_init_clk_reset_enable_hw : Int := 0

/-- The function `gk20a_init_clk_setup_sw(g)`. -/
def gk20a_init_clk_setup_sw (E : Env) (clk : clk_gk20a) (tr : List Ev) : Run :=
  if clk.sw_ready then ⟨Status.ret 0, clk, tr⟩
  else
    let q : pll := { clk_in := 26, M := 1, N := 31, PL := 1, freq := (26 * 31 % U32) / (1 * 1 % U32) }
    let c := E.clk_get_sys tr
    let clk1 : clk_gk20a := { clk with pll_delay := 5000000, gpc_pll := q, tegra_clk := c }
    let tr1 := tr ++ [Ev.clk_get_sys c]
    match c with
    | none => ⟨Status.ret (-EINVAL), clk1, tr1⟩
    | some _ => ⟨Status.ret 0, { clk1 with sw_ready := true }, tr1⟩

/-- The function `gk20a_clk_get_rate(g)`. -/
def gk20a_clk_get_rate (clk : clk_gk20a) : Nat :=
  clk.gpc_pll.freq

/-- Lines 332-335 of `gk20a_clk_set_rate`: the requested rate brought into
`[min_freq, max_freq]`. -/
def clamp_rate (rate : Nat) : Nat :=
  if rate > gpc_pll_params.max_freq then gpc_pll_params.max_freq
  else if rate < gpc_pll_params.min_freq then gpc_pll_params.min_freq
  else rate

/-- Lines 346-370 of `gk20a_clk_set_rate`: what follows a successful `clk_config_pll`,
with `freq` the frequency saved on entry and `rate` the frequency the solver wrote back. -/
def apply_rate (T : trim_sys) (E : Env) (clk : clk_gk20a) (tr : List Ev) (freq rate : Nat) :
    Run :=
  let up := if rate > freq then tegra_dvfs_set_rate E tr clk.tegra_clk (rate * MHz % U32)
    else (0, tr)
  if up.1 ≠ 0 then ⟨Status.ret up.1, clk, up.2⟩
  else
    match clk_program_gpc_pll T E clk up.2 with
    | (Status.ret err, tr1) =>
      if err ≠ 0 then ⟨Status.ret err, clk, tr1⟩
      else if rate < freq then
        let down := tegra_dvfs_set_rate E tr1 clk.tegra_clk (rate * MHz % U32)
        ⟨Status.ret down.1, clk, down.2⟩
      else ⟨Status.ret 0, clk, tr1⟩
    | (st, tr1) => ⟨st, clk, tr1⟩

/-- The function `gk20a_clk_set_rate(g, rate)`. -/
def gk20a_clk_set_rate (T : trim_sys) (E : Env) (clk : clk_gk20a) (tr : List Ev)
    (rate : Nat) : Run :=
  let freq := clk.gpc_pll.freq
  let rate := clamp_rate rate
  if rate = freq then ⟨Status.ret 0, clk, tr⟩
  else
    match clk_config_pll solver_fuel clk.gpc_pll gpc_pll_params rate true with
    | none => ⟨Status.hang, clk, tr⟩
    | some Solve.div0 => ⟨Status.div0, clk, tr⟩
    | some Solve.bug => ⟨Status.bug, clk, tr ++ [Ev.bug]⟩
    | some (Solve.ok q rate1) => apply_rate T E { clk with gpc_pll := q } tr freq rate1

/-- The function `gk20a_init_clk_setup_hw(g)`. -/
def gk20a_init_clk_setup_hw (T : trim_sys) (E : Env) (clk : clk_gk20a) (tr : List Ev) :
    Status × List Ev :=
  let data := gk20a_readl E tr T.gpc2clk_out_r
  let tr := gk20a_writel data.2 T.gpc2clk_out_r
    (set_field data.1
      (T.gpc2clk_out_sdiv14_m ||| T.gpc2clk_out_vcodiv_m ||| T.gpc2clk_out_bypdiv_m)
      (T.gpc2clk_out_sdiv14_indiv4_mode_f ||| T.gpc2clk_out_vcodiv_by1_f |||
        T.gpc2clk_out_bypdiv_by1_f))
  clk_program_gpc_pll T E clk tr

/-- The function `gk20a_init_clk_support(g)`.  The result of the closing
`gk20a_clk_set_rate` is dropped by the source unless the run stops inside it. -/
def gk20a_init_clk_support (T : trim_sys) (E : Env) (clk : clk_gk20a) (tr : List Ev) : Run :=
  if gk20a_init_clk_reset_enable_hw ≠ 0 then ⟨Status.ret gk20a_init_clk_reset_enable_hw, clk, tr⟩
  else
    match gk20a_init_clk_setup_sw E clk tr with
    | ⟨Status.ret err, clk1, tr1⟩ =>
      if err ≠ 0 then ⟨Status.ret err, clk1, tr1⟩
      else
        match gk20a_init_clk_setup_hw T E clk1 tr1 with
        | (Status.ret err, tr2) =>
          if err ≠ 0 then ⟨Status.ret err, clk1, tr2⟩
          else
            match gk20a_clk_set_rate T E clk1 tr2 gpc_pll_params.min_freq with
            | ⟨Status.ret _, clk3, tr3⟩ => ⟨Status.ret err, clk3, tr3⟩
            | r => r
        | (st, tr2) => ⟨st, clk1, tr2⟩
    | r => r

/-! ## Describing the result of the search -/

/-- The rounded output frequency `lwv` that line 116 computes for a candidate. -/
def cand_lwv (ref_clk_f pl m n : Nat) : Nat :=
  ((ref_clk_f * n % U32 / m + pl / 2) % U32) / pl

/-- The distance `delta` that line 117 computes for a candidate. -/
def cand_delta (ref_clk_f target_clk_f pl m n : Nat) : Nat :=
  abs_u32 ((cand_lwv ref_clk_f pl m n + U32 - target_clk_f) % U32)

/-- The triple held in `b` passed every test of the search: M and N inside their
bounds, PL inside `[lo, hi]`, `u_f` and `vco_f` inside their windows, and `best_delta`
is the distance computed for that triple. -/
def Fits (p : pll_parms) (ref_clk_f min_vco_f max_vco_f target_clk_f lo hi : Nat) (b : Best) :
    Prop :=
  p.min_M ≤ b.best_M ∧ b.best_M ≤ p.max_M ∧
  p.min_N ≤ b.best_N ∧ b.best_N ≤ p.max_N ∧
  lo ≤ b.best_PL ∧ b.best_PL ≤ hi ∧
  p.min_u ≤ ref_clk_f / b.best_M ∧ ref_clk_f / b.best_M ≤ p.max_u ∧
  min_vco_f ≤ ref_clk_f * b.best_N % U32 / b.best_M ∧
  ref_clk_f * b.best_N % U32 / b.best_M ≤ max_vco_f ∧
  b.best_delta = cand_delta ref_clk_f target_clk_f b.best_PL b.best_M b.best_N

/-- The invariant of the search: no candidate was taken yet, or the best one fits. -/
def Inv (p : pll_parms) (ref_clk_f min_vco_f max_vco_f target_clk_f lo hi : Nat) (b : Best) :
    Prop :=
  b.best_delta = U32 - 1 ∨ Fits p ref_clk_f min_vco_f max_vco_f target_clk_f lo hi b

/-! ## Reading a trace -/

/-- The register writes of a trace, in order, as pairs of offset and value. -/
def writes (tr : List Ev) : List (Nat × Nat) :=
  tr.filterMap fun e => match e with
    | Ev.writel r v => some (r, v)
    | _ => none

/-- The voltage calls of a trace, in order, as pairs of rate and return value. -/
def dvfs_calls (tr : List Ev) : List (Nat × Int) :=
  tr.filterMap fun e => match e with
    | Ev.dvfs_set_rate _ rate ret => some (rate, ret)
    | _ => none

/-- The values a trace reads from register `r`, in order. -/
def reg_reads (r : Nat) (tr : List Ev) : List Nat :=
  tr.filterMap fun e => match e with
    | Ev.readl r1 v => if r1 = r then some v else none
    | _ => none

/-- How many times a trace enters `BUG()`. -/
def bugs (tr : List Ev) : Nat :=
  tr.count Ev.bug

/-- The events of passes of the lock-wait loop that read the lock bit clear: the value
read from the configuration register, then the pause. -/
def idle_polls (T : trim_sys) : List Nat → List Ev
  | [] => []
  | v :: vs => Ev.readl T.gpcpll_cfg_r v :: Ev.udelay 100 :: idle_polls T vs

/-- A register map for examples: the three registers of the sequencer at distinct
offsets, one-bit enable, lock-detect and output-select fields, the lock bit at bit 17 and
the coefficient fields at bits 0, 8 and 16. -/
def trim_example : trim_sys :=
  { sel_vco_r := 0x137100
    sel_vco_gpc2clk_out_m := 0x1
    sel_vco_gpc2clk_out_bypass_f := 0x0
    sel_vco_gpc2clk_out_vco_f := 0x1
    gpcpll_cfg_r := 0x137000
    gpcpll_cfg_enable_m := 0x1
    gpcpll_cfg_enable_no_f := 0x0
    gpcpll_cfg_enable_yes_f := 0x1
    gpcpll_cfg_enb_lckdet_m := 0x10
    gpcpll_cfg_enb_lckdet_power_on_f := 0x0
    gpcpll_cfg_enb_lckdet_power_off_f := 0x10
    gpcpll_cfg_pll_lock_true_f := 0x20000
    gpcpll_coeff_r := 0x137004
    gpcpll_coeff_mdiv_f := fun v => (v &&& 0xff) <<< 0
    gpcpll_coeff_ndiv_f := fun v => (v &&& 0xff) <<< 8
    gpcpll_coeff_pldiv_f := fun v => (v &&& 0x3f) <<< 16
    gpc2clk_out_r := 0x137250
    gpc2clk_out_sdiv14_m := 0x80000000
    gpc2clk_out_vcodiv_m := 0x3f00
    gpc2clk_out_bypdiv_m := 0x3f
    gpc2clk_out_sdiv14_indiv4_mode_f := 0x80000000
    gpc2clk_out_vcodiv_by1_f := 0x0
    gpc2clk_out_bypdiv_by1_f := 0x0 }

/-- An environment for examples in which the PLL locks at once: every register reads
`0x20000` (lock bit set, lock detection powered), every voltage call succeeds. -/
def env_locked : Env :=
  { readl := fun _ _ => 0x20000
    tegra_dvfs_set_rate := fun _ _ _ => 0
    clk_get_sys := fun _ => some 1 }

/-- An environment for examples in which the PLL never locks: every register reads `0`. -/
def env_dead : Env :=
  { readl := fun _ _ => 0
    tegra_dvfs_set_rate := fun _ _ _ => 0
    clk_get_sys := fun _ => some 1 }

/-- An environment for examples in which every voltage call fails with `-EINVAL`. -/
def env_novolt : Env :=
  { readl := fun _ _ => 0x20000
    tegra_dvfs_set_rate := fun _ _ _ => -22
    clk_get_sys := fun _ => some 1 }

/-- A clock state for examples: the one `gk20a_init_clk_setup_sw` leaves behind, but
with a lock timeout of 250 microseconds (three polls). -/
def clk_quick : clk_gk20a :=
  { tegra_clk := some 1
    gpc_pll := { clk_in := 26, M := 1, N := 31, PL := 1, freq := 806 }
    pll_delay := 250
    sw_ready := true }

/-- The clock state `gk20a_init_clk_setup_sw` leaves behind. -/
def clk_init : clk_gk20a :=
  { tegra_clk := some 1
    gpc_pll := { clk_in := 26, M := 1, N := 31, PL := 1, freq := 806 }
    pll_delay := 5000000
    sw_ready := true }


/-! ## The search problem of the specification -/

/-- The distance `|a - b|` of two frequencies. -/
def absdiff (a b : Nat) : Nat :=
  if a ≤ b then b - a else a - b

/-- The frequency the coefficients give, `ref * N / (M * PL)`, as the spec and line 151
compute it. -/
def achieved (ref m n pl : Nat) : Nat :=
  ref * n / (m * pl)

/-- The output frequency rounded to the nearest integer, `(ref * N / M + PL / 2) / PL`,
the value line 116 ranks a candidate by. -/
def rounded (ref m n pl : Nat) : Nat :=
  (ref * n / m + pl / 2) / pl

/-- The constraints the spec puts on a triple: M, N and PL inside their bounds,
`u = ref / M` inside `[min_u, max_u]` and `vco = ref * N / M` inside `[min_vco, max_vco]`. -/
def feasible (p : pll_parms) (ref m n pl : Nat) : Prop :=
  p.min_M ≤ m ∧ m ≤ p.max_M ∧ p.min_N ≤ n ∧ n ≤ p.max_N ∧ p.min_PL ≤ pl ∧ pl ≤ p.max_PL ∧
  p.min_u ≤ ref / m ∧ ref / m ≤ p.max_u ∧ p.min_vco ≤ ref * n / m ∧ ref * n / m ≤ p.max_vco

instance (p : pll_parms) (ref m n pl : Nat) : Decidable (feasible p ref m n pl) := by
  unfold feasible
  infer_instance

/-- Whether distance `d` to `target` is beaten by no triple with M = 1, N in `[43, 84]`
and PL in `[1, 6]` at reference clock 26. -/
def unbeaten (target d : Nat) : Bool :=
  (List.range 6).all fun i => (List.range 42).all fun j =>
    decide (d ≤ absdiff (rounded 26 1 (43 + j) (1 + i)) target)

/-- Whether the search for `target` at reference clock 26 returns a feasible triple whose
rounded distance is at most 6 and is beaten by no triple `unbeaten` looks at. -/
def best_rounded (target : Nat) : Bool :=
  match clk_config_pll solver_fuel ⟨26, 1, 31, 1, 806⟩ gpc_pll_params target true with
  | some (Solve.ok q1 _) =>
    decide (feasible gpc_pll_params 26 q1.M q1.N q1.PL) &&
    decide (absdiff (rounded 26 q1.M q1.N q1.PL) target ≤ 6) &&
    unbeaten target (absdiff (rounded 26 q1.M q1.N q1.PL) target)
  | _ => false

/-! ## Reachable clock states -/

/-- The clock states the driver can be in: the one `gk20a_init_clk_setup_sw` builds from a
state not yet set up, and any state a call of `gk20a_clk_set_rate` leaves behind, whatever
the requested rate, the environment and the trace so far. -/
inductive Reachable (T : trim_sys) : clk_gk20a → Prop where
  | init (E : Env) (clk : clk_gk20a) (tr : List Ev) (h : clk.sw_ready = false) :
      Reachable T (gk20a_init_clk_setup_sw E clk tr).clk
  | set_rate (E : Env) (clk : clk_gk20a) (tr : List Ev) (rate : Nat) (h : Reachable T clk) :
      Reachable T (gk20a_clk_set_rate T E clk tr rate).clk

/-- A clock state for examples: nothing set up yet. -/
def clk_fresh : clk_gk20a :=
  { tegra_clk := none
    gpc_pll := { clk_in := 0, M := 0, N := 0, PL := 0, freq := 0 }
    pll_delay := 0
    sw_ready := false }

/-- A clock state for examples: set up from `clk_fresh`, then asked for 410 MHz. -/
def clk_410 : clk_gk20a :=
  (gk20a_clk_set_rate trim_example env_locked
    (gk20a_init_clk_setup_sw env_locked clk_fresh []).clk [] 410).clk

/-- A clock state for examples: reference clock 26 and the coefficients of 403 MHz. -/
def clk_low : clk_gk20a :=
  { tegra_clk := some 1
    gpc_pll := { clk_in := 26, M := 1, N := 62, PL := 4, freq := 403 }
    pll_delay := 250
    sw_ready := true }

/-- An environment for examples in which the reference clock cannot be obtained. -/
def env_noclk : Env :=
  { readl := fun _ _ => 0x20000
    tegra_dvfs_set_rate := fun _ _ _ => 0
    clk_get_sys := fun _ => none }

/-! ## `hw_host1x04_channel.h` -/

/-- The accessor `host1x_channel_fifostat_r()`. -/
def host1x_channel_fifostat_r : Nat := 0x0

/-- The accessor `host1x_channel_dmactrl_r()`. -/
def host1x_channel_dmactrl_r : Nat := 0x24

/-- The accessor `host1x_channel_fifostat_cfempty_s()`. -/
def host1x_channel_fifostat_cfempty_s : Nat := 1

/-- The accessor `host1x_channel_fifostat_cfempty_f(v)`; the masked value shifted by 11 stays
below `2^32`, so the `u32` shift loses nothing. -/
def host1x_channel_fifostat_cfempty_f (v : Nat) : Nat := (v &&& 0x1) <<< 11

/-- The accessor `host1x_channel_fifostat_cfempty_m()`. -/
def host1x_channel_fifostat_cfempty_m : Nat := 0x1 <<< 11

/-- The accessor `host1x_channel_fifostat_cfempty_v(r)`. -/
def host1x_channel_fifostat_cfempty_v (r : Nat) : Nat := (r >>> 11) &&& 0x1

/-- The accessor `host1x_channel_fifostat_outfentries_s()`. -/
def host1x_channel_fifostat_outfentries_s : Nat := 5

/-- The accessor `host1x_channel_fifostat_outfentries_f(v)`; the masked value shifted by 24 stays
below `2^32`, so the `u32` shift loses nothing. -/
def host1x_channel_fifostat_outfentries_f (v : Nat) : Nat := (v &&& 0x1f) <<< 24

/-- The accessor `host1x_channel_fifostat_outfentries_m()`. -/
def host1x_channel_fifostat_outfentries_m : Nat := 0x1f <<< 24

/-- The accessor `host1x_channel_fifostat_outfentries_v(r)`. -/
def host1x_channel_fifostat_outfentries_v (r : Nat) : Nat := (r >>> 24) &&& 0x1f

/-- The accessor `host1x_channel_dmactrl_dmastop_s()`. -/
def host1x_channel_dmactrl_dmastop_s : Nat := 1

/-- The accessor `host1x_channel_dmactrl_dmastop_f(v)`; the masked value shifted by 0 stays
below `2^32`, so the `u32` shift loses nothing. -/
def host1x_channel_dmactrl_dmastop_f (v : Nat) : Nat := (v &&& 0x1) <<< 0

/-- The accessor `host1x_channel_dmactrl_dmastop_m()`. -/
def host1x_channel_dmactrl_dmastop_m : Nat := 0x1 <<< 0

/-- The accessor `host1x_channel_dmactrl_dmastop_v(r)`. -/
def host1x_channel_dmactrl_dmastop_v (r : Nat) : Nat := (r >>> 0) &&& 0x1

/-- The accessor `host1x_channel_dmactrl_dmagetrst_s()`. -/
def host1x_channel_dmactrl_dmagetrst_s : Nat := 1

/-- The accessor `host1x_channel_dmactrl_dmagetrst_f(v)`; the masked value shifted by 1 stays
below `2^32`, so the `u32` shift loses nothing. -/
def host1x_channel_dmactrl_dmagetrst_f (v : Nat) : Nat := (v &&& 0x1) <<< 1

/-- The accessor `host1x_channel_dmactrl_dmagetrst_m()`. -/
def host1x_channel_dmactrl_dmagetrst_m : Nat := 0x1 <<< 1

/-- The accessor `host1x_channel_dmactrl_dmagetrst_v(r)`. -/
def host1x_channel_dmactrl_dmagetrst_v (r : Nat) : Nat := (r >>> 1) &&& 0x1

/-- The accessor `host1x_channel_dmactrl_dmainitget_s()`. -/
def host1x_channel_dmactrl_dmainitget_s : Nat := 1

/-- The accessor `host1x_channel_dmactrl_dmainitget_f(v)`; the masked value shifted by 2 stays
below `2^32`, so the `u32` shift loses nothing. -/
def host1x_channel_dmactrl_dmainitget_f (v : Nat) : Nat := (v &&& 0x1) <<< 2

/-- The accessor `host1x_channel_dmactrl_dmainitget_m()`. -/
def host1x_channel_dmactrl_dmainitget_m : Nat := 0x1 <<< 2

/-- The accessor `host1x_channel_dmactrl_dmainitget_v(r)`. -/
def host1x_channel_dmactrl_dmainitget_v (r : Nat) : Nat := (r >>> 2) &&& 0x1

/-- A field of `size` bits at bit `shift`: the value `v` placed into the field. -/
def field_f (size shift v : Nat) : Nat := (v &&& (2 ^ size - 1)) <<< shift

/-- A field of `size` bits at bit `shift`: its mask. -/
def field_m (size shift : Nat) : Nat := (2 ^ size - 1) <<< shift

/-- A field of `size` bits at bit `shift`: the value of the field in the register value `r`. -/
def field_v (size shift r : Nat) : Nat := (r >>> shift) &&& (2 ^ size - 1)

/-! ## The search of `clk_config_pll` up to the label `found_match` -/

/-- Lines 56-137 of `clk_config_pll`: everything before the label `found_match`, ending
with how the search was left and the values of `best_delta`, `best_M`, `best_N` and
`best_PL` at that point. -/
def clk_config_search (fuel : Nat) (q : pll) (p : pll_parms) (target_freq : Nat)
    (best_fit : Bool) : Option Scan :=
  let ref_clk_f := q.clk_in
  let target_clk_f := target_freq
  let target_vco_f := (target_clk_f + target_clk_f / 50) % U32
  let max_vco_f := if p.max_vco < target_vco_f then target_vco_f else p.max_vco
  let min_vco_f := p.min_vco
  if target_vco_f = 0 then some Scan.div0
  else
    let high_PL := max (min (((max_vco_f + target_vco_f - 1) % U32) / target_vco_f) p.max_PL)
      p.min_PL
    let low_PL := max (min (min_vco_f / target_vco_f) p.max_PL) p.min_PL
    pl_loop p ref_clk_f min_vco_f max_vco_f target_clk_f low_PL best_fit fuel high_PL
      ⟨U32 - 1, p.max_M, p.min_N, p.min_PL⟩

/-- The best candidate a search ended with, if it ended at the label `found_match`. -/
def scan_best : Scan → Option Best
  | Scan.next b => some b
  | Scan.found b => some b
  | Scan.div0 => none

/-- What `clk_config_pll` does with the outcome of the search. -/
def finish (q : pll) : Scan → Solve
  | Scan.next b => found_match q b
  | Scan.found b => found_match q b
  | Scan.div0 => Solve.div0

/-- Lines 81-83 of `clk_config_pll`: the smallest PL the search tries. -/
def low_PL (p : pll_parms) (target_freq : Nat) : Nat :=
  let target_vco_f := (target_freq + target_freq / 50) % U32
  max (min (p.min_vco / target_vco_f) p.max_PL) p.min_PL

/-- Lines 73-79 of `clk_config_pll`: the PL the search starts from. -/
def high_PL (p : pll_parms) (target_freq : Nat) : Nat :=
  let target_vco_f := (target_freq + target_freq / 50) % U32
  let max_vco_f := if p.max_vco < target_vco_f then target_vco_f else p.max_vco
  max (min (((max_vco_f + target_vco_f - 1) % U32) / target_vco_f) p.max_PL) p.min_PL

/-- Whether `clk_config_pll` at reference clock 26 with the table `gpc_pll_params` ends
in its `return 0`. -/
def finds (best_fit : Bool) (target : Nat) : Bool :=
  match clk_config_pll solver_fuel ⟨26, 1, 31, 1, 806⟩ gpc_pll_params target best_fit with
  | some (Solve.ok _ _) => true
  | _ => false

/-- Whether `clk_config_pll` at reference clock 26 with the table `gpc_pll_params` and
`best_fit = true` writes back a frequency inside `[min_freq, max_freq]`. -/
def freq_ok (target : Nat) : Bool :=
  match clk_config_pll solver_fuel ⟨26, 1, 31, 1, 806⟩ gpc_pll_params target true with
  | some (Solve.ok _ f) => decide (gpc_pll_params.min_freq ≤ f ∧ f ≤ gpc_pll_params.max_freq)
  | _ => false

/-- A run for examples: from the state `gk20a_init_clk_setup_sw` leaves behind, with the
PLL locking at once, `gk20a_clk_set_rate` is asked for 410 MHz. -/
def run_410 : Run :=
  gk20a_clk_set_rate trim_example env_locked
    (gk20a_init_clk_setup_sw env_locked clk_fresh []).clk [] 410

/-- A run for examples: right after `run_410`, `gk20a_clk_set_rate` is asked for 410 MHz
once more. -/
def run_410_again : Run :=
  gk20a_clk_set_rate trim_example env_locked run_410.clk run_410.trace 410

/-! ## The search with a record of the candidates it takes -/

/-- Lines 109-131 as in `try_candidate`, with a record `l` kept beside the program's
variables: every candidate that passes `delta < best_delta`, and so is written to
`best_delta`, `best_M`, `best_N`, `best_PL` in lines 119-123, is appended to `l`. -/
def try_candidate_log (ref_clk_f min_vco_f max_vco_f target_clk_f pl m n : Nat)
    (best_fit : Bool) (b : Best) (l : List Best) : Scan × List Best :=
  let vco_f := (ref_clk_f * n % U32) / m
  if min_vco_f ≤ vco_f ∧ vco_f ≤ max_vco_f then
    if pl = 0 then (Scan.div0, l)
    else
      let lwv := ((vco_f + pl / 2) % U32) / pl
      let delta := abs_u32 ((lwv + U32 - target_clk_f) % U32)
      if delta < b.best_delta then
        if delta = 0 ∨ (best_fit = false ∧ vco_f / delta > 218) then
          (Scan.found ⟨delta, m, n, pl⟩, l ++ [⟨delta, m, n, pl⟩])
        else (Scan.next ⟨delta, m, n, pl⟩, l ++ [⟨delta, m, n, pl⟩])
      else (Scan.next b, l)
  else (Scan.next b, l)

/-- Lines 107-135 as in `n_loop`, with the record of `try_candidate_log`. -/
def n_loop_log (p : pll_parms) (ref_clk_f min_vco_f max_vco_f target_clk_f pl m n2 : Nat)
    (best_fit : Bool) : Nat → Nat → Best → List Best → Option (Scan × List Best)
  | 0, _, _, _ => none
  | fuel + 1, n, b, l =>
    if n ≤ n2 then
      if n < p.min_N then
        n_loop_log p ref_clk_f min_vco_f max_vco_f target_clk_f pl m n2 best_fit fuel
          ((n + 1) % U32) b l
      else if n > p.max_N then some (Scan.next b, l)
      else
        match try_candidate_log ref_clk_f min_vco_f max_vco_f target_clk_f pl m n best_fit b l with
        | (Scan.next b1, l1) =>
          n_loop_log p ref_clk_f min_vco_f max_vco_f target_clk_f pl m n2 best_fit fuel
            ((n + 1) % U32) b1 l1
        | r => some r
    else some (Scan.next b, l)

/-- Lines 93-136 as in `m_loop`, with the record of `try_candidate_log`. -/
def m_loop_log (p : pll_parms) (ref_clk_f min_vco_f max_vco_f target_clk_f pl target_vco_f : Nat)
    (best_fit : Bool) : Nat → Nat → Best → List Best → Option (Scan × List Best)
  | 0, _, _, _ => none
  | fuel + 1, m, b, l =>
    if m ≤ p.max_M then
      if m = 0 then some (Scan.div0, l)
      else
        let u_f := ref_clk_f / m
        if u_f < p.min_u then some (Scan.next b, l)
        else if u_f > p.max_u then
          m_loop_log p ref_clk_f min_vco_f max_vco_f target_clk_f pl target_vco_f best_fit fuel
            ((m + 1) % U32) b l
        else if ref_clk_f = 0 then some (Scan.div0, l)
        else
          let n := (target_vco_f * m % U32) / ref_clk_f
          let n2 := ((target_vco_f * m % U32 + (ref_clk_f - 1)) % U32) / ref_clk_f
          if n > p.max_N then some (Scan.next b, l)
          else
            match n_loop_log p ref_clk_f min_vco_f max_vco_f target_clk_f pl m n2 best_fit fuel
                n b l with
            | some (Scan.next b1, l1) =>
              m_loop_log p ref_clk_f min_vco_f max_vco_f target_clk_f pl target_vco_f best_fit
                fuel ((m + 1) % U32) b1 l1
            | r => r
    else some (Scan.next b, l)

/-- Lines 90-137 as in `pl_loop`, with the record of `try_candidate_log`. -/
def pl_loop_log (p : pll_parms) (ref_clk_f min_vco_f max_vco_f target_clk_f low_PL : Nat)
    (best_fit : Bool) : Nat → Nat → Best → List Best → Option (Scan × List Best)
  | 0, _, _, _ => none
  | fuel + 1, pl, b, l =>
    if pl ≥ low_PL then
      match m_loop_log p ref_clk_f min_vco_f max_vco_f target_clk_f pl
          (target_clk_f * pl % U32) best_fit fuel p.min_M b l with
      | some (Scan.next b1, l1) =>
        pl_loop_log p ref_clk_f min_vco_f max_vco_f target_clk_f low_PL best_fit fuel
          (if pl = 0 then U32 - 1 else pl - 1) b1 l1
      | r => r
    else some (Scan.next b, l)

/-- Lines 56-137 as in `clk_config_search`, with the record of `try_candidate_log`,
empty at the start: the candidates the search took, in the order it took them. -/
def clk_config_search_log (fuel : Nat) (q : pll) (p : pll_parms) (target_freq : Nat)
    (best_fit : Bool) : Option (Scan × List Best) :=
  let ref_clk_f := q.clk_in
  let target_clk_f := target_freq
  let target_vco_f := (target_clk_f + target_clk_f / 50) % U32
  let max_vco_f := if p.max_vco < target_vco_f then target_vco_f else p.max_vco
  let min_vco_f := p.min_vco
  if target_vco_f = 0 then some (Scan.div0, [])
  else
    let high_PL := max (min (((max_vco_f + target_vco_f - 1) % U32) / target_vco_f) p.max_PL)
      p.min_PL
    let low_PL := max (min (min_vco_f / target_vco_f) p.max_PL) p.min_PL
    pl_loop_log p ref_clk_f min_vco_f max_vco_f target_clk_f low_PL best_fit fuel high_PL
      ⟨U32 - 1, p.max_M, p.min_N, p.min_PL⟩ []

/-- The test of line 127 on a recorded candidate: `vco_f / best_delta > 218`, with
`vco_f = ref_clk_f * N / M`. -/
def near (ref_clk_f : Nat) (c : Best) : Bool :=
  decide ((ref_clk_f * c.best_N % U32) / c.best_M / c.best_delta > 218)

/-- How a search with `best_fit = true` and its record `out_t` stands to the search with
`best_fit = false`, `out_f`, from the same start: if the first ends at `found_match`,
either the second ended the same way and no recorded candidate passes `near`, or the
second left through `goto found_match` at the first recorded candidate that passes
`near`, and the first ends with a `best_delta` no larger than that candidate's. -/
def Sync (ref_clk_f : Nat) (out_t : Option (Scan × List Best)) (out_f : Option Scan) : Prop :=
  ∀ rt lt b1, out_t = some (rt, lt) → scan_best rt = some b1 →
    (out_f = some rt ∧ lt.find? (near ref_clk_f) = none) ∨
    (∃ c, out_f = some (Scan.found c) ∧ lt.find? (near ref_clk_f) = some c ∧
      b1.best_delta ≤ c.best_delta)

/-- What holds of the record `l` and the best candidate `b` throughout a search from
the start value `init`: the record is empty and `b` is the start value, or `b` is the last
recorded candidate; along the record `best_delta` strictly decreases; `b` has the smallest
`best_delta` of all; and each recorded `best_delta` is the distance line 117 computes for
the recorded M, N and PL. -/
def Recorded (ref_clk_f target_clk_f : Nat) (init b : Best) (l : List Best) : Prop :=
  ((l = [] ∧ b = init) ∨ l.getLast? = some b) ∧
  l.Pairwise (fun x y => y.best_delta < x.best_delta) ∧
  (∀ x ∈ l, b.best_delta ≤ x.best_delta) ∧
  ∀ x ∈ l, x.best_delta = cand_delta ref_clk_f target_clk_f x.best_PL x.best_M x.best_N

/-! ## The lock-wait loop -/

theorem wait_pll_lock_spec (T : trim_sys) (E : Env) : ∀ (left : Nat) (tr : List Ev),
    ∃ vs : List Nat, (∀ v ∈ vs, v &&& T.gpcpll_cfg_pll_lock_true_f = 0) ∧
      ((wait_pll_lock T E left tr = (false, tr ++ idle_polls T vs) ∧ vs.length = left + 1) ∨
       (∃ v, v &&& T.gpcpll_cfg_pll_lock_true_f ≠ 0 ∧
          wait_pll_lock T E left tr = (true, tr ++ idle_polls T vs ++ [Ev.readl T.gpcpll_cfg_r v]) ∧
          vs.length ≤ left)) := by
  intro left
  induction left with
  | zero =>
    intro tr
    by_cases h : E.readl tr T.gpcpll_cfg_r % U32 &&& T.gpcpll_cfg_pll_lock_true_f = 0
    · refine ⟨[E.readl tr T.gpcpll_cfg_r % U32], ?_, Or.inl ⟨?_, rfl⟩⟩
      · simpa using h
      · simp [wait_pll_lock, poll_lock, gk20a_readl, h, idle_polls]
    · refine ⟨[], by simp, Or.inr ⟨E.readl tr T.gpcpll_cfg_r % U32, h, ?_, by simp⟩⟩
      simp [wait_pll_lock, poll_lock, gk20a_readl, h, idle_polls]
  | succ left ih =>
    intro tr
    by_cases h : E.readl tr T.gpcpll_cfg_r % U32 &&& T.gpcpll_cfg_pll_lock_true_f = 0
    · obtain ⟨vs, hvs, hcase⟩ := ih (tr ++ [Ev.readl T.gpcpll_cfg_r (E.readl tr T.gpcpll_cfg_r % U32),
        Ev.udelay 100])
      refine ⟨(E.readl tr T.gpcpll_cfg_r % U32) :: vs, ?_, ?_⟩
      · intro v hv
        rcases List.mem_cons.mp hv with rfl | hv
        · exact h
        · exact hvs v hv
      · rcases hcase with ⟨hw, hl⟩ | ⟨v, hv, hw, hl⟩
        · left
          refine ⟨?_, by simp [hl]⟩
          simp [wait_pll_lock, poll_lock, gk20a_readl, h, idle_polls] at hw ⊢
          exact hw
        · right
          refine ⟨v, hv, ?_, by simp; omega⟩
          simp [wait_pll_lock, poll_lock, gk20a_readl, h, idle_polls] at hw ⊢
          exact hw
    · refine ⟨[], by simp, Or.inr ⟨E.readl tr T.gpcpll_cfg_r % U32, h, ?_, by simp⟩⟩
      simp [wait_pll_lock, poll_lock, gk20a_readl, h, idle_polls]

theorem lock_wait_spec (T : trim_sys) (E : Env) (pll_delay : Nat) (tr : List Ev) :
    ∃ vs : List Nat, (∀ v ∈ vs, v &&& T.gpcpll_cfg_pll_lock_true_f = 0) ∧
      (lock_wait T E pll_delay tr = (false, tr ++ idle_polls T vs) ∨
       (∃ v, v &&& T.gpcpll_cfg_pll_lock_true_f ≠ 0 ∧
          lock_wait T E pll_delay tr =
            (true, tr ++ idle_polls T vs ++ [Ev.readl T.gpcpll_cfg_r v]))) := by
  obtain ⟨vs, hvs, hcase⟩ := wait_pll_lock_spec T E (pll_delay / 100) tr
  refine ⟨vs, hvs, ?_⟩
  rcases hcase with ⟨hw, -⟩ | ⟨v, hv, hw, -⟩
  · exact Or.inl hw
  · exact Or.inr ⟨v, hv, hw⟩

theorem writes_append (a b : List Ev) : writes (a ++ b) = writes a ++ writes b := by
  simp [writes, List.filterMap_append]

theorem dvfs_calls_append (a b : List Ev) :
    dvfs_calls (a ++ b) = dvfs_calls a ++ dvfs_calls b := by
  simp [dvfs_calls, List.filterMap_append]

theorem reg_reads_append (r : Nat) (a b : List Ev) :
    reg_reads r (a ++ b) = reg_reads r a ++ reg_reads r b := by
  simp [reg_reads, List.filterMap_append]

theorem bugs_append (a b : List Ev) : bugs (a ++ b) = bugs a + bugs b := by
  simp [bugs, List.count_append]

theorem writes_idle_polls (T : trim_sys) (vs : List Nat) : writes (idle_polls T vs) = [] := by
  induction vs with
  | nil => rfl
  | cons v vs ih => simpa [idle_polls, writes] using ih

theorem dvfs_calls_idle_polls (T : trim_sys) (vs : List Nat) :
    dvfs_calls (idle_polls T vs) = [] := by
  induction vs with
  | nil => rfl
  | cons v vs ih => simpa [idle_polls, dvfs_calls] using ih

theorem bugs_idle_polls (T : trim_sys) (vs : List Nat) : bugs (idle_polls T vs) = 0 := by
  induction vs with
  | nil => rfl
  | cons v vs ih => simpa [idle_polls, bugs] using ih

theorem reg_reads_idle_polls (T : trim_sys) (vs : List Nat) :
    reg_reads T.gpcpll_cfg_r (idle_polls T vs) = vs := by
  induction vs with
  | nil => rfl
  | cons v vs ih => simpa [idle_polls, reg_reads] using ih

/-- C10: for a lock timeout `pll_delay`, the lock-wait loop reads the lock-status
register at most `ceil(pll_delay / 100) + 1` times; if no read shows the lock bit the
loop gives up after exactly `pll_delay / 100 + 1` reads, and a read that shows the lock
bit is the last one, so a lock first seen on poll `k + 1` ends the loop after `k + 1`
reads. -/
theorem lock_wait_read_count (T : trim_sys) (E : Env) (pll_delay : Nat) (tr : List Ev) :
    (reg_reads T.gpcpll_cfg_r ((lock_wait T E pll_delay tr).2.drop tr.length)).length
        ≤ (pll_delay + 99) / 100 + 1 ∧
    ((∀ v ∈ reg_reads T.gpcpll_cfg_r ((lock_wait T E pll_delay tr).2.drop tr.length),
        v &&& T.gpcpll_cfg_pll_lock_true_f = 0) →
      (lock_wait T E pll_delay tr).1 = false ∧
      (reg_reads T.gpcpll_cfg_r ((lock_wait T E pll_delay tr).2.drop tr.length)).length
        = pll_delay / 100 + 1) ∧
    (∀ k v, (reg_reads T.gpcpll_cfg_r ((lock_wait T E pll_delay tr).2.drop tr.length))[k]? = some v →
      v &&& T.gpcpll_cfg_pll_lock_true_f ≠ 0 →
      (lock_wait T E pll_delay tr).1 = true ∧
      (reg_reads T.gpcpll_cfg_r ((lock_wait T E pll_delay tr).2.drop tr.length)).length
        = k + 1) := by
  obtain ⟨vs, hvs, hcase⟩ := wait_pll_lock_spec T E (pll_delay / 100) tr
  rcases hcase with ⟨hw, hl⟩ | ⟨v, hv, hw, hl⟩
  · have hr : reg_reads T.gpcpll_cfg_r ((lock_wait T E pll_delay tr).2.drop tr.length) = vs := by
      simp only [lock_wait, hw, List.drop_left, reg_reads_idle_polls]
    have h1 : (lock_wait T E pll_delay tr).1 = false := by
      simp only [lock_wait, hw]
    rw [hr, h1]
    refine ⟨by omega, fun _ => ⟨rfl, hl⟩, ?_⟩
    intro k v hk hv
    exact absurd (hvs v (List.getElem?_mem hk)) hv
  · have hr : reg_reads T.gpcpll_cfg_r ((lock_wait T E pll_delay tr).2.drop tr.length)
        = vs ++ [v] := by
      simp only [lock_wait, hw, List.append_assoc, List.drop_left, reg_reads_append,
        reg_reads_idle_polls]
      simp [reg_reads]
    have h1 : (lock_wait T E pll_delay tr).1 = true := by
      simp only [lock_wait, hw]
    rw [hr, h1]
    refine ⟨by simp; omega, ?_, ?_⟩
    · intro hall
      exact absurd (hall v (by simp)) hv
    · intro k w hk hw2
      refine ⟨rfl, ?_⟩
      by_cases hlt : k < vs.length
      · rw [List.getElem?_append_left hlt] at hk
        exact absurd (hvs w (List.getElem?_mem hk)) hw2
      · have hk2 : k < (vs ++ [v]).length := by
          by_contra hge
          rw [List.getElem?_eq_none (by omega)] at hk
          exact Option.noConfusion hk
        simp at hk2 ⊢
        omega

/-! ## The programming sequence -/

theorem gpc_pll_setup_eq (T : trim_sys) (E : Env) (clk : clk_gk20a) (tr : List Ev) :
    ∃ d1 c1 c2 c3 : Nat, d1 = E.readl tr T.sel_vco_r % U32 ∧
      gpc_pll_setup T E clk tr =
        tr ++ ([Ev.readl T.sel_vco_r d1,
                Ev.writel T.sel_vco_r
                  (set_field d1 T.sel_vco_gpc2clk_out_m T.sel_vco_gpc2clk_out_bypass_f),
                Ev.readl T.gpcpll_cfg_r c1,
                Ev.writel T.gpcpll_cfg_r
                  (set_field c1 T.gpcpll_cfg_enable_m T.gpcpll_cfg_enable_no_f),
                Ev.writel T.gpcpll_coeff_r
                  (T.gpcpll_coeff_mdiv_f clk.gpc_pll.M ||| T.gpcpll_coeff_ndiv_f clk.gpc_pll.N |||
                    T.gpcpll_coeff_pldiv_f clk.gpc_pll.PL),
                Ev.readl T.gpcpll_cfg_r c2,
                Ev.writel T.gpcpll_cfg_r
                  (set_field c2 T.gpcpll_cfg_enable_m T.gpcpll_cfg_enable_yes_f),
                Ev.readl T.gpcpll_cfg_r c3] ++
               (if c3 &&& T.gpcpll_cfg_enb_lckdet_power_off_f ≠ 0 then
                  [Ev.writel T.gpcpll_cfg_r
                    (set_field c3 T.gpcpll_cfg_enb_lckdet_m T.gpcpll_cfg_enb_lckdet_power_on_f)]
                else [])) := by
  unfold gpc_pll_setup
  simp only [gk20a_readl, gk20a_writel, List.append_assoc, List.cons_append, List.nil_append]
  generalize hd1 : E.readl tr T.sel_vco_r % U32 = d1
  generalize E.readl _ T.gpcpll_cfg_r % U32 = c3
  generalize E.readl _ T.gpcpll_cfg_r % U32 = c1
  generalize E.readl _ T.gpcpll_cfg_r % U32 = c2
  refine ⟨d1, c1, c2, c3, rfl, ?_⟩
  split <;> simp

/-- C8: when a poll of the lock-wait loop reads the lock bit set, `clk_program_gpc_pll`
returns 0 and its register writes are, in this order: select register with the output
field set to bypass in the value read, configuration register with enable cleared,
coefficient register with the one combined value of M, N and PL, configuration register
with enable set, configuration register with lock detection powered on when the value
read back has it powered off, and the select register with the output field back on the
VCO; the polls in between write nothing. -/
theorem clk_program_gpc_pll_locked (T : trim_sys) (E : Env) (clk : clk_gk20a) (tr : List Ev)
    (hlock : ∃ v ∈ reg_reads T.gpcpll_cfg_r
        ((lock_wait T E clk.pll_delay (gpc_pll_setup T E clk tr)).2.drop
          (gpc_pll_setup T E clk tr).length),
      v &&& T.gpcpll_cfg_pll_lock_true_f ≠ 0) :
    ∃ (d1 c1 c2 c3 d2 : Nat) (polls : List Ev),
      clk_program_gpc_pll T E clk tr =
        (Status.ret 0,
          tr ++ ([Ev.readl T.sel_vco_r d1,
                  Ev.writel T.sel_vco_r
                    (set_field d1 T.sel_vco_gpc2clk_out_m T.sel_vco_gpc2clk_out_bypass_f),
                  Ev.readl T.gpcpll_cfg_r c1,
                  Ev.writel T.gpcpll_cfg_r
                    (set_field c1 T.gpcpll_cfg_enable_m T.gpcpll_cfg_enable_no_f),
                  Ev.writel T.gpcpll_coeff_r
                    (T.gpcpll_coeff_mdiv_f clk.gpc_pll.M ||| T.gpcpll_coeff_ndiv_f clk.gpc_pll.N |||
                      T.gpcpll_coeff_pldiv_f clk.gpc_pll.PL),
                  Ev.readl T.gpcpll_cfg_r c2,
                  Ev.writel T.gpcpll_cfg_r
                    (set_field c2 T.gpcpll_cfg_enable_m T.gpcpll_cfg_enable_yes_f),
                  Ev.readl T.gpcpll_cfg_r c3] ++
                 (if c3 &&& T.gpcpll_cfg_enb_lckdet_power_off_f ≠ 0 then
                    [Ev.writel T.gpcpll_cfg_r
                      (set_field c3 T.gpcpll_cfg_enb_lckdet_m T.gpcpll_cfg_enb_lckdet_power_on_f)]
                  else []) ++
                 polls ++
                 [Ev.readl T.sel_vco_r d2,
                  Ev.writel T.sel_vco_r
                    (set_field d2 T.sel_vco_gpc2clk_out_m T.sel_vco_gpc2clk_out_vco_f)])) ∧
      writes polls = [] ∧
      writes ((clk_program_gpc_pll T E clk tr).2.drop tr.length) =
        [(T.sel_vco_r, set_field d1 T.sel_vco_gpc2clk_out_m T.sel_vco_gpc2clk_out_bypass_f),
         (T.gpcpll_cfg_r, set_field c1 T.gpcpll_cfg_enable_m T.gpcpll_cfg_enable_no_f),
         (T.gpcpll_coeff_r,
            T.gpcpll_coeff_mdiv_f clk.gpc_pll.M ||| T.gpcpll_coeff_ndiv_f clk.gpc_pll.N |||
              T.gpcpll_coeff_pldiv_f clk.gpc_pll.PL),
         (T.gpcpll_cfg_r, set_field c2 T.gpcpll_cfg_enable_m T.gpcpll_cfg_enable_yes_f)] ++
        (if c3 &&& T.gpcpll_cfg_enb_lckdet_power_off_f ≠ 0 then
           [(T.gpcpll_cfg_r,
              set_field c3 T.gpcpll_cfg_enb_lckdet_m T.gpcpll_cfg_enb_lckdet_power_on_f)]
         else []) ++
        [(T.sel_vco_r, set_field d2 T.sel_vco_gpc2clk_out_m T.sel_vco_gpc2clk_out_vco_f)] := by
  obtain ⟨d1, c1, c2, c3, -, hsetup⟩ := gpc_pll_setup_eq T E clk tr
  obtain ⟨vs, hvs, hcase⟩ := lock_wait_spec T E clk.pll_delay (gpc_pll_setup T E clk tr)
  rcases hcase with hw | ⟨v, hv, hw⟩
  · exfalso
    obtain ⟨v, hmem, hv⟩ := hlock
    simp only [hw, List.drop_left, reg_reads_idle_polls] at hmem
    exact hv (hvs v hmem)
  · refine ⟨d1, c1, c2, c3,
      E.readl (gpc_pll_setup T E clk tr ++ idle_polls T vs ++ [Ev.readl T.gpcpll_cfg_r v])
        T.sel_vco_r % U32,
      idle_polls T vs ++ [Ev.readl T.gpcpll_cfg_r v], ?_, ?_, ?_⟩
    · unfold clk_program_gpc_pll
      simp only [hw, gk20a_readl, gk20a_writel]
      rw [hsetup]
      simp only [List.append_assoc, List.cons_append, List.nil_append]
    · rw [writes_append, writes_idle_polls]
      rfl
    · unfold clk_program_gpc_pll
      simp only [hw, gk20a_readl, gk20a_writel]
      rw [hsetup]
      simp only [List.append_assoc, List.drop_left, writes_append, writes_idle_polls]
      split <;> rfl

theorem clk_program_gpc_pll_locked_witness :
    (∃ v ∈ reg_reads trim_example.gpcpll_cfg_r
        ((lock_wait trim_example env_locked clk_quick.pll_delay
            (gpc_pll_setup trim_example env_locked clk_quick [])).2.drop
          (gpc_pll_setup trim_example env_locked clk_quick []).length),
      v &&& trim_example.gpcpll_cfg_pll_lock_true_f ≠ 0) ∧
    (clk_program_gpc_pll trim_example env_locked clk_quick []).1 = Status.ret 0 := by
  have h : ∃ v ∈ reg_reads trim_example.gpcpll_cfg_r
        ((lock_wait trim_example env_locked clk_quick.pll_delay
            (gpc_pll_setup trim_example env_locked clk_quick [])).2.drop
          (gpc_pll_setup trim_example env_locked clk_quick []).length),
      v &&& trim_example.gpcpll_cfg_pll_lock_true_f ≠ 0 := ⟨131072, by decide, by decide⟩
  obtain ⟨d1, c1, c2, c3, d2, polls, heq, -, -⟩ :=
    clk_program_gpc_pll_locked trim_example env_locked clk_quick [] h
  exact ⟨h, by rw [heq]⟩

theorem wait_pll_lock_dead_fst (T : trim_sys) (E : Env)
    (hnever : ∀ tr1, E.readl tr1 T.gpcpll_cfg_r % U32 &&& T.gpcpll_cfg_pll_lock_true_f = 0) :
    ∀ (left : Nat) (tr : List Ev), (wait_pll_lock T E left tr).1 = false := by
  intro left
  induction left with
  | zero =>
    intro tr
    simp [wait_pll_lock, poll_lock, gk20a_readl, hnever]
  | succ left ih =>
    intro tr
    simp only [wait_pll_lock, poll_lock, gk20a_readl, hnever, ne_eq, not_true_eq_false,
      if_false]
    exact ih _

theorem wait_pll_lock_dead (T : trim_sys) (E : Env)
    (hnever : ∀ tr1, E.readl tr1 T.gpcpll_cfg_r % U32 &&& T.gpcpll_cfg_pll_lock_true_f = 0) :
    ∀ (left : Nat) (tr : List Ev), ∃ vs : List Nat,
      wait_pll_lock T E left tr = (false, tr ++ idle_polls T vs) := by
  intro left tr
  obtain ⟨vs, -, hcase⟩ := wait_pll_lock_spec T E left tr
  rcases hcase with ⟨hw, -⟩ | ⟨v, -, hw, -⟩
  · exact ⟨vs, hw⟩
  · have h := wait_pll_lock_dead_fst T E hnever left tr
    rw [hw] at h
    exact Bool.noConfusion h

/-- C9: when the lock-status bit never reads as set, `clk_program_gpc_pll` ends in
`BUG()`, entered once; the only thing it does after the lock-wait loop is that `BUG()`,
the loop itself writes no register, and with the select register at an offset of its own
the last value written to it is the bypass value of the first step, so the output stays
on bypass. -/
theorem clk_program_gpc_pll_timeout (T : trim_sys) (E : Env) (clk : clk_gk20a) (tr : List Ev)
    (hnever : ∀ tr1, E.readl tr1 T.gpcpll_cfg_r % U32 &&& T.gpcpll_cfg_pll_lock_true_f = 0)
    (hcfg : T.sel_vco_r ≠ T.gpcpll_cfg_r) (hcoeff : T.sel_vco_r ≠ T.gpcpll_coeff_r) :
    (clk_program_gpc_pll T E clk tr).1 = Status.bug ∧
    bugs ((clk_program_gpc_pll T E clk tr).2.drop tr.length) = 1 ∧
    (clk_program_gpc_pll T E clk tr).2 =
      (lock_wait T E clk.pll_delay (gpc_pll_setup T E clk tr)).2 ++ [Ev.bug] ∧
    writes ((lock_wait T E clk.pll_delay (gpc_pll_setup T E clk tr)).2.drop
      (gpc_pll_setup T E clk tr).length) = [] ∧
    ((writes ((clk_program_gpc_pll T E clk tr).2.drop tr.length)).filter
        (fun w => decide (w.1 = T.sel_vco_r))).getLast? =
      some (T.sel_vco_r, set_field (E.readl tr T.sel_vco_r % U32)
        T.sel_vco_gpc2clk_out_m T.sel_vco_gpc2clk_out_bypass_f) := by
  obtain ⟨d1, c1, c2, c3, hd1, hsetup⟩ := gpc_pll_setup_eq T E clk tr
  obtain ⟨vs, hw⟩ := wait_pll_lock_dead T E hnever (clk.pll_delay / 100) (gpc_pll_setup T E clk tr)
  have hlw : lock_wait T E clk.pll_delay (gpc_pll_setup T E clk tr)
      = (false, gpc_pll_setup T E clk tr ++ idle_polls T vs) := hw
  have hprog : clk_program_gpc_pll T E clk tr
      = (Status.bug, gpc_pll_setup T E clk tr ++ idle_polls T vs ++ [Ev.bug]) := by
    unfold clk_program_gpc_pll
    simp only [hlw]
  have hc1 : ¬ T.gpcpll_cfg_r = T.sel_vco_r := fun h => hcfg h.symm
  have hc2 : ¬ T.gpcpll_coeff_r = T.sel_vco_r := fun h => hcoeff h.symm
  refine ⟨by rw [hprog], ?_, by rw [hprog, hlw], ?_, ?_⟩
  · rw [hprog, hsetup]
    simp only [List.append_assoc, List.drop_left, bugs_append, bugs_idle_polls]
    split <;> simp [bugs]
  · rw [hlw]
    simp only [List.drop_left, writes_idle_polls]
  · rw [hprog, hsetup, ← hd1]
    simp only [List.append_assoc, List.drop_left, writes_append, writes_idle_polls]
    split <;> simp [writes, List.filter, hc1, hc2]

theorem clk_program_gpc_pll_timeout_witness :
    (∀ tr1, env_dead.readl tr1 trim_example.gpcpll_cfg_r % U32 &&&
      trim_example.gpcpll_cfg_pll_lock_true_f = 0) ∧
    trim_example.sel_vco_r ≠ trim_example.gpcpll_cfg_r ∧
    trim_example.sel_vco_r ≠ trim_example.gpcpll_coeff_r ∧
    (clk_program_gpc_pll trim_example env_dead clk_quick []).1 = Status.bug ∧
    bugs ((clk_program_gpc_pll trim_example env_dead clk_quick []).2.drop 0) = 1 :=
  ⟨fun _ => by simp [env_dead], by decide, by decide,
   (clk_program_gpc_pll_timeout trim_example env_dead clk_quick []
      (fun _ => by simp [env_dead]) (by decide) (by decide)).1,
   (clk_program_gpc_pll_timeout trim_example env_dead clk_quick []
      (fun _ => by simp [env_dead]) (by decide) (by decide)).2.1⟩

/-! ## The rate interface -/

/-- C4: a request above 806 gives the same result as a request of exactly 806, and a
request below 403 the same as one of exactly 403: the same return value, the same final
clock state and the same trace of register accesses and voltage calls. -/
theorem gk20a_clk_set_rate_clamped (T : trim_sys) (E : Env) (clk : clk_gk20a) (tr : List Ev)
    (r : Nat) :
    (806 < r → gk20a_clk_set_rate T E clk tr r = gk20a_clk_set_rate T E clk tr 806) ∧
    (r < 403 → gk20a_clk_set_rate T E clk tr r = gk20a_clk_set_rate T E clk tr 403) := by
  constructor
  · intro h
    have hc : clamp_rate r = clamp_rate 806 := by
      simp [clamp_rate, gpc_pll_params, h]
    unfold gk20a_clk_set_rate
    rw [hc]
  · intro h
    have hc : clamp_rate r = clamp_rate 403 := by
      have h1 : ¬ 806 < r := by omega
      simp [clamp_rate, gpc_pll_params, h, h1]
    unfold gk20a_clk_set_rate
    rw [hc]

theorem gk20a_clk_set_rate_clamped_witness :
    (806 < 1000 ∧
      gk20a_clk_set_rate trim_example env_locked clk_quick [] 1000
        = gk20a_clk_set_rate trim_example env_locked clk_quick [] 806) ∧
    (7 < 403 ∧
      gk20a_clk_set_rate trim_example env_locked clk_quick [] 7
        = gk20a_clk_set_rate trim_example env_locked clk_quick [] 403) :=
  ⟨⟨by decide, (gk20a_clk_set_rate_clamped trim_example env_locked clk_quick [] 1000).1 (by decide)⟩,
   ⟨by decide, (gk20a_clk_set_rate_clamped trim_example env_locked clk_quick [] 7).2 (by decide)⟩⟩

/-- C5: when the requested rate, brought into `[403, 806]`, equals the cached
frequency, `gk20a_clk_set_rate` returns 0, adds nothing to the trace (no register write,
no voltage call) and leaves the clock state, so M, N, PL and the cached frequency, as it
was. -/
theorem gk20a_clk_set_rate_same (T : trim_sys) (E : Env) (clk : clk_gk20a) (tr : List Ev)
    (rate : Nat) (h : max 403 (min rate 806) = clk.gpc_pll.freq) :
    gk20a_clk_set_rate T E clk tr rate = ⟨Status.ret 0, clk, tr⟩ := by
  have hc : clamp_rate rate = clk.gpc_pll.freq := by
    rw [← h]
    simp only [clamp_rate, gpc_pll_params]
    split
    · omega
    · split <;> omega
  unfold gk20a_clk_set_rate
  simp only [hc, if_true]

theorem gk20a_clk_set_rate_same_witness :
    max 403 (min 9999 806) = clk_quick.gpc_pll.freq ∧
    gk20a_clk_set_rate trim_example env_dead clk_quick [] 9999 = ⟨Status.ret 0, clk_quick, []⟩ :=
  ⟨by decide, gk20a_clk_set_rate_same trim_example env_dead clk_quick [] 9999 (by decide)⟩

/-! ## The search of `clk_config_pll` -/

theorem try_candidate_inv (p : pll_parms) (ref min_vco max_vco target lo hi pl m n : Nat)
    (bf : Bool) (b : Best)
    (hm : p.min_M ≤ m ∧ m ≤ p.max_M) (hn : p.min_N ≤ n ∧ n ≤ p.max_N)
    (hu : p.min_u ≤ ref / m ∧ ref / m ≤ p.max_u) (hpl : lo ≤ pl ∧ pl ≤ hi) (hpl1 : pl ≠ 0)
    (hb : Inv p ref min_vco max_vco target lo hi b) :
    ∃ b1, (try_candidate ref min_vco max_vco target pl m n bf b = Scan.next b1 ∨
        try_candidate ref min_vco max_vco target pl m n bf b = Scan.found b1) ∧
      Inv p ref min_vco max_vco target lo hi b1 := by
  unfold try_candidate
  by_cases hv : min_vco ≤ ref * n % U32 / m ∧ ref * n % U32 / m ≤ max_vco
  · simp only [hv, and_self, if_true, hpl1, if_false]
    by_cases hd : abs_u32 ((((ref * n % U32 / m + pl / 2) % U32) / pl + U32 - target) % U32)
        < b.best_delta
    · simp only [hd, if_true]
      have hfit : ∀ d, d = abs_u32 ((((ref * n % U32 / m + pl / 2) % U32) / pl + U32 - target)
            % U32) → Inv p ref min_vco max_vco target lo hi ⟨d, m, n, pl⟩ := by
        intro d hdd
        right
        exact ⟨hm.1, hm.2, hn.1, hn.2, hpl.1, hpl.2, hu.1, hu.2, hv.1, hv.2, hdd⟩
      split
      · exact ⟨_, Or.inr rfl, hfit _ rfl⟩
      · exact ⟨_, Or.inl rfl, hfit _ rfl⟩
    · simp only [hd, if_false]
      exact ⟨b, Or.inl rfl, hb⟩
  · simp only [hv, if_false]
    exact ⟨b, Or.inl rfl, hb⟩

theorem n_loop_inv (p : pll_parms) (ref min_vco max_vco target lo hi pl m n2 : Nat) (bf : Bool)
    (hm : p.min_M ≤ m ∧ m ≤ p.max_M) (hu : p.min_u ≤ ref / m ∧ ref / m ≤ p.max_u)
    (hpl : lo ≤ pl ∧ pl ≤ hi) (hpl1 : pl ≠ 0)
    (hN : p.max_N + 1 < U32) (hminN : p.min_N ≤ p.max_N + 1) :
    ∀ (fuel n : Nat) (b : Best), n ≤ p.max_N + 1 → p.max_N + 2 - n ≤ fuel →
      Inv p ref min_vco max_vco target lo hi b →
      ∃ b1, (n_loop p ref min_vco max_vco target pl m n2 bf fuel n b = some (Scan.next b1) ∨
          n_loop p ref min_vco max_vco target pl m n2 bf fuel n b = some (Scan.found b1)) ∧
        Inv p ref min_vco max_vco target lo hi b1 := by
  intro fuel
  induction fuel with
  | zero =>
    intro n b hn hf _
    omega
  | succ fuel ih =>
    intro n b hn hf hb
    unfold n_loop
    by_cases h1 : n ≤ n2
    · simp only [h1, if_true]
      by_cases h2 : n < p.min_N
      · simp only [h2, if_true]
        have hmod : (n + 1) % U32 = n + 1 := Nat.mod_eq_of_lt (by omega)
        rw [hmod]
        exact ih (n + 1) b (by omega) (by omega) hb
      · simp only [h2, if_false]
        by_cases h3 : n > p.max_N
        · simp only [h3, if_true]
          exact ⟨b, Or.inl rfl, hb⟩
        · simp only [h3, if_false]
          obtain ⟨b1, hc, hb1⟩ := try_candidate_inv p ref min_vco max_vco target lo hi pl m n bf b
            hm ⟨by omega, by omega⟩ hu hpl hpl1 hb
          have hmod : (n + 1) % U32 = n + 1 := Nat.mod_eq_of_lt (by omega)
          rcases hc with hc | hc
          · rw [hc, hmod]
            exact ih (n + 1) b1 (by omega) (by omega) hb1
          · rw [hc]
            exact ⟨b1, Or.inr rfl, hb1⟩
    · simp only [h1, if_false]
      exact ⟨b, Or.inl rfl, hb⟩

theorem m_loop_inv (p : pll_parms) (ref min_vco max_vco target lo hi pl tv : Nat) (bf : Bool)
    (hpl : lo ≤ pl ∧ pl ≤ hi) (hpl1 : pl ≠ 0)
    (hN : p.max_N + 1 < U32) (hminN : p.min_N ≤ p.max_N + 1)
    (hM : p.max_M + 1 < U32) (hminM : 1 ≤ p.min_M) (hminu : 1 ≤ p.min_u) :
    ∀ (fuel m : Nat) (b : Best), p.min_M ≤ m → m ≤ p.max_M + 1 →
      (p.max_M + 2 - m) + (p.max_N + 2) ≤ fuel →
      Inv p ref min_vco max_vco target lo hi b →
      ∃ b1, (m_loop p ref min_vco max_vco target pl tv bf fuel m b = some (Scan.next b1) ∨
          m_loop p ref min_vco max_vco target pl tv bf fuel m b = some (Scan.found b1)) ∧
        Inv p ref min_vco max_vco target lo hi b1 := by
  intro fuel
  induction fuel with
  | zero =>
    intro m b _ hm hf _
    omega
  | succ fuel ih =>
    intro m b hm0 hm hf hb
    unfold m_loop
    by_cases h1 : m ≤ p.max_M
    · have hmne : m ≠ 0 := by omega
      have hfuel : p.max_N + 2 ≤ fuel := by omega
      have hfuel1 : p.max_M + 2 - (m + 1) + (p.max_N + 2) ≤ fuel := by omega
      have hmod : (m + 1) % U32 = m + 1 := Nat.mod_eq_of_lt (by omega)
      simp only [h1, if_true, hmne, if_false]
      by_cases h2 : ref / m < p.min_u
      · simp only [h2, if_true]
        exact ⟨b, Or.inl rfl, hb⟩
      · simp only [h2, if_false]
        by_cases h3 : ref / m > p.max_u
        · simp only [h3, if_true, hmod]
          exact ih (m + 1) b (by omega) (by omega) hfuel1 hb
        · simp only [h3, if_false]
          have href : ref ≠ 0 := by
            intro h0
            rw [h0, Nat.zero_div] at h2
            omega
          simp only [href, if_false]
          by_cases h4 : tv * m % U32 / ref > p.max_N
          · simp only [h4, if_true]
            exact ⟨b, Or.inl rfl, hb⟩
          · simp only [h4, if_false]
            obtain ⟨b1, hc, hb1⟩ := n_loop_inv p ref min_vco max_vco target lo hi pl m
              ((tv * m % U32 + (ref - 1)) % U32 / ref) bf ⟨hm0, h1⟩ ⟨by omega, by omega⟩ hpl hpl1
              hN hminN fuel (tv * m % U32 / ref) b (by omega)
              (Nat.le_trans (Nat.sub_le _ _) hfuel) hb
            rcases hc with hc | hc
            · rw [hc]
              simp only [hmod]
              exact ih (m + 1) b1 (by omega) (by omega) hfuel1 hb1
            · rw [hc]
              exact ⟨b1, Or.inr rfl, hb1⟩
    · simp only [h1, if_false]
      exact ⟨b, Or.inl rfl, hb⟩

theorem pl_loop_inv (p : pll_parms) (ref min_vco max_vco target lo hi : Nat) (bf : Bool)
    (hlo : 1 ≤ lo)
    (hN : p.max_N + 1 < U32) (hminN : p.min_N ≤ p.max_N + 1)
    (hM : p.max_M + 1 < U32) (hminM : 1 ≤ p.min_M) (hMM : p.min_M ≤ p.max_M + 1)
    (hminu : 1 ≤ p.min_u) :
    ∀ (fuel pl : Nat) (b : Best), pl ≤ hi →
      pl + 1 + (p.max_M + 2 + (p.max_N + 2)) ≤ fuel →
      Inv p ref min_vco max_vco target lo hi b →
      ∃ b1, (pl_loop p ref min_vco max_vco target lo bf fuel pl b = some (Scan.next b1) ∨
          pl_loop p ref min_vco max_vco target lo bf fuel pl b = some (Scan.found b1)) ∧
        Inv p ref min_vco max_vco target lo hi b1 := by
  intro fuel
  induction fuel with
  | zero =>
    intro pl b _ hf _
    omega
  | succ fuel ih =>
    intro pl b hpl hf hb
    unfold pl_loop
    by_cases h1 : pl ≥ lo
    · have hpl0 : pl ≠ 0 := by omega
      simp only [h1, if_true, hpl0, if_false]
      obtain ⟨b1, hc, hb1⟩ := m_loop_inv p ref min_vco max_vco target lo hi pl
        (target * pl % U32) bf ⟨h1, hpl⟩ hpl0 hN hminN hM hminM hminu fuel p.min_M b
        (le_refl _) hMM (by omega) hb
      rcases hc with hc | hc
      · rw [hc]
        exact ih (pl - 1) b1 (by omega) (by omega) hb1
      · rw [hc]
        exact ⟨b1, Or.inr rfl, hb1⟩
    · simp only [h1, if_false]
      exact ⟨b, Or.inl rfl, hb⟩

theorem clk_config_pll_gpc_run (q : pll) (target : Nat) (ht : 403 ≤ target ∧ target ≤ 806)
    (bf : Bool) :
    ∃ b, clk_config_pll solver_fuel q gpc_pll_params target bf = some (found_match q b) ∧
      Inv gpc_pll_params q.clk_in 1100 2200 target 1 63 b := by
  have htv : (target + target / 50) % U32 = target + target / 50 :=
    Nat.mod_eq_of_lt (by simp only [U32]; omega)
  have htv0 : target + target / 50 ≠ 0 := by omega
  have hmax : ¬ (2200 < target + target / 50) := by omega
  obtain ⟨b1, hc, hb1⟩ := pl_loop_inv gpc_pll_params q.clk_in 1100 2200 target
    (max (min (1100 / (target + target / 50)) 63) 1)
    (max (min (((2200 + (target + target / 50) - 1) % U32) / (target + target / 50)) 63) 1) bf
    (le_max_right _ _) (by decide) (by decide) (by decide) (by decide) (by decide) (by decide)
    solver_fuel
    (max (min (((2200 + (target + target / 50) - 1) % U32) / (target + target / 50)) 63) 1)
    ⟨U32 - 1, 255, 8, 1⟩ (le_refl _)
    (by
      have h63 : max (min (((2200 + (target + target / 50) - 1) % U32) /
          (target + target / 50)) 63) 1 ≤ 63 := max_le (min_le_right _ _) (by decide)
      simp only [gpc_pll_params, solver_fuel]
      omega)
    (Or.inl rfl)
  have hweak : Inv gpc_pll_params q.clk_in 1100 2200 target 1 63 b1 := by
    rcases hb1 with h | h
    · exact Or.inl h
    · right
      obtain ⟨h1, h2, h3, h4, h5, h6, h7⟩ := h
      exact ⟨h1, h2, h3, h4, le_trans (le_max_right _ _) h5,
        le_trans h6 (max_le (min_le_right _ _) (by decide)), h7⟩
  refine ⟨b1, ?_, hweak⟩
  unfold clk_config_pll
  simp only [gpc_pll_params, htv, htv0, hmax, if_false] at hc ⊢
  rcases hc with hc | hc <;> rw [hc]

theorem found_match_gpc (q : pll) (b : Best) (target : Nat)
    (hb : Inv gpc_pll_params q.clk_in 1100 2200 target 1 63 b) :
    found_match q b = Solve.bug ∨
    (found_match q b =
        Solve.ok { q with M := b.best_M, N := b.best_N, PL := b.best_PL,
                          freq := q.clk_in * b.best_N / (b.best_M * b.best_PL) }
          (q.clk_in * b.best_N / (b.best_M * b.best_PL)) ∧
      Fits gpc_pll_params q.clk_in 1100 2200 target 1 63 b ∧
      q.clk_in * b.best_N < U32 ∧ q.clk_in < 25856) := by
  unfold found_match
  by_cases hd : b.best_delta = U32 - 1
  · left
    simp only [hd, if_true]
  · right
    rcases hb with h | h
    · exact absurd h hd
    · have hf := h
      simp only [Fits, gpc_pll_params] at h
      obtain ⟨hM1, hM2, hN1, hN2, hP1, hP2, hu1, hu2, hv1, hv2, -⟩ := h
      have hMpos : 0 < b.best_M := by omega
      have hprod1 : b.best_M * b.best_PL ≤ 255 * 63 := Nat.mul_le_mul hM2 hP2
      have hprod2 : 0 < b.best_M * b.best_PL := Nat.mul_pos hMpos (by omega)
      have hmodp : b.best_M * b.best_PL % U32 = b.best_M * b.best_PL :=
        Nat.mod_eq_of_lt (by simp only [U32]; omega)
      have href : q.clk_in < 101 * b.best_M :=
        (Nat.div_lt_iff_lt_mul hMpos).mp (by omega)
      have href2 : q.clk_in < 25856 := by omega
      have hrn : q.clk_in * b.best_N ≤ 25856 * 255 :=
        Nat.mul_le_mul (by omega) hN2
      have hrn2 : q.clk_in * b.best_N < U32 := by simp only [U32]; omega
      have hmodn : q.clk_in * b.best_N % U32 = q.clk_in * b.best_N := Nat.mod_eq_of_lt hrn2
      have hne : b.best_M * b.best_PL ≠ 0 := by omega
      simp only [hd, if_false, hmodp, hmodn, hne]
      exact ⟨trivial, hf, hrn2, href2⟩

/-- C1: for the table `gpc_pll_params`, every reference clock and every target in
`[403, 806]`, `clk_config_pll` ends within its fuel, without a division by zero, either
in the fatal check `BUG_ON(best_delta == ~0)` or with coefficients such that M is in
`[1, 255]`, N in `[8, 255]`, PL in `[1, 63]`, `u = ref / M` in `[25, 100]` and
`vco = ref * N / M` in `[1100, 2244]`. -/
theorem clk_config_pll_in_bounds (q : pll) (target : Nat) (ht : 403 ≤ target ∧ target ≤ 806)
    (best_fit : Bool) :
    clk_config_pll solver_fuel q gpc_pll_params target best_fit = some Solve.bug ∨
    ∃ q1 f, clk_config_pll solver_fuel q gpc_pll_params target best_fit = some (Solve.ok q1 f) ∧
      1 ≤ q1.M ∧ q1.M ≤ 255 ∧ 8 ≤ q1.N ∧ q1.N ≤ 255 ∧ 1 ≤ q1.PL ∧ q1.PL ≤ 63 ∧
      25 ≤ q.clk_in / q1.M ∧ q.clk_in / q1.M ≤ 100 ∧
      1100 ≤ q.clk_in * q1.N / q1.M ∧ q.clk_in * q1.N / q1.M ≤ 2244 := by
  obtain ⟨b, hrun, hb⟩ := clk_config_pll_gpc_run q target ht best_fit
  rcases found_match_gpc q b target hb with h | ⟨h, hf, hrn, -⟩
  · left
    rw [hrun, h]
  · right
    refine ⟨_, _, by rw [hrun, h], ?_⟩
    simp only [Fits, gpc_pll_params, Nat.mod_eq_of_lt hrn] at hf
    obtain ⟨hM1, hM2, hN1, hN2, hP1, hP2, hu1, hu2, hv1, hv2, -⟩ := hf
    refine ⟨hM1, hM2, hN1, hN2, hP1, hP2, hu1, hu2, hv1, ?_⟩
    show q.clk_in * b.best_N / b.best_M ≤ 2244
    omega

theorem clk_config_pll_in_bounds_witness :
    (403 ≤ 500 ∧ 500 ≤ 806) ∧
    (clk_config_pll solver_fuel ⟨26, 1, 31, 1, 806⟩ gpc_pll_params 500 true = some Solve.bug ∨
     ∃ q1 f, clk_config_pll solver_fuel ⟨26, 1, 31, 1, 806⟩ gpc_pll_params 500 true
        = some (Solve.ok q1 f) ∧
      1 ≤ q1.M ∧ q1.M ≤ 255 ∧ 8 ≤ q1.N ∧ q1.N ≤ 255 ∧ 1 ≤ q1.PL ∧ q1.PL ≤ 63 ∧
      25 ≤ (26 : Nat) / q1.M ∧ (26 : Nat) / q1.M ≤ 100 ∧
      1100 ≤ 26 * q1.N / q1.M ∧ 26 * q1.N / q1.M ≤ 2244) :=
  ⟨by decide, clk_config_pll_in_bounds ⟨26, 1, 31, 1, 806⟩ 500 (by decide) true⟩

theorem clamp_rate_eq (rate : Nat) : clamp_rate rate = max 403 (min rate 806) := by
  simp only [clamp_rate, gpc_pll_params]
  split
  · omega
  · split <;> omega

theorem clamp_rate_range (rate : Nat) : 403 ≤ clamp_rate rate ∧ clamp_rate rate ≤ 806 := by
  rw [clamp_rate_eq]
  omega

theorem clk_config_pll_gpc_ok (q : pll) (target : Nat) (ht : 403 ≤ target ∧ target ≤ 806)
    (bf : Bool) (q1 : pll) (f : Nat)
    (h : clk_config_pll solver_fuel q gpc_pll_params target bf = some (Solve.ok q1 f)) :
    ∃ b, Fits gpc_pll_params q.clk_in 1100 2200 target 1 63 b ∧
      q1 = { q with M := b.best_M, N := b.best_N, PL := b.best_PL,
                    freq := q.clk_in * b.best_N / (b.best_M * b.best_PL) } ∧
      f = q.clk_in * b.best_N / (b.best_M * b.best_PL) ∧
      q.clk_in * b.best_N < U32 ∧ q.clk_in < 25856 := by
  obtain ⟨b, hrun, hb⟩ := clk_config_pll_gpc_run q target ht bf
  rw [hrun] at h
  have h1 : found_match q b = Solve.ok q1 f := Option.some.inj h
  rcases found_match_gpc q b target hb with hbug | ⟨hok, hf, hrn, href⟩
  · rw [hbug] at h1
    exact Solve.noConfusion h1
  · rw [hok] at h1
    injection h1 with hq hfreq
    exact ⟨b, hf, hq.symm, hfreq.symm, hrn, href⟩

theorem clk_config_pll_gpc_freq_le (q : pll) (target : Nat) (ht : 403 ≤ target ∧ target ≤ 806)
    (bf : Bool) (q1 : pll) (f : Nat)
    (h : clk_config_pll solver_fuel q gpc_pll_params target bf = some (Solve.ok q1 f)) :
    f ≤ 2200 := by
  obtain ⟨b, hf, -, hfe, hrn, -⟩ := clk_config_pll_gpc_ok q target ht bf q1 f h
  simp only [Fits, gpc_pll_params, Nat.mod_eq_of_lt hrn] at hf
  obtain ⟨-, -, -, -, -, -, -, -, -, hv2, -⟩ := hf
  rw [hfe, ← Nat.div_div_eq_div_mul]
  exact le_trans (Nat.div_le_self _ _) hv2

theorem apply_rate_clk (T : trim_sys) (E : Env) (clk : clk_gk20a) (tr : List Ev)
    (freq rate : Nat) : (apply_rate T E clk tr freq rate).clk = clk := by
  unfold apply_rate
  generalize (if rate > freq then tegra_dvfs_set_rate E tr clk.tegra_clk (rate * MHz % U32)
    else (0, tr)) = up
  by_cases h : up.1 ≠ 0
  · rw [if_pos h]
  · rw [if_neg h]
    rcases clk_program_gpc_pll T E clk up.2 with ⟨st, tr1⟩
    cases st with
    | ret err =>
      by_cases he : err ≠ 0
      · simp only [if_pos he]
      · simp only [if_neg he]
        split <;> rfl
    | bug => rfl
    | div0 => rfl
    | hang => rfl

theorem gk20a_clk_set_rate_pll (T : trim_sys) (E : Env) (clk : clk_gk20a) (tr : List Ev)
    (rate : Nat) :
    (gk20a_clk_set_rate T E clk tr rate).clk = clk ∨
    ∃ q1 f, clk_config_pll solver_fuel clk.gpc_pll gpc_pll_params (clamp_rate rate) true
        = some (Solve.ok q1 f) ∧
      (gk20a_clk_set_rate T E clk tr rate).clk = { clk with gpc_pll := q1 } := by
  unfold gk20a_clk_set_rate
  by_cases h : clamp_rate rate = clk.gpc_pll.freq
  · left
    simp only [h, if_true]
  · simp only [h, if_false]
    cases hs : clk_config_pll solver_fuel clk.gpc_pll gpc_pll_params (clamp_rate rate) true with
    | none => exact Or.inl rfl
    | some r =>
      cases r with
      | bug => exact Or.inl rfl
      | div0 => exact Or.inl rfl
      | ok q1 f =>
        right
        exact ⟨q1, f, rfl, apply_rate_clk T E _ tr _ f⟩

theorem reachable_inv (T : trim_sys) (clk : clk_gk20a) (h : Reachable T clk) :
    clk.gpc_pll.clk_in = 26 ∧
    clk.gpc_pll.freq = clk.gpc_pll.clk_in * clk.gpc_pll.N / (clk.gpc_pll.M * clk.gpc_pll.PL) := by
  induction h with
  | init E clk tr h =>
    unfold gk20a_init_clk_setup_sw
    simp only [h, Bool.false_eq_true, if_false]
    split
    · refine ⟨rfl, ?_⟩
      show 26 * 31 % U32 / (1 * 1 % U32) = 26 * 31 / (1 * 1)
      decide
    · refine ⟨rfl, ?_⟩
      show 26 * 31 % U32 / (1 * 1 % U32) = 26 * 31 / (1 * 1)
      decide
  | set_rate E clk tr rate _ ih =>
    rcases gk20a_clk_set_rate_pll T E clk tr rate with hsame | ⟨q1, f, hs, hclk⟩
    · rw [hsame]
      exact ih
    · rw [hclk]
      obtain ⟨b, -, hq, -, -, -⟩ := clk_config_pll_gpc_ok clk.gpc_pll (clamp_rate rate)
        (clamp_rate_range rate) true q1 f hs
      subst hq
      exact ⟨ih.1, rfl⟩

/-- C3: in every state reachable from `gk20a_init_clk_setup_sw` through calls of
`gk20a_clk_set_rate`, the cached frequency is `clk_in * N / (M * PL)` in integer division
over the stored coefficients; and whatever `clk_config_pll` writes back through
`*target_freq` from such a state is that recomputed value, equal to the `freq` it stores. -/
theorem cached_freq_recomputed (T : trim_sys) (clk : clk_gk20a) (h : Reachable T clk) :
    clk.gpc_pll.freq = clk.gpc_pll.clk_in * clk.gpc_pll.N / (clk.gpc_pll.M * clk.gpc_pll.PL) ∧
    ∀ (target : Nat) (best_fit : Bool) (q1 : pll) (f : Nat),
      403 ≤ target → target ≤ 806 →
      clk_config_pll solver_fuel clk.gpc_pll gpc_pll_params target best_fit
        = some (Solve.ok q1 f) →
      f = q1.freq ∧ q1.freq = q1.clk_in * q1.N / (q1.M * q1.PL) := by
  refine ⟨(reachable_inv T clk h).2, ?_⟩
  intro target best_fit q1 f h1 h2 hs
  obtain ⟨b, -, hq, hf, -, -⟩ := clk_config_pll_gpc_ok clk.gpc_pll target ⟨h1, h2⟩ best_fit q1 f hs
  subst hq
  exact ⟨hf, rfl⟩

theorem cached_freq_recomputed_witness :
    Reachable trim_example clk_410 ∧
    clk_410.gpc_pll.freq =
      clk_410.gpc_pll.clk_in * clk_410.gpc_pll.N / (clk_410.gpc_pll.M * clk_410.gpc_pll.PL) := by
  have h : Reachable trim_example clk_410 := by
    unfold clk_410
    exact Reachable.set_rate env_locked _ [] 410 (Reachable.init env_locked clk_fresh [] rfl)
  exact ⟨h, (cached_freq_recomputed trim_example clk_410 h).1⟩

/-! ## Voltage and frequency -/

theorem gpc_pll_setup_trace (T : trim_sys) (E : Env) (clk : clk_gk20a) (tr : List Ev) :
    ∃ s1 : List Ev, gpc_pll_setup T E clk tr = tr ++ s1 ∧ dvfs_calls s1 = [] := by
  obtain ⟨d1, c1, c2, c3, -, hsetup⟩ := gpc_pll_setup_eq T E clk tr
  refine ⟨_, hsetup, ?_⟩
  simp only [dvfs_calls_append]
  split <;> rfl

theorem clk_program_gpc_pll_trace (T : trim_sys) (E : Env) (clk : clk_gk20a) (tr : List Ev) :
    ∃ seq : List Ev, (clk_program_gpc_pll T E clk tr).2 = tr ++ seq ∧ dvfs_calls seq = [] ∧
      ((clk_program_gpc_pll T E clk tr).1 = Status.ret 0 ∨
       (clk_program_gpc_pll T E clk tr).1 = Status.bug) := by
  obtain ⟨s1, hsetup, hs1⟩ := gpc_pll_setup_trace T E clk tr
  obtain ⟨vs, -, hcase⟩ := lock_wait_spec T E clk.pll_delay (gpc_pll_setup T E clk tr)
  rcases hcase with hw | ⟨v, -, hw⟩
  · have hprog : clk_program_gpc_pll T E clk tr
        = (Status.bug, gpc_pll_setup T E clk tr ++ idle_polls T vs ++ [Ev.bug]) := by
      unfold clk_program_gpc_pll
      simp only [hw]
    rw [hprog, hsetup]
    refine ⟨s1 ++ idle_polls T vs ++ [Ev.bug], by simp only [List.append_assoc], ?_, Or.inr rfl⟩
    simp only [dvfs_calls_append, dvfs_calls_idle_polls, hs1]
    rfl
  · have hprog : clk_program_gpc_pll T E clk tr
        = (Status.ret 0, gpc_pll_setup T E clk tr ++ idle_polls T vs ++
            [Ev.readl T.gpcpll_cfg_r v] ++
            [Ev.readl T.sel_vco_r
              (E.readl (gpc_pll_setup T E clk tr ++ idle_polls T vs ++ [Ev.readl T.gpcpll_cfg_r v])
                T.sel_vco_r % U32)] ++
            [Ev.writel T.sel_vco_r
              (set_field
                (E.readl (gpc_pll_setup T E clk tr ++ idle_polls T vs ++ [Ev.readl T.gpcpll_cfg_r v])
                  T.sel_vco_r % U32)
                T.sel_vco_gpc2clk_out_m T.sel_vco_gpc2clk_out_vco_f)]) := by
      unfold clk_program_gpc_pll
      simp only [hw, gk20a_readl, gk20a_writel, List.append_assoc, List.cons_append,
        List.nil_append]
    rw [hprog]
    generalize E.readl _ T.sel_vco_r % U32 = d2
    rw [hsetup]
    refine ⟨s1 ++ idle_polls T vs ++ [Ev.readl T.gpcpll_cfg_r v] ++ [Ev.readl T.sel_vco_r d2] ++
      [Ev.writel T.sel_vco_r
        (set_field d2 T.sel_vco_gpc2clk_out_m T.sel_vco_gpc2clk_out_vco_f)],
      by simp only [List.append_assoc], ?_, Or.inl rfl⟩
    simp only [dvfs_calls_append, dvfs_calls_idle_polls, hs1]
    rfl

theorem mhz_no_wrap (f : Nat) (h : f ≤ 2200) : f * MHz % U32 = f * 1000000 := by
  simp only [MHz, U32]
  omega

theorem clk_program_gpc_pll_cases (T : trim_sys) (E : Env) (clk : clk_gk20a) (tr : List Ev) :
    ∃ seq : List Ev, dvfs_calls seq = [] ∧
      (clk_program_gpc_pll T E clk tr = (Status.ret 0, tr ++ seq) ∨
       clk_program_gpc_pll T E clk tr = (Status.bug, tr ++ seq)) := by
  obtain ⟨seq, h2, hd, h1⟩ := clk_program_gpc_pll_trace T E clk tr
  refine ⟨seq, hd, ?_⟩
  rcases h1 with h1 | h1
  · exact Or.inl (Prod.ext h1 h2)
  · exact Or.inr (Prod.ext h1 h2)

theorem apply_rate_up (T : trim_sys) (E : Env) (clk : clk_gk20a) (tr : List Ev)
    (freq rate : Nat) (hup : rate > freq) :
    ∃ (ret : Int) (seq : List Ev),
      (apply_rate T E clk tr freq rate).trace =
        tr ++ Ev.dvfs_set_rate clk.tegra_clk (rate * MHz % U32) ret :: seq ∧
      dvfs_calls seq = [] := by
  unfold apply_rate
  simp only [if_pos hup, tegra_dvfs_set_rate]
  by_cases herr : E.tegra_dvfs_set_rate tr clk.tegra_clk (rate * MHz % U32) ≠ 0
  · rw [if_pos herr]
    exact ⟨_, [], rfl, rfl⟩
  · rw [if_neg herr]
    have hnd : ¬ rate < freq := by omega
    obtain ⟨seq, hd, hc⟩ := clk_program_gpc_pll_cases T E clk
      (tr ++ [Ev.dvfs_set_rate clk.tegra_clk (rate * MHz % U32)
        (E.tegra_dvfs_set_rate tr clk.tegra_clk (rate * MHz % U32))])
    refine ⟨E.tegra_dvfs_set_rate tr clk.tegra_clk (rate * MHz % U32), seq, ?_, hd⟩
    rcases hc with hc | hc
    · rw [hc]
      simp only [ne_eq, not_true_eq_false, if_false, hnd, List.append_assoc, List.cons_append,
        List.nil_append]
    · rw [hc]
      simp only [List.append_assoc, List.cons_append, List.nil_append]

theorem apply_rate_down (T : trim_sys) (E : Env) (clk : clk_gk20a) (tr : List Ev)
    (freq rate : Nat) (hdown : rate < freq) :
    ∃ seq : List Ev, dvfs_calls seq = [] ∧
      (((apply_rate T E clk tr freq rate).status = Status.bug ∧
          (apply_rate T E clk tr freq rate).trace = tr ++ seq) ∨
       ∃ ret : Int, (apply_rate T E clk tr freq rate).status = Status.ret ret ∧
          (apply_rate T E clk tr freq rate).trace =
            tr ++ seq ++ [Ev.dvfs_set_rate clk.tegra_clk (rate * MHz % U32) ret]) := by
  unfold apply_rate
  have hnu : ¬ rate > freq := by omega
  simp only [if_neg hnu, ne_eq, not_true_eq_false, if_false, tegra_dvfs_set_rate]
  obtain ⟨seq, hd, hc⟩ := clk_program_gpc_pll_cases T E clk tr
  refine ⟨seq, hd, ?_⟩
  rcases hc with hc | hc
  · right
    rw [hc]
    simp only [if_pos hdown]
    exact ⟨_, rfl, rfl⟩
  · left
    rw [hc]
    exact ⟨rfl, rfl⟩

theorem apply_rate_level (T : trim_sys) (E : Env) (clk : clk_gk20a) (tr : List Ev)
    (freq : Nat) :
    ∃ seq : List Ev, (apply_rate T E clk tr freq freq).trace = tr ++ seq ∧
      dvfs_calls seq = [] := by
  unfold apply_rate
  have hnu : ¬ freq > freq := by omega
  have hnd : ¬ freq < freq := by omega
  simp only [if_neg hnu, ne_eq, not_true_eq_false, if_false, if_neg hnd]
  obtain ⟨seq, hd, hc⟩ := clk_program_gpc_pll_cases T E clk tr
  refine ⟨seq, ?_, hd⟩
  rcases hc with hc | hc
  · rw [hc]
    simp only [not_true_eq_false, if_false]
  · rw [hc]

/-- C6: in a call of `gk20a_clk_set_rate` that reaches the solver and gets a frequency
`f` back: if `f` is above the previous frequency, the first thing added to the trace is
the voltage call for `f * 1000000` and nothing after it is a voltage call, so it is the
only one and precedes every register write; if `f` is below, everything the sequencer
does comes first, without a voltage call in it, and once the sequencer has returned the
one voltage call for `f * 1000000` closes the trace (a run the sequencer stops in `BUG()`
ends there, before any voltage call); if `f` equals the previous frequency the trace
gains no voltage call. -/
theorem gk20a_clk_set_rate_voltage_order (T : trim_sys) (E : Env) (clk : clk_gk20a)
    (tr : List Ev) (rate : Nat) (q1 : pll) (f : Nat)
    (hne : clamp_rate rate ≠ clk.gpc_pll.freq)
    (hs : clk_config_pll solver_fuel clk.gpc_pll gpc_pll_params (clamp_rate rate) true
      = some (Solve.ok q1 f)) :
    (f > clk.gpc_pll.freq →
      ∃ (ret : Int) (seq : List Ev),
        (gk20a_clk_set_rate T E clk tr rate).trace =
          tr ++ Ev.dvfs_set_rate clk.tegra_clk (f * 1000000) ret :: seq ∧
        dvfs_calls seq = []) ∧
    (f < clk.gpc_pll.freq →
      ∃ seq : List Ev, dvfs_calls seq = [] ∧
        (((gk20a_clk_set_rate T E clk tr rate).status = Status.bug ∧
            (gk20a_clk_set_rate T E clk tr rate).trace = tr ++ seq) ∨
         ∃ ret : Int, (gk20a_clk_set_rate T E clk tr rate).status = Status.ret ret ∧
            (gk20a_clk_set_rate T E clk tr rate).trace =
              tr ++ seq ++ [Ev.dvfs_set_rate clk.tegra_clk (f * 1000000) ret])) ∧
    (f = clk.gpc_pll.freq →
      dvfs_calls ((gk20a_clk_set_rate T E clk tr rate).trace.drop tr.length) = []) := by
  have hf := clk_config_pll_gpc_freq_le clk.gpc_pll (clamp_rate rate) (clamp_rate_range rate)
    true q1 f hs
  have hmod := mhz_no_wrap f hf
  have hrun : gk20a_clk_set_rate T E clk tr rate
      = apply_rate T E { clk with gpc_pll := q1 } tr clk.gpc_pll.freq f := by
    unfold gk20a_clk_set_rate
    simp only [if_neg hne, hs]
  rw [hrun]
  refine ⟨?_, ?_, ?_⟩
  · intro hup
    have h := apply_rate_up T E { clk with gpc_pll := q1 } tr clk.gpc_pll.freq f hup
    rw [hmod] at h
    exact h
  · intro hdown
    have h := apply_rate_down T E { clk with gpc_pll := q1 } tr clk.gpc_pll.freq f hdown
    rw [hmod] at h
    exact h
  · intro heq
    rw [← heq]
    obtain ⟨seq, ht, hd⟩ := apply_rate_level T E { clk with gpc_pll := q1 } tr f
    rw [ht, List.drop_left]
    exact hd

theorem gk20a_clk_set_rate_voltage_order_witness :
    (clamp_rate 403 ≠ clk_quick.gpc_pll.freq ∧
     clk_config_pll solver_fuel clk_quick.gpc_pll gpc_pll_params (clamp_rate 403) true
       = some (Solve.ok ⟨26, 1, 62, 4, 403⟩ 403)) ∧
    (403 < clk_quick.gpc_pll.freq ∧
      ∃ seq : List Ev, dvfs_calls seq = [] ∧
        (((gk20a_clk_set_rate trim_example env_locked clk_quick [] 403).status = Status.bug ∧
            (gk20a_clk_set_rate trim_example env_locked clk_quick [] 403).trace = [] ++ seq) ∨
         ∃ ret : Int,
            (gk20a_clk_set_rate trim_example env_locked clk_quick [] 403).status
              = Status.ret ret ∧
            (gk20a_clk_set_rate trim_example env_locked clk_quick [] 403).trace =
              [] ++ seq ++ [Ev.dvfs_set_rate clk_quick.tegra_clk (403 * 1000000) ret])) :=
  ⟨⟨by decide, by decide⟩, by decide,
   (gk20a_clk_set_rate_voltage_order trim_example env_locked clk_quick [] 403
      ⟨26, 1, 62, 4, 403⟩ 403 (by decide) (by decide)).2.1 (by decide)⟩

/-- C7: when the solver gives a frequency above the previous one and the voltage call
made before programming fails, `gk20a_clk_set_rate` returns the error of that call, the
only thing it has added to the trace is that one voltage call (no register access, no
second voltage call), and the clock state holds the coefficients and frequency the
solver has just computed. -/
theorem gk20a_clk_set_rate_raise_fails (T : trim_sys) (E : Env) (clk : clk_gk20a)
    (tr : List Ev) (rate : Nat) (q1 : pll) (f : Nat)
    (hne : clamp_rate rate ≠ clk.gpc_pll.freq)
    (hs : clk_config_pll solver_fuel clk.gpc_pll gpc_pll_params (clamp_rate rate) true
      = some (Solve.ok q1 f))
    (hup : f > clk.gpc_pll.freq)
    (herr : E.tegra_dvfs_set_rate tr clk.tegra_clk (f * 1000000) ≠ 0) :
    gk20a_clk_set_rate T E clk tr rate =
      ⟨Status.ret (E.tegra_dvfs_set_rate tr clk.tegra_clk (f * 1000000)),
       { clk with gpc_pll := q1 },
       tr ++ [Ev.dvfs_set_rate clk.tegra_clk (f * 1000000)
                (E.tegra_dvfs_set_rate tr clk.tegra_clk (f * 1000000))]⟩ := by
  have hf := clk_config_pll_gpc_freq_le clk.gpc_pll (clamp_rate rate) (clamp_rate_range rate)
    true q1 f hs
  have hmod := mhz_no_wrap f hf
  unfold gk20a_clk_set_rate
  simp only [if_neg hne, hs]
  unfold apply_rate
  simp only [if_pos hup, tegra_dvfs_set_rate, hmod, if_pos herr]

theorem gk20a_clk_set_rate_raise_fails_witness :
    (clamp_rate 806 ≠ clk_low.gpc_pll.freq ∧
     clk_config_pll solver_fuel clk_low.gpc_pll gpc_pll_params (clamp_rate 806) true
       = some (Solve.ok ⟨26, 1, 62, 2, 806⟩ 806) ∧
     806 > clk_low.gpc_pll.freq ∧
     env_novolt.tegra_dvfs_set_rate [] clk_low.tegra_clk (806 * 1000000) ≠ 0) ∧
    gk20a_clk_set_rate trim_example env_novolt clk_low [] 806 =
      ⟨Status.ret (-22), { clk_low with gpc_pll := ⟨26, 1, 62, 2, 806⟩ },
       [Ev.dvfs_set_rate (some 1) 806000000 (-22)]⟩ :=
  ⟨⟨by decide, by decide, by decide, by decide⟩,
   gk20a_clk_set_rate_raise_fails trim_example env_novolt clk_low [] 806 ⟨26, 1, 62, 2, 806⟩ 806
     (by decide) (by decide) (by decide) (by decide)⟩

/-! ## The search against the search problem of the specification -/

theorem best_rounded_403 : ∀ i < 101, best_rounded (403 + i) = true := by
  decide!

theorem best_rounded_504 : ∀ i < 101, best_rounded (504 + i) = true := by
  decide!

theorem best_rounded_605 : ∀ i < 101, best_rounded (605 + i) = true := by
  decide!

theorem best_rounded_706 : ∀ i < 101, best_rounded (706 + i) = true := by
  decide!

theorem best_rounded_all (target : Nat) (ht : 403 ≤ target ∧ target ≤ 806) :
    best_rounded target = true := by
  by_cases h1 : target < 504
  · have h := best_rounded_403 (target - 403) (by omega)
    rwa [show 403 + (target - 403) = target by omega] at h
  · by_cases h2 : target < 605
    · have h := best_rounded_504 (target - 504) (by omega)
      rwa [show 504 + (target - 504) = target by omega] at h
    · by_cases h3 : target < 706
      · have h := best_rounded_605 (target - 605) (by omega)
        rwa [show 605 + (target - 605) = target by omega] at h
      · have h := best_rounded_706 (target - 706) (by omega)
        rwa [show 706 + (target - 706) = target by omega] at h

theorem unbeaten_spec (target d : Nat) (h : unbeaten target d = true) (n pl : Nat)
    (hpl : 1 ≤ pl ∧ pl ≤ 6) (hn : 43 ≤ n ∧ n ≤ 84) :
    d ≤ absdiff (rounded 26 1 n pl) target := by
  simp only [unbeaten, List.all_eq_true, List.mem_range, decide_eq_true_eq] at h
  have h1 := h (pl - 1) (by omega) (n - 43) (by omega)
  have e1 : 43 + (n - 43) = n := by omega
  have e2 : 1 + (pl - 1) = pl := by omega
  rw [e1, e2] at h1
  exact h1

theorem feasible_26 (m n pl : Nat) (h : feasible gpc_pll_params 26 m n pl) :
    m = 1 ∧ 43 ≤ n ∧ n ≤ 84 ∧ 1 ≤ pl ∧ pl ≤ 63 := by
  simp only [feasible, gpc_pll_params] at h
  obtain ⟨hm1, -, -, -, hp1, hp2, hu1, -, hv1, hv2⟩ := h
  have hm : m = 1 := by
    have := (Nat.le_div_iff_mul_le (by omega : 0 < m)).mp hu1
    omega
  subst hm
  rw [Nat.div_one] at hv1 hv2
  exact ⟨rfl, by omega, by omega, hp1, hp2⟩

theorem rounded_far (n pl : Nat) (hn : n ≤ 84) (hpl : 7 ≤ pl) : rounded 26 1 n pl ≤ 313 := by
  unfold rounded
  rw [Nat.div_one]
  have h1 : (26 * n + pl / 2) / pl ≤ (26 * n + pl) / pl :=
    Nat.div_le_div_right (by omega)
  have h2 : (26 * n + pl) / pl = 26 * n / pl + 1 := Nat.add_div_right _ (by omega)
  have h3 : 26 * n / pl ≤ 26 * n / 7 := Nat.div_le_div_left hpl (by omega)
  omega

theorem found_match_clk_in (q q0 : pll) (h : q.clk_in = q0.clk_in) (b : Best) (q1 : pll)
    (f : Nat) (hs : found_match q0 b = Solve.ok q1 f) :
    found_match q b =
      Solve.ok { q with M := q1.M, N := q1.N, PL := q1.PL, freq := q1.freq } f := by
  unfold found_match at hs ⊢
  rw [h]
  split at hs
  · exact Solve.noConfusion hs
  · split at hs
    · exact Solve.noConfusion hs
    · rename_i h1 h2
      rw [if_neg h1, if_neg h2]
      injection hs with hq hf
      subst hq
      rw [hf]

theorem clk_config_pll_clk_in (fuel : Nat) (q q0 : pll) (p : pll_parms) (t : Nat) (bf : Bool)
    (h : q.clk_in = q0.clk_in) (q1 : pll) (f : Nat)
    (hs : clk_config_pll fuel q0 p t bf = some (Solve.ok q1 f)) :
    clk_config_pll fuel q p t bf =
      some (Solve.ok { q with M := q1.M, N := q1.N, PL := q1.PL, freq := q1.freq } f) := by
  unfold clk_config_pll at hs ⊢
  rw [h]
  by_cases h0 : (t + t / 50) % U32 = 0
  · rw [if_pos h0] at hs
    exact Solve.noConfusion (Option.some.inj hs)
  · rw [if_neg h0] at hs ⊢
    dsimp only at hs ⊢
    generalize pl_loop p q0.clk_in _ _ _ _ _ _ _ _ = r at hs ⊢
    cases r with
    | none => exact Option.noConfusion hs
    | some sc =>
      cases sc with
      | div0 => exact Solve.noConfusion (Option.some.inj hs)
      | next b =>
        have e := found_match_clk_in q q0 h b q1 f (Option.some.inj hs)
        rw [h] at e
        exact congrArg some e
      | found b =>
        have e := found_match_clk_in q q0 h b q1 f (Option.some.inj hs)
        rw [h] at e
        exact congrArg some e

/-- C2, as the code has it: for reference clock 26, the table `gpc_pll_params`, every
target in `[403, 806]` and `best_fit = true`, `clk_config_pll` returns a triple that
satisfies the constraints of the search problem and whose rounded output frequency
`(26 * N / M + PL / 2) / PL`, the value the search ranks by, is at least as close to the
target as that of every triple with M in `[1, 255]`, N in `[8, 255]`, PL in `[1, 63]`,
`25 <= 26 / M <= 100` and `1100 <= 26 * N / M <= 2200`. -/
theorem clk_config_pll_min_rounded (q : pll) (hq : q.clk_in = 26) (target : Nat)
    (ht : 403 ≤ target ∧ target ≤ 806) :
    ∃ q1 f, clk_config_pll solver_fuel q gpc_pll_params target true = some (Solve.ok q1 f) ∧
      feasible gpc_pll_params 26 q1.M q1.N q1.PL ∧
      ∀ m n pl, feasible gpc_pll_params 26 m n pl →
        absdiff (rounded 26 q1.M q1.N q1.PL) target ≤ absdiff (rounded 26 m n pl) target := by
  have hall := best_rounded_all target ht
  unfold best_rounded at hall
  split at hall
  · rename_i q0 f hrun
    simp only [Bool.and_eq_true, decide_eq_true_eq] at hall
    obtain ⟨⟨hfeas, hd6⟩, hunb⟩ := hall
    refine ⟨_, f, clk_config_pll_clk_in solver_fuel q ⟨26, 1, 31, 1, 806⟩ gpc_pll_params target
      true hq q0 f hrun, hfeas, ?_⟩
    intro m n pl hmn
    obtain ⟨hm, hn1, hn2, hp1, hp2⟩ := feasible_26 m n pl hmn
    subst hm
    show absdiff (rounded 26 q0.M q0.N q0.PL) target ≤ absdiff (rounded 26 1 n pl) target
    by_cases hpl : pl ≤ 6
    · exact unbeaten_spec target _ hunb n pl ⟨hp1, hpl⟩ ⟨hn1, hn2⟩
    · have hfar := rounded_far n pl hn2 (by omega)
      have : 90 ≤ absdiff (rounded 26 1 n pl) target := by
        unfold absdiff
        split <;> omega
      omega
  · exact Bool.noConfusion hall

theorem clk_config_pll_min_rounded_witness :
    ((⟨26, 1, 31, 1, 806⟩ : pll).clk_in = 26 ∧ 403 ≤ 410 ∧ 410 ≤ 806) ∧
    ∃ q1 f, clk_config_pll solver_fuel ⟨26, 1, 31, 1, 806⟩ gpc_pll_params 410 true
        = some (Solve.ok q1 f) ∧
      feasible gpc_pll_params 26 q1.M q1.N q1.PL ∧
      ∀ m n pl, feasible gpc_pll_params 26 m n pl →
        absdiff (rounded 26 q1.M q1.N q1.PL) 410 ≤ absdiff (rounded 26 m n pl) 410 :=
  ⟨by decide, clk_config_pll_min_rounded ⟨26, 1, 31, 1, 806⟩ rfl 410 (by decide)⟩

/-- C2, as stated, fails at target 410: `clk_config_pll` returns M = 1, N = 63, PL = 4,
which gives 26 * 63 / 4 = 409, while the triple M = 1, N = 79, PL = 5 satisfies every
constraint and gives 26 * 79 / 5 = 410, the target itself. -/
theorem clk_config_pll_not_min_achieved :
    clk_config_pll solver_fuel ⟨26, 1, 31, 1, 806⟩ gpc_pll_params 410 true
      = some (Solve.ok ⟨26, 1, 63, 4, 409⟩ 409) ∧
    feasible gpc_pll_params 26 1 79 5 ∧
    absdiff (achieved 26 1 79 5) 410 < absdiff (achieved 26 1 63 4) 410 := by
  decide

/-! ## Initialisation -/

theorem wait_pll_lock_live_fst (T : trim_sys) (E : Env)
    (hlock : ∀ tr1, E.readl tr1 T.gpcpll_cfg_r % U32 &&& T.gpcpll_cfg_pll_lock_true_f ≠ 0) :
    ∀ (left : Nat) (tr : List Ev), (wait_pll_lock T E left tr).1 = true := by
  intro left tr
  cases left with
  | zero => simp [wait_pll_lock, poll_lock, gk20a_readl, hlock]
  | succ left => simp [wait_pll_lock, poll_lock, gk20a_readl, hlock]

theorem clk_program_gpc_pll_live (T : trim_sys) (E : Env) (clk : clk_gk20a) (tr : List Ev)
    (hlock : ∀ tr1, E.readl tr1 T.gpcpll_cfg_r % U32 &&& T.gpcpll_cfg_pll_lock_true_f ≠ 0) :
    ∃ seq : List Ev, dvfs_calls seq = [] ∧
      clk_program_gpc_pll T E clk tr = (Status.ret 0, tr ++ seq) := by
  obtain ⟨seq, hd, hc⟩ := clk_program_gpc_pll_cases T E clk tr
  refine ⟨seq, hd, ?_⟩
  rcases hc with hc | hc
  · exact hc
  · exfalso
    have hfst := wait_pll_lock_live_fst T E hlock (clk.pll_delay / 100) (gpc_pll_setup T E clk tr)
    unfold clk_program_gpc_pll at hc
    rcases hw : lock_wait T E clk.pll_delay (gpc_pll_setup T E clk tr) with ⟨locked, tr1⟩
    have hl : locked = true := by
      have h := congrArg Prod.fst hw
      unfold lock_wait at h
      rw [hfst] at h
      exact h.symm
    subst hl
    simp only [hw] at hc
    exact Status.noConfusion (congrArg Prod.fst hc)

theorem apply_rate_live (T : trim_sys) (E : Env) (clk : clk_gk20a) (tr : List Ev)
    (freq rate : Nat)
    (hlock : ∀ tr1, E.readl tr1 T.gpcpll_cfg_r % U32 &&& T.gpcpll_cfg_pll_lock_true_f ≠ 0) :
    ∃ (e : Int) (tr1 : List Ev), apply_rate T E clk tr freq rate = ⟨Status.ret e, clk, tr1⟩ := by
  unfold apply_rate
  generalize (if rate > freq then tegra_dvfs_set_rate E tr clk.tegra_clk (rate * MHz % U32)
    else (0, tr)) = up
  by_cases h : up.1 ≠ 0
  · rw [if_pos h]
    exact ⟨_, _, rfl⟩
  · rw [if_neg h]
    obtain ⟨seq, -, hp⟩ := clk_program_gpc_pll_live T E clk up.2 hlock
    rw [hp]
    simp only [ne_eq, not_true_eq_false, if_false]
    split
    · exact ⟨_, _, rfl⟩
    · exact ⟨_, _, rfl⟩

theorem gk20a_init_clk_support_eq (T : trim_sys) (E : Env) (clk clk1 clk3 : clk_gk20a)
    (tr tr1 tr2 tr3 : List Ev) (e : Int)
    (h1 : gk20a_init_clk_setup_sw E clk tr = ⟨Status.ret 0, clk1, tr1⟩)
    (h2 : gk20a_init_clk_setup_hw T E clk1 tr1 = (Status.ret 0, tr2))
    (h3 : gk20a_clk_set_rate T E clk1 tr2 gpc_pll_params.min_freq = ⟨Status.ret e, clk3, tr3⟩) :
    gk20a_init_clk_support T E clk tr = ⟨Status.ret 0, clk3, tr3⟩ := by
  unfold gk20a_init_clk_support
  have h0 : ¬ gk20a_init_clk_reset_enable_hw ≠ 0 := by decide
  rw [if_neg h0, h1]
  simp only [h2, h3, ne_eq, not_true_eq_false, if_false]

/-- C11: from a clock state not yet set up, with the reference clock handle available
and the lock bit set on every read of the configuration register,
`gk20a_init_clk_support` returns 0 and leaves the coefficients M = 1, N = 62, PL = 4, so
that `gk20a_clk_get_rate` gives 403; nothing is assumed about what the voltage calls
return. -/
theorem gk20a_init_clk_support_min (T : trim_sys) (E : Env) (clk : clk_gk20a) (tr : List Ev)
    (hfresh : clk.sw_ready = false) (c : Nat) (hclk : E.clk_get_sys tr = some c)
    (hlock : ∀ tr1, E.readl tr1 T.gpcpll_cfg_r % U32 &&& T.gpcpll_cfg_pll_lock_true_f ≠ 0) :
    (gk20a_init_clk_support T E clk tr).status = Status.ret 0 ∧
    gk20a_clk_get_rate (gk20a_init_clk_support T E clk tr).clk = 403 ∧
    (gk20a_init_clk_support T E clk tr).clk.gpc_pll.M = 1 ∧
    (gk20a_init_clk_support T E clk tr).clk.gpc_pll.N = 62 ∧
    (gk20a_init_clk_support T E clk tr).clk.gpc_pll.PL = 4 := by
  have hsw : gk20a_init_clk_setup_sw E clk tr =
      ⟨Status.ret 0,
       { tegra_clk := some c, gpc_pll := ⟨26, 1, 31, 1, 806⟩, pll_delay := 5000000,
         sw_ready := true },
       tr ++ [Ev.clk_get_sys (some c)]⟩ := by
    unfold gk20a_init_clk_setup_sw
    simp only [hfresh, Bool.false_eq_true, if_false, hclk]
    rfl
  generalize hclk1 : (⟨some c, ⟨26, 1, 31, 1, 806⟩, 5000000, true⟩ : clk_gk20a) = clk1 at hsw
  have hpll : clk1.gpc_pll = ⟨26, 1, 31, 1, 806⟩ := by rw [← hclk1]
  obtain ⟨tr2, hhw⟩ : ∃ tr2, gk20a_init_clk_setup_hw T E clk1 (tr ++ [Ev.clk_get_sys (some c)])
      = (Status.ret 0, tr2) := by
    unfold gk20a_init_clk_setup_hw
    obtain ⟨seq, -, h⟩ := clk_program_gpc_pll_live T E clk1
      (gk20a_writel (gk20a_readl E (tr ++ [Ev.clk_get_sys (some c)]) T.gpc2clk_out_r).2
        T.gpc2clk_out_r
        (set_field (gk20a_readl E (tr ++ [Ev.clk_get_sys (some c)]) T.gpc2clk_out_r).1
          (T.gpc2clk_out_sdiv14_m ||| T.gpc2clk_out_vcodiv_m ||| T.gpc2clk_out_bypdiv_m)
          (T.gpc2clk_out_sdiv14_indiv4_mode_f ||| T.gpc2clk_out_vcodiv_by1_f |||
            T.gpc2clk_out_bypdiv_by1_f))) hlock
    exact ⟨_, h⟩
  have hsolve : clk_config_pll solver_fuel ⟨26, 1, 31, 1, 806⟩ gpc_pll_params 403 true
      = some (Solve.ok ⟨26, 1, 62, 4, 403⟩ 403) := by decide
  obtain ⟨e, tr3, hap⟩ := apply_rate_live T E { clk1 with gpc_pll := ⟨26, 1, 62, 4, 403⟩ }
    tr2 806 403 hlock
  have hset : gk20a_clk_set_rate T E clk1 tr2 gpc_pll_params.min_freq =
      ⟨Status.ret e, { clk1 with gpc_pll := ⟨26, 1, 62, 4, 403⟩ }, tr3⟩ := by
    unfold gk20a_clk_set_rate
    have hne : ¬ (403 : Nat) = 806 := by decide
    have hcl : clamp_rate gpc_pll_params.min_freq = 403 := by decide
    simp only [hpll, hcl, hne, if_false, hsolve, hap]
  rw [gk20a_init_clk_support_eq T E clk clk1 _ tr _ tr2 tr3 e hsw hhw hset]
  exact ⟨rfl, rfl, rfl, rfl, rfl⟩

theorem gk20a_init_clk_support_min_witness :
    (clk_fresh.sw_ready = false ∧ env_novolt.clk_get_sys [] = some 1 ∧
      ∀ tr1, env_novolt.readl tr1 trim_example.gpcpll_cfg_r % U32 &&&
        trim_example.gpcpll_cfg_pll_lock_true_f ≠ 0) ∧
    (gk20a_init_clk_support trim_example env_novolt clk_fresh []).status = Status.ret 0 ∧
    gk20a_clk_get_rate (gk20a_init_clk_support trim_example env_novolt clk_fresh []).clk = 403 :=
  ⟨⟨rfl, rfl, fun _ => by simp [env_novolt, trim_example, U32]⟩,
   (gk20a_init_clk_support_min trim_example env_novolt clk_fresh [] rfl 1 rfl
      (fun _ => by simp [env_novolt, trim_example, U32])).1,
   (gk20a_init_clk_support_min trim_example env_novolt clk_fresh [] rfl 1 rfl
      (fun _ => by simp [env_novolt, trim_example, U32])).2.1⟩

/-- C17: when the reference clock handle cannot be obtained, `gk20a_init_clk_setup_sw`
(entered with the state not yet set up) returns `-EINVAL`, which is not 0, and leaves
`sw_ready` false; `gk20a_init_clk_support` ends exactly as that call did, so it returns
the same error, and the only thing it has added to the trace is the failed clock lookup:
no register access, no voltage call, no call of `gk20a_clk_set_rate`. -/
theorem gk20a_init_clk_no_ref (T : trim_sys) (E : Env) (clk : clk_gk20a) (tr : List Ev)
    (hfresh : clk.sw_ready = false) (hnone : E.clk_get_sys tr = none) :
    (gk20a_init_clk_setup_sw E clk tr).status = Status.ret (-EINVAL) ∧
    -EINVAL ≠ 0 ∧
    (gk20a_init_clk_setup_sw E clk tr).clk.sw_ready = false ∧
    gk20a_init_clk_support T E clk tr = gk20a_init_clk_setup_sw E clk tr ∧
    (gk20a_init_clk_support T E clk tr).trace = tr ++ [Ev.clk_get_sys none] ∧
    writes ((gk20a_init_clk_support T E clk tr).trace.drop tr.length) = [] ∧
    dvfs_calls ((gk20a_init_clk_support T E clk tr).trace.drop tr.length) = [] := by
  have hsw : gk20a_init_clk_setup_sw E clk tr =
      ⟨Status.ret (-EINVAL),
       { tegra_clk := none, gpc_pll := ⟨26, 1, 31, 1, 806⟩, pll_delay := 5000000,
         sw_ready := false },
       tr ++ [Ev.clk_get_sys none]⟩ := by
    unfold gk20a_init_clk_setup_sw
    simp only [hfresh, Bool.false_eq_true, if_false, hnone]
    rfl
  have hrun : gk20a_init_clk_support T E clk tr = gk20a_init_clk_setup_sw E clk tr := by
    unfold gk20a_init_clk_support
    have h0 : ¬ gk20a_init_clk_reset_enable_hw ≠ 0 := by decide
    have h1 : -EINVAL ≠ 0 := by decide
    rw [if_neg h0, hsw]
    simp only [if_pos h1]
  rw [hrun, hsw]
  refine ⟨rfl, by decide, rfl, rfl, rfl, ?_, ?_⟩
  · simp only [List.drop_left]
    rfl
  · simp only [List.drop_left]
    rfl

theorem gk20a_init_clk_no_ref_witness :
    (clk_fresh.sw_ready = false ∧ env_noclk.clk_get_sys [] = none) ∧
    gk20a_init_clk_support trim_example env_noclk clk_fresh [] =
      gk20a_init_clk_setup_sw env_noclk clk_fresh [] :=
  ⟨⟨rfl, rfl⟩, (gk20a_init_clk_no_ref trim_example env_noclk clk_fresh [] rfl rfl).2.2.2.1⟩

/-! ## The fields of `hw_host1x04_channel.h` -/

theorem field_v_f (size shift v : Nat) :
    field_v size shift (field_f size shift v) = v % 2 ^ size := by
  simp only [field_v, field_f, Nat.shiftLeft_shiftRight, Nat.and_pow_two_sub_one_eq_mod,
    Nat.mod_mod]

theorem field_f_inside (size shift v i : Nat)
    (h : (field_f size shift v).testBit i = true) : (field_m size shift).testBit i = true := by
  simp only [field_f, field_m, Nat.testBit_shiftLeft, Nat.testBit_and,
    Nat.testBit_two_pow_sub_one, Bool.and_eq_true, decide_eq_true_eq] at h ⊢
  exact ⟨h.1, h.2.2⟩

theorem field_m_bits (size shift i : Nat) :
    (field_m size shift).testBit i = decide (shift ≤ i ∧ i < shift + size) := by
  simp only [field_m, Nat.testBit_shiftLeft, Nat.testBit_two_pow_sub_one]
  by_cases h1 : shift ≤ i
  · by_cases h2 : i < shift + size
    · have : i - shift < size := by omega
      simp [h1, h2, this]
    · have : ¬ i - shift < size := by omega
      simp [h1, h2, this]
  · simp [h1]

theorem field_f_v (size shift r : Nat) :
    field_f size shift (field_v size shift r) = r &&& field_m size shift := by
  apply Nat.eq_of_testBit_eq
  intro i
  simp only [field_f, field_v, field_m, Nat.testBit_shiftLeft, Nat.testBit_and,
    Nat.testBit_shiftRight, Nat.testBit_two_pow_sub_one]
  by_cases h1 : shift ≤ i
  · have e : shift + (i - shift) = i := by omega
    simp [h1, e, Bool.and_comm]
  · simp [h1]

/-- C13: for each field of the channel header (`fifostat_cfempty`, one bit at 11;
`fifostat_outfentries`, five bits at 24; `dmactrl_dmastop`, `dmactrl_dmagetrst` and
`dmactrl_dmainitget`, one bit at 0, 1 and 2) and all `v` and `r`: reading back what `_f`
placed gives `v` modulo `2^size`, `_f` sets no bit outside the mask, the mask has exactly
the `size` bits from the field's position on, and placing what `_v` read gives `r` masked;
the masks of the three `dmactrl` fields are pairwise disjoint and so are those of the two
`fifostat` fields. -/
theorem host1x_channel_fields (v r : Nat) :
    (host1x_channel_fifostat_cfempty_v (host1x_channel_fifostat_cfempty_f v) = v % 2 ^ host1x_channel_fifostat_cfempty_s ∧
     (∀ i, (host1x_channel_fifostat_cfempty_f v).testBit i = true → host1x_channel_fifostat_cfempty_m.testBit i = true) ∧
     (∀ i, host1x_channel_fifostat_cfempty_m.testBit i = decide (11 ≤ i ∧ i < 11 + host1x_channel_fifostat_cfempty_s)) ∧
     host1x_channel_fifostat_cfempty_f (host1x_channel_fifostat_cfempty_v r) = r &&& host1x_channel_fifostat_cfempty_m) ∧
    (host1x_channel_fifostat_outfentries_v (host1x_channel_fifostat_outfentries_f v) = v % 2 ^ host1x_channel_fifostat_outfentries_s ∧
     (∀ i, (host1x_channel_fifostat_outfentries_f v).testBit i = true → host1x_channel_fifostat_outfentries_m.testBit i = true) ∧
     (∀ i, host1x_channel_fifostat_outfentries_m.testBit i = decide (24 ≤ i ∧ i < 24 + host1x_channel_fifostat_outfentries_s)) ∧
     host1x_channel_fifostat_outfentries_f (host1x_channel_fifostat_outfentries_v r) = r &&& host1x_channel_fifostat_outfentries_m) ∧
    (host1x_channel_dmactrl_dmastop_v (host1x_channel_dmactrl_dmastop_f v) = v % 2 ^ host1x_channel_dmactrl_dmastop_s ∧
     (∀ i, (host1x_channel_dmactrl_dmastop_f v).testBit i = true → host1x_channel_dmactrl_dmastop_m.testBit i = true) ∧
     (∀ i, host1x_channel_dmactrl_dmastop_m.testBit i = decide (0 ≤ i ∧ i < 0 + host1x_channel_dmactrl_dmastop_s)) ∧
     host1x_channel_dmactrl_dmastop_f (host1x_channel_dmactrl_dmastop_v r) = r &&& host1x_channel_dmactrl_dmastop_m) ∧
    (host1x_channel_dmactrl_dmagetrst_v (host1x_channel_dmactrl_dmagetrst_f v) = v % 2 ^ host1x_channel_dmactrl_dmagetrst_s ∧
     (∀ i, (host1x_channel_dmactrl_dmagetrst_f v).testBit i = true → host1x_channel_dmactrl_dmagetrst_m.testBit i = true) ∧
     (∀ i, host1x_channel_dmactrl_dmagetrst_m.testBit i = decide (1 ≤ i ∧ i < 1 + host1x_channel_dmactrl_dmagetrst_s)) ∧
     host1x_channel_dmactrl_dmagetrst_f (host1x_channel_dmactrl_dmagetrst_v r) = r &&& host1x_channel_dmactrl_dmagetrst_m) ∧
    (host1x_channel_dmactrl_dmainitget_v (host1x_channel_dmactrl_dmainitget_f v) = v % 2 ^ host1x_channel_dmactrl_dmainitget_s ∧
     (∀ i, (host1x_channel_dmactrl_dmainitget_f v).testBit i = true → host1x_channel_dmactrl_dmainitget_m.testBit i = true) ∧
     (∀ i, host1x_channel_dmactrl_dmainitget_m.testBit i = decide (2 ≤ i ∧ i < 2 + host1x_channel_dmactrl_dmainitget_s)) ∧
     host1x_channel_dmactrl_dmainitget_f (host1x_channel_dmactrl_dmainitget_v r) = r &&& host1x_channel_dmactrl_dmainitget_m) ∧
    host1x_channel_dmactrl_dmastop_m &&& host1x_channel_dmactrl_dmagetrst_m = 0 ∧
    host1x_channel_dmactrl_dmastop_m &&& host1x_channel_dmactrl_dmainitget_m = 0 ∧
    host1x_channel_dmactrl_dmagetrst_m &&& host1x_channel_dmactrl_dmainitget_m = 0 ∧
    host1x_channel_fifostat_cfempty_m &&& host1x_channel_fifostat_outfentries_m = 0 := by
  refine ⟨⟨?_, ?_, ?_, ?_⟩, ⟨?_, ?_, ?_, ?_⟩, ⟨?_, ?_, ?_, ?_⟩, ⟨?_, ?_, ?_, ?_⟩,
    ⟨?_, ?_, ?_, ?_⟩, by decide, by decide, by decide, by decide⟩
  · exact field_v_f 1 11 v
  · exact field_f_inside 1 11 v
  · exact field_m_bits 1 11
  · exact field_f_v 1 11 r
  · exact field_v_f 5 24 v
  · exact field_f_inside 5 24 v
  · exact field_m_bits 5 24
  · exact field_f_v 5 24 r
  · exact field_v_f 1 0 v
  · exact field_f_inside 1 0 v
  · exact field_m_bits 1 0
  · exact field_f_v 1 0 r
  · exact field_v_f 1 1 v
  · exact field_f_inside 1 1 v
  · exact field_m_bits 1 1
  · exact field_f_v 1 1 r
  · exact field_v_f 1 2 v
  · exact field_f_inside 1 2 v
  · exact field_m_bits 1 2
  · exact field_f_v 1 2 r

/-! ## The search at the lowest frequency -/

/-- C12, as the code has it: with reference clock 26, the table `gpc_pll_params` and
`best_fit = true`, `clk_config_pll` answers the target 403 with M = 1, N = 62, PL = 4
and the frequency 403. -/
theorem clk_config_pll_403 (q : pll) (hq : q.clk_in = 26) :
    clk_config_pll solver_fuel q gpc_pll_params 403 true =
      some (Solve.ok { q with M := 1, N := 62, PL := 4, freq := 403 } 403) :=
  clk_config_pll_clk_in solver_fuel q ⟨26, 1, 31, 1, 806⟩ gpc_pll_params 403 true hq
    ⟨26, 1, 62, 4, 403⟩ 403 (by decide)

theorem clk_config_pll_403_witness :
    (⟨26, 7, 7, 7, 7⟩ : pll).clk_in = 26 ∧
    clk_config_pll solver_fuel ⟨26, 7, 7, 7, 7⟩ gpc_pll_params 403 true =
      some (Solve.ok ⟨26, 1, 62, 4, 403⟩ 403) :=
  ⟨rfl, clk_config_pll_403 ⟨26, 7, 7, 7, 7⟩ rfl⟩

/-- C12, as stated, fails: for the target 403 the search returns N = 62 and PL = 4, not
N = 31 and PL = 1; the triple M = 1, N = 31, PL = 1 has `vco = 806`, below `min_vco`, and
does not satisfy the constraints. -/
theorem clk_config_pll_403_not_31 :
    clk_config_pll solver_fuel ⟨26, 1, 31, 1, 806⟩ gpc_pll_params 403 true
      = some (Solve.ok ⟨26, 1, 62, 4, 403⟩ 403) ∧
    (62 : Nat) ≠ 31 ∧ (4 : Nat) ≠ 1 ∧
    ¬ feasible gpc_pll_params 26 1 31 1 := by
  decide

/-! ## The best candidate of the search -/

theorem clk_config_pll_eq_search (fuel : Nat) (q : pll) (p : pll_parms) (t : Nat) (bf : Bool) :
    clk_config_pll fuel q p t bf = (clk_config_search fuel q p t bf).map (finish q) := by
  unfold clk_config_pll clk_config_search
  by_cases h0 : (t + t / 50) % U32 = 0
  · simp only [h0, if_true]
    rfl
  · simp only [h0, if_false]
    generalize pl_loop p q.clk_in _ _ _ _ _ _ _ _ = r
    cases r with
    | none => rfl
    | some sc => cases sc <;> rfl

theorem try_candidate_cases (ref minv maxv t pl m n : Nat) (bf : Bool) (b : Best) :
    try_candidate ref minv maxv t pl m n bf b = Scan.div0 ∨
    try_candidate ref minv maxv t pl m n bf b = Scan.next b ∨
    ((try_candidate ref minv maxv t pl m n bf b = Scan.next ⟨cand_delta ref t pl m n, m, n, pl⟩ ∨
      try_candidate ref minv maxv t pl m n bf b = Scan.found ⟨cand_delta ref t pl m n, m, n, pl⟩) ∧
     cand_delta ref t pl m n < b.best_delta) := by
  unfold try_candidate cand_delta cand_lwv
  by_cases hv : minv ≤ ref * n % U32 / m ∧ ref * n % U32 / m ≤ maxv
  · simp only [hv, and_self, if_true]
    by_cases hpl : pl = 0
    · simp only [hpl, if_true, true_or]
    · simp only [hpl, if_false]
      by_cases hd : abs_u32 ((((ref * n % U32 / m + pl / 2) % U32) / pl + U32 - t) % U32)
          < b.best_delta
      · simp only [hd, if_true]
        right; right
        refine ⟨?_, trivial⟩
        split
        · exact Or.inr rfl
        · exact Or.inl rfl
      · rw [if_neg hd]
        exact Or.inr (Or.inl rfl)
  · rw [if_neg hv]
    exact Or.inr (Or.inl rfl)

theorem n_loop_keeps (P : Best → Prop) (p : pll_parms) (ref minv maxv t pl m n2 : Nat)
    (bf : Bool)
    (hstep : ∀ n b, P b → cand_delta ref t pl m n < b.best_delta →
      P ⟨cand_delta ref t pl m n, m, n, pl⟩) :
    ∀ (fuel n : Nat) (b : Best) (r : Scan),
      n_loop p ref minv maxv t pl m n2 bf fuel n b = some r → P b →
      ∀ b1, scan_best r = some b1 → P b1 := by
  intro fuel
  induction fuel with
  | zero =>
    intro n b r h
    exact Option.noConfusion h
  | succ fuel ih =>
    intro n b r h hb b1 hr
    unfold n_loop at h
    by_cases h1 : n ≤ n2
    · simp only [h1, if_true] at h
      by_cases h2 : n < p.min_N
      · simp only [h2, if_true] at h
        exact ih _ b r h hb b1 hr
      · simp only [h2, if_false] at h
        by_cases h3 : n > p.max_N
        · simp only [h3, if_true] at h
          cases Option.some.inj h
          cases Option.some.inj hr
          exact hb
        · simp only [h3, if_false] at h
          rcases try_candidate_cases ref minv maxv t pl m n bf b with hc | hc | ⟨hc | hc, hlt⟩
          · rw [hc] at h
            cases Option.some.inj h
            exact Option.noConfusion hr
          · rw [hc] at h
            exact ih _ b r h hb b1 hr
          · rw [hc] at h
            exact ih _ _ r h (hstep n b hb hlt) b1 hr
          · rw [hc] at h
            cases Option.some.inj h
            cases Option.some.inj hr
            exact hstep n b hb hlt
    · simp only [h1, if_false] at h
      cases Option.some.inj h
      cases Option.some.inj hr
      exact hb

theorem m_loop_keeps (P : Best → Prop) (p : pll_parms) (ref minv maxv t pl tv : Nat)
    (bf : Bool)
    (hstep : ∀ m n b, P b → cand_delta ref t pl m n < b.best_delta →
      P ⟨cand_delta ref t pl m n, m, n, pl⟩) :
    ∀ (fuel m : Nat) (b : Best) (r : Scan),
      m_loop p ref minv maxv t pl tv bf fuel m b = some r → P b →
      ∀ b1, scan_best r = some b1 → P b1 := by
  intro fuel
  induction fuel with
  | zero =>
    intro m b r h
    exact Option.noConfusion h
  | succ fuel ih =>
    intro m b r h hb b1 hr
    unfold m_loop at h
    by_cases h1 : m ≤ p.max_M
    · simp only [h1, if_true] at h
      by_cases h0 : m = 0
      · simp only [h0, if_true] at h
        cases Option.some.inj h
        exact Option.noConfusion hr
      · simp only [h0, if_false] at h
        by_cases h2 : ref / m < p.min_u
        · simp only [h2, if_true] at h
          cases Option.some.inj h
          cases Option.some.inj hr
          exact hb
        · simp only [h2, if_false] at h
          by_cases h3 : ref / m > p.max_u
          · simp only [h3, if_true] at h
            exact ih _ b r h hb b1 hr
          · simp only [h3, if_false] at h
            by_cases h4 : ref = 0
            · simp only [h4, if_true] at h
              cases Option.some.inj h
              exact Option.noConfusion hr
            · simp only [h4, if_false] at h
              by_cases h5 : tv * m % U32 / ref > p.max_N
              · simp only [h5, if_true] at h
                cases Option.some.inj h
                cases Option.some.inj hr
                exact hb
              · simp only [h5, if_false] at h
                cases hn : n_loop p ref minv maxv t pl m
                    ((tv * m % U32 + (ref - 1)) % U32 / ref) bf fuel (tv * m % U32 / ref) b with
                | none =>
                  rw [hn] at h
                  exact Option.noConfusion h
                | some rn =>
                  rw [hn] at h
                  have hkeep := n_loop_keeps P p ref minv maxv t pl m _ bf (hstep m) fuel _ b rn
                    hn hb
                  cases rn with
                  | next b2 => exact ih _ b2 r h (hkeep b2 rfl) b1 hr
                  | found b2 =>
                    cases Option.some.inj h
                    cases Option.some.inj hr
                    exact hkeep b1 rfl
                  | div0 =>
                    cases Option.some.inj h
                    exact Option.noConfusion hr
    · simp only [h1, if_false] at h
      cases Option.some.inj h
      cases Option.some.inj hr
      exact hb

theorem pl_loop_keeps (P : Best → Prop) (p : pll_parms) (ref minv maxv t lo : Nat)
    (bf : Bool)
    (hstep : ∀ pl m n b, P b → cand_delta ref t pl m n < b.best_delta →
      P ⟨cand_delta ref t pl m n, m, n, pl⟩) :
    ∀ (fuel pl : Nat) (b : Best) (r : Scan),
      pl_loop p ref minv maxv t lo bf fuel pl b = some r → P b →
      ∀ b1, scan_best r = some b1 → P b1 := by
  intro fuel
  induction fuel with
  | zero =>
    intro pl b r h
    exact Option.noConfusion h
  | succ fuel ih =>
    intro pl b r h hb b1 hr
    unfold pl_loop at h
    by_cases h1 : pl ≥ lo
    · simp only [h1, if_true] at h
      cases hm : m_loop p ref minv maxv t pl (t * pl % U32) bf fuel p.min_M b with
      | none =>
        rw [hm] at h
        exact Option.noConfusion h
      | some rm =>
        rw [hm] at h
        have hkeep := m_loop_keeps P p ref minv maxv t pl _ bf (hstep pl) fuel _ b rm hm hb
        cases rm with
        | next b2 => exact ih _ b2 r h (hkeep b2 rfl) b1 hr
        | found b2 =>
          cases Option.some.inj h
          cases Option.some.inj hr
          exact hkeep b1 rfl
        | div0 =>
          cases Option.some.inj h
          exact Option.noConfusion hr
    · simp only [h1, if_false] at h
      cases Option.some.inj h
      cases Option.some.inj hr
      exact hb

theorem clk_config_search_keeps (P : Best → Prop) (fuel : Nat) (q : pll) (p : pll_parms)
    (t : Nat) (bf : Bool)
    (hstep : ∀ pl m n b, P b → cand_delta q.clk_in t pl m n < b.best_delta →
      P ⟨cand_delta q.clk_in t pl m n, m, n, pl⟩)
    (h0 : P ⟨U32 - 1, p.max_M, p.min_N, p.min_PL⟩) (r : Scan) (b : Best)
    (h : clk_config_search fuel q p t bf = some r) (hr : scan_best r = some b) : P b := by
  unfold clk_config_search at h
  by_cases hz : (t + t / 50) % U32 = 0
  · simp only [hz, if_true] at h
    cases Option.some.inj h
    exact Option.noConfusion hr
  · simp only [hz, if_false] at h
    exact pl_loop_keeps P p q.clk_in _ _ t _ bf hstep fuel _ _ r h h0 b hr

theorem clk_config_search_delta (fuel : Nat) (q : pll) (p : pll_parms) (t : Nat) (bf : Bool)
    (r : Scan) (b : Best) (h : clk_config_search fuel q p t bf = some r)
    (hr : scan_best r = some b) :
    b.best_delta = U32 - 1 ∨
      b.best_delta = cand_delta q.clk_in t b.best_PL b.best_M b.best_N :=
  clk_config_search_keeps
    (fun b => b.best_delta = U32 - 1 ∨
      b.best_delta = cand_delta q.clk_in t b.best_PL b.best_M b.best_N)
    fuel q p t bf (fun _ _ _ _ _ _ => Or.inr rfl) (Or.inl rfl) r b h hr

theorem found_match_ok (q : pll) (b : Best) (q1 : pll) (f : Nat)
    (h : found_match q b = Solve.ok q1 f) :
    b.best_delta ≠ U32 - 1 ∧ b.best_M * b.best_PL % U32 ≠ 0 ∧
    q1 = { q with M := b.best_M, N := b.best_N, PL := b.best_PL, freq := f } ∧
    f = (q.clk_in * b.best_N % U32) / (b.best_M * b.best_PL % U32) := by
  unfold found_match at h
  by_cases h1 : b.best_delta = U32 - 1
  · rw [if_pos h1] at h
    exact Solve.noConfusion h
  · rw [if_neg h1] at h
    by_cases h2 : b.best_M * b.best_PL % U32 = 0
    · rw [if_pos h2] at h
      exact Solve.noConfusion h
    · rw [if_neg h2] at h
      injection h with hq hf
      refine ⟨h1, h2, ?_, hf.symm⟩
      rw [← hq, ← hf]

theorem clk_config_pll_ok_search (fuel : Nat) (q : pll) (p : pll_parms) (t : Nat) (bf : Bool)
    (q1 : pll) (f : Nat) (h : clk_config_pll fuel q p t bf = some (Solve.ok q1 f)) :
    ∃ r b, clk_config_search fuel q p t bf = some r ∧ scan_best r = some b ∧
      found_match q b = Solve.ok q1 f := by
  rw [clk_config_pll_eq_search] at h
  cases hs : clk_config_search fuel q p t bf with
  | none =>
    rw [hs] at h
    exact Option.noConfusion h
  | some r =>
    rw [hs] at h
    have h1 : finish q r = Solve.ok q1 f := Option.some.inj h
    cases r with
    | next b => exact ⟨_, b, rfl, rfl, h1⟩
    | found b => exact ⟨_, b, rfl, rfl, h1⟩
    | div0 => exact Solve.noConfusion h1

theorem div_round (v pl : Nat) (hpl : 1 ≤ pl) :
    v / pl = (v + pl / 2) / pl ∨ v / pl + 1 = (v + pl / 2) / pl := by
  have h1 : v / pl ≤ (v + pl / 2) / pl := Nat.div_le_div_right (Nat.le_add_right _ _)
  have h2 : (v + pl / 2) / pl ≤ (v + pl) / pl :=
    Nat.div_le_div_right (Nat.add_le_add_left (Nat.div_le_self _ _) _)
  have h3 : (v + pl) / pl = v / pl + 1 := Nat.add_div_right v hpl
  omega

theorem abs_u32_wrap (a t : Nat) (ha : a < U32) (ht : t < U32)
    (hd : absdiff a t < 2147483648) :
    abs_u32 ((a + U32 - t) % U32) = absdiff a t := by
  unfold abs_u32 absdiff U32 at *
  by_cases hle : a ≤ t
  · rw [if_pos hle] at hd ⊢
    have h1 : (a + 4294967296 - t) % 4294967296 = a + 4294967296 - t ∨
        (a + 4294967296 - t) % 4294967296 = 0 := by omega
    split <;> omega
  · rw [if_neg hle] at hd ⊢
    have h1 : (a + 4294967296 - t) % 4294967296 = a - t := by omega
    rw [h1]
    split <;> omega

theorem clk_config_pll_ok_round (fuel : Nat) (q : pll) (p : pll_parms) (t : Nat)
    (bf : Bool) (q1 : pll) (f : Nat)
    (hrun : clk_config_pll fuel q p t bf = some (Solve.ok q1 f))
    (hN : q.clk_in * q1.N < U32) (hMPL : q1.M * q1.PL < U32)
    (hsum : q.clk_in * q1.N / q1.M + q1.PL / 2 < U32) (ht : t < U32)
    (hd : absdiff (rounded q.clk_in q1.M q1.N q1.PL) t < 2147483648) :
    ∃ r b, clk_config_search fuel q p t bf = some r ∧ scan_best r = some b ∧
      1 ≤ q1.M ∧ 1 ≤ q1.PL ∧
      f = achieved q.clk_in q1.M q1.N q1.PL ∧
      f = q.clk_in * q1.N / q1.M / q1.PL ∧
      (f = rounded q.clk_in q1.M q1.N q1.PL ∨ f + 1 = rounded q.clk_in q1.M q1.N q1.PL) ∧
      b.best_delta = absdiff (rounded q.clk_in q1.M q1.N q1.PL) t ∧
      absdiff f t ≤ b.best_delta + 1 := by
  obtain ⟨r, b, hs, hb, hfm⟩ := clk_config_pll_ok_search fuel q p t bf q1 f hrun
  obtain ⟨hne, hmpl, hq1, hf⟩ := found_match_ok q b q1 f hfm
  have hdel := clk_config_search_delta fuel q p t bf r b hs hb
  have eM : q1.M = b.best_M := by rw [hq1]
  have eN : q1.N = b.best_N := by rw [hq1]
  have ePL : q1.PL = b.best_PL := by rw [hq1]
  rw [← eM, ← eN, ← ePL] at hf hdel
  rw [← eM, ← ePL] at hmpl
  rw [Nat.mod_eq_of_lt hN, Nat.mod_eq_of_lt hMPL] at hf
  rw [Nat.mod_eq_of_lt hMPL] at hmpl
  have hM : 1 ≤ q1.M := by
    rcases Nat.eq_zero_or_pos q1.M with h | h
    · rw [h, Nat.zero_mul] at hmpl
      exact absurd rfl hmpl
    · exact h
  have hPL : 1 ≤ q1.PL := by
    rcases Nat.eq_zero_or_pos q1.PL with h | h
    · rw [h, Nat.mul_zero] at hmpl
      exact absurd rfl hmpl
    · exact h
  have hf2 : f = q.clk_in * q1.N / q1.M / q1.PL := by
    rw [hf, Nat.div_div_eq_div_mul]
  have hlwv : cand_lwv q.clk_in q1.PL q1.M q1.N = rounded q.clk_in q1.M q1.N q1.PL := by
    unfold cand_lwv rounded
    rw [Nat.mod_eq_of_lt hN, Nat.mod_eq_of_lt hsum]
  have hlt : rounded q.clk_in q1.M q1.N q1.PL < U32 := by
    unfold rounded
    exact Nat.lt_of_le_of_lt (Nat.div_le_self _ _) hsum
  have hbd : b.best_delta = absdiff (rounded q.clk_in q1.M q1.N q1.PL) t := by
    rcases hdel with h | h
    · exact absurd h hne
    · rw [h]
      unfold cand_delta
      rw [hlwv]
      exact abs_u32_wrap _ t hlt ht hd
  have hr : f = rounded q.clk_in q1.M q1.N q1.PL ∨
      f + 1 = rounded q.clk_in q1.M q1.N q1.PL := by
    rw [hf2]
    exact div_round _ _ hPL
  refine ⟨r, b, hs, hb, hM, hPL, hf, hf2, hr, hbd, ?_⟩
  rw [hbd]
  generalize rounded q.clk_in q1.M q1.N q1.PL = w at hr
  unfold absdiff
  split <;> split <;> omega

/-- C18: a run of `clk_config_pll` that succeeds leaves coefficients with M and PL at
least 1; if the products and sums involved stay below 2^32 and the rounded frequency is
less than 2^31 away from the target, then the frequency it returns,
`clk_in * N / (M * PL)`, equals `vco / PL` for `vco = clk_in * N / M`, it is the rounded
frequency `lwv = (vco + PL / 2) / PL` or exactly one less, `best_delta` at the end of the
search is `|lwv - target|`, and the returned frequency is at most `best_delta + 1` away
from the target. -/
theorem clk_config_pll_floor_round (fuel : Nat) (q : pll) (p : pll_parms) (t : Nat)
    (bf : Bool) (q1 : pll) (f : Nat)
    (hrun : clk_config_pll fuel q p t bf = some (Solve.ok q1 f))
    (hN : q.clk_in * q1.N < U32) (hMPL : q1.M * q1.PL < U32)
    (hsum : q.clk_in * q1.N / q1.M + q1.PL / 2 < U32) (ht : t < U32)
    (hd : absdiff (rounded q.clk_in q1.M q1.N q1.PL) t < 2147483648) :
    ∃ r b, clk_config_search fuel q p t bf = some r ∧ scan_best r = some b ∧
      1 ≤ q1.M ∧ 1 ≤ q1.PL ∧
      f = achieved q.clk_in q1.M q1.N q1.PL ∧
      f = q.clk_in * q1.N / q1.M / q1.PL ∧
      (f = rounded q.clk_in q1.M q1.N q1.PL ∨ f + 1 = rounded q.clk_in q1.M q1.N q1.PL) ∧
      b.best_delta = absdiff (rounded q.clk_in q1.M q1.N q1.PL) t ∧
      absdiff f t ≤ b.best_delta + 1 :=
  clk_config_pll_ok_round fuel q p t bf q1 f hrun hN hMPL hsum ht hd

theorem clk_config_pll_floor_round_witness :
    ∃ r b, clk_config_search solver_fuel ⟨26, 1, 31, 1, 806⟩ gpc_pll_params 410 true = some r ∧
      scan_best r = some b ∧
      1 ≤ (⟨26, 1, 63, 4, 409⟩ : pll).M ∧ 1 ≤ (⟨26, 1, 63, 4, 409⟩ : pll).PL ∧
      409 = achieved 26 1 63 4 ∧
      409 = 26 * 63 / 1 / 4 ∧
      (409 = rounded 26 1 63 4 ∨ 409 + 1 = rounded 26 1 63 4) ∧
      b.best_delta = absdiff (rounded 26 1 63 4) 410 ∧
      absdiff 409 410 ≤ b.best_delta + 1 :=
  clk_config_pll_floor_round solver_fuel ⟨26, 1, 31, 1, 806⟩ gpc_pll_params 410 true
    ⟨26, 1, 63, 4, 409⟩ 409 (by decide) (by decide) (by decide) (by decide) (by decide)
    (by decide)

/-! ## The search always finds a candidate -/

theorem finds_false_403 : ∀ i < 101, finds false (403 + i) = true := by
  decide!

theorem finds_false_504 : ∀ i < 101, finds false (504 + i) = true := by
  decide!

theorem finds_false_605 : ∀ i < 101, finds false (605 + i) = true := by
  decide!

theorem finds_false_706 : ∀ i < 101, finds false (706 + i) = true := by
  decide!

theorem finds_all (bf : Bool) (target : Nat) (ht : 403 ≤ target ∧ target ≤ 806) :
    finds bf target = true := by
  cases bf with
  | true =>
    have hall := best_rounded_all target ht
    unfold best_rounded at hall
    unfold finds
    split at hall
    · rfl
    · exact Bool.noConfusion hall
  | false =>
    by_cases h1 : target < 504
    · have h := finds_false_403 (target - 403) (by omega)
      rwa [show 403 + (target - 403) = target by omega] at h
    · by_cases h2 : target < 605
      · have h := finds_false_504 (target - 504) (by omega)
        rwa [show 504 + (target - 504) = target by omega] at h
      · by_cases h3 : target < 706
        · have h := finds_false_605 (target - 605) (by omega)
          rwa [show 605 + (target - 605) = target by omega] at h
        · have h := finds_false_706 (target - 706) (by omega)
          rwa [show 706 + (target - 706) = target by omega] at h

theorem clk_config_pll_26_ok (q : pll) (hq : q.clk_in = 26) (target : Nat)
    (ht : 403 ≤ target ∧ target ≤ 806) (bf : Bool) :
    ∃ q1 f, clk_config_pll solver_fuel q gpc_pll_params target bf = some (Solve.ok q1 f) := by
  have h := finds_all bf target ht
  unfold finds at h
  split at h
  · rename_i q0 f hrun
    exact ⟨_, f, clk_config_pll_clk_in solver_fuel q ⟨26, 1, 31, 1, 806⟩ gpc_pll_params target
      bf hq q0 f hrun⟩
  · exact Bool.noConfusion h

theorem clk_config_search_pl (fuel : Nat) (q : pll) (p : pll_parms) (t : Nat) (bf : Bool)
    (h0 : (t + t / 50) % U32 ≠ 0) :
    clk_config_search fuel q p t bf =
      pl_loop p q.clk_in p.min_vco
        (if p.max_vco < (t + t / 50) % U32 then (t + t / 50) % U32 else p.max_vco) t
        (low_PL p t) bf fuel (high_PL p t) ⟨U32 - 1, p.max_M, p.min_N, p.min_PL⟩ := by
  unfold clk_config_search low_PL high_PL
  simp only [h0, if_false]

theorem clk_config_search_gpc_pl (q : pll) (target : Nat) (ht : 403 ≤ target ∧ target ≤ 806)
    (bf : Bool) :
    clk_config_search solver_fuel q gpc_pll_params target bf =
      pl_loop gpc_pll_params q.clk_in 1100 2200 target (low_PL gpc_pll_params target) bf
        solver_fuel (high_PL gpc_pll_params target) ⟨U32 - 1, 255, 8, 1⟩ := by
  have htv : (target + target / 50) % U32 = target + target / 50 :=
    Nat.mod_eq_of_lt (by simp only [U32]; omega)
  have h0 : (target + target / 50) % U32 ≠ 0 := by rw [htv]; omega
  rw [clk_config_search_pl solver_fuel q gpc_pll_params target bf h0, htv]
  have hmax : ¬ (gpc_pll_params.max_vco < target + target / 50) := by
    show ¬ (2200 < target + target / 50)
    omega
  rw [if_neg hmax]
  rfl

theorem clk_config_pll_26_windows (q : pll) (hq : q.clk_in = 26) (target : Nat)
    (ht : 403 ≤ target ∧ target ≤ 806) (bf : Bool) (q1 : pll) (f : Nat)
    (h : clk_config_pll solver_fuel q gpc_pll_params target bf = some (Solve.ok q1 f)) :
    q1.M = 1 ∧ 8 ≤ q1.N ∧ q1.N ≤ 255 ∧ 1 ≤ q1.PL ∧ q1.PL ≤ 63 ∧
    1100 ≤ 26 * q1.N / q1.M ∧ 26 * q1.N / q1.M ≤ 2200 ∧ q1.clk_in = 26 := by
  obtain ⟨b, hf, hq1, -, hrn, -⟩ := clk_config_pll_gpc_ok q target ht bf q1 f h
  simp only [Fits, gpc_pll_params, Nat.mod_eq_of_lt hrn] at hf
  obtain ⟨hm1, -, hn1, hn2, hp1, hp2, hu1, -, hv1, hv2, -⟩ := hf
  rw [hq] at hu1 hv1 hv2
  have eM : q1.M = b.best_M := by rw [hq1]
  have eN : q1.N = b.best_N := by rw [hq1]
  have ePL : q1.PL = b.best_PL := by rw [hq1]
  have eC : q1.clk_in = q.clk_in := by rw [hq1]
  rw [eM, eN, ePL, eC]
  have hm : b.best_M = 1 := by
    have := (Nat.le_div_iff_mul_le (by omega : 0 < b.best_M)).mp hu1
    omega
  rw [hm] at hv1 hv2 ⊢
  exact ⟨rfl, hn1, hn2, hp1, hp2, hv1, hv2, hq⟩

/-- C16: at reference clock 26, with the table `gpc_pll_params` and a target in
`[403, 806]`, for either value of `best_fit`, `clk_config_pll` ends within its fuel in
`return 0` (so not in `BUG_ON(best_delta == ~0)` and not in a division by zero): the
search ends with a `best_delta` other than `~0`, the returned triple has M = 1, its
`u_f = 26 / M` lies in `[25, 100]` and its `vco_f = 26 * N / M` in `[1100, 2200]`; the
search is the PL loop from `high_PL` down to `low_PL`, and `low_PL` is at least 1, so the
loop condition `pl >= low_PL` fails before `pl--` could wrap below zero. -/
theorem clk_config_pll_gpc_found (q : pll) (hq : q.clk_in = 26) (target : Nat)
    (ht : 403 ≤ target ∧ target ≤ 806) (bf : Bool) :
    ∃ q1 f r b,
      clk_config_pll solver_fuel q gpc_pll_params target bf = some (Solve.ok q1 f) ∧
      clk_config_search solver_fuel q gpc_pll_params target bf = some r ∧
      scan_best r = some b ∧ b.best_delta ≠ U32 - 1 ∧
      q1.M = 1 ∧ q1.N = b.best_N ∧ q1.PL = b.best_PL ∧
      25 ≤ 26 / q1.M ∧ 26 / q1.M ≤ 100 ∧
      1100 ≤ 26 * q1.N / q1.M ∧ 26 * q1.N / q1.M ≤ 2200 ∧
      clk_config_search solver_fuel q gpc_pll_params target bf =
        pl_loop gpc_pll_params 26 1100 2200 target (low_PL gpc_pll_params target) bf
          solver_fuel (high_PL gpc_pll_params target) ⟨U32 - 1, 255, 8, 1⟩ ∧
      1 ≤ low_PL gpc_pll_params target ∧
      low_PL gpc_pll_params target ≤ high_PL gpc_pll_params target ∧
      high_PL gpc_pll_params target ≤ 63 := by
  obtain ⟨q1, f, hrun⟩ := clk_config_pll_26_ok q hq target ht bf
  obtain ⟨r, b, hs, hb, hfm⟩ := clk_config_pll_ok_search solver_fuel q gpc_pll_params target bf
    q1 f hrun
  obtain ⟨hne, -, hq1, -⟩ := found_match_ok q b q1 f hfm
  obtain ⟨hM, -, -, -, -, hv1, hv2, -⟩ := clk_config_pll_26_windows q hq target ht bf q1 f hrun
  have hpl := clk_config_search_gpc_pl q target ht bf
  rw [hq] at hpl
  have htv : (target + target / 50) % U32 = target + target / 50 :=
    Nat.mod_eq_of_lt (by simp only [U32]; omega)
  have hlo : 1 ≤ low_PL gpc_pll_params target := le_max_right _ _
  have hhi : high_PL gpc_pll_params target ≤ 63 := max_le (min_le_right _ _) (by decide)
  have hlh : low_PL gpc_pll_params target ≤ high_PL gpc_pll_params target := by
    unfold low_PL high_PL
    simp only [htv]
    have hmax : ¬ (gpc_pll_params.max_vco < target + target / 50) := by
      show ¬ (2200 < target + target / 50)
      omega
    rw [if_neg hmax]
    have hmod : (gpc_pll_params.max_vco + (target + target / 50) - 1) % U32 =
        2200 + (target + target / 50) - 1 :=
      Nat.mod_eq_of_lt (by show 2200 + (target + target / 50) - 1 < 4294967296; omega)
    rw [hmod]
    have hdiv : gpc_pll_params.min_vco / (target + target / 50) ≤
        (2200 + (target + target / 50) - 1) / (target + target / 50) :=
      Nat.div_le_div_right (by show 1100 ≤ 2200 + (target + target / 50) - 1; omega)
    exact max_le_max (min_le_min hdiv (le_refl _)) (le_refl _)
  refine ⟨q1, f, r, b, hrun, hs, hb, hne, hM, by rw [hq1], by rw [hq1], ?_, ?_, hv1, hv2, hpl,
    hlo, hlh, hhi⟩
  · rw [hM]
    decide
  · rw [hM]
    decide

theorem clk_config_pll_gpc_found_witness :
    ((⟨26, 1, 31, 1, 806⟩ : pll).clk_in = 26 ∧ 403 ≤ 403 ∧ 403 ≤ 806) ∧
    ∃ q1 f r b,
      clk_config_pll solver_fuel ⟨26, 1, 31, 1, 806⟩ gpc_pll_params 403 false
        = some (Solve.ok q1 f) ∧
      clk_config_search solver_fuel ⟨26, 1, 31, 1, 806⟩ gpc_pll_params 403 false = some r ∧
      scan_best r = some b ∧ b.best_delta ≠ U32 - 1 ∧
      q1.M = 1 ∧ q1.N = b.best_N ∧ q1.PL = b.best_PL ∧
      25 ≤ 26 / q1.M ∧ 26 / q1.M ≤ 100 ∧
      1100 ≤ 26 * q1.N / q1.M ∧ 26 * q1.N / q1.M ≤ 2200 ∧
      clk_config_search solver_fuel ⟨26, 1, 31, 1, 806⟩ gpc_pll_params 403 false =
        pl_loop gpc_pll_params 26 1100 2200 403 (low_PL gpc_pll_params 403) false
          solver_fuel (high_PL gpc_pll_params 403) ⟨U32 - 1, 255, 8, 1⟩ ∧
      1 ≤ low_PL gpc_pll_params 403 ∧
      low_PL gpc_pll_params 403 ≤ high_PL gpc_pll_params 403 ∧
      high_PL gpc_pll_params 403 ≤ 63 :=
  ⟨by decide, clk_config_pll_gpc_found ⟨26, 1, 31, 1, 806⟩ rfl 403 (by decide) false⟩

/-! ## An exact match is exact in the rounded frequency -/

theorem scan_best_finish (q : pll) (r : Scan) (b : Best) (h : scan_best r = some b) :
    finish q r = found_match q b := by
  cases r with
  | next b1 => cases Option.some.inj h; rfl
  | found b1 => cases Option.some.inj h; rfl
  | div0 => exact Option.noConfusion h

theorem absdiff_eq_zero (a b : Nat) (h : absdiff a b = 0) : a = b := by
  unfold absdiff at h
  split at h <;> omega

/-- C14, as the code has it: at reference clock 26, with the table `gpc_pll_params` and a
target in `[403, 806]`, when the search of `clk_config_pll` ends with `best_delta == 0`
the function returns 0, the rounded frequency `(26 * N / M + PL / 2) / PL` of the triple
it stores equals the target, and the frequency it stores and writes back,
`26 * N / (M * PL)`, is the target or the target less one. -/
theorem clk_config_pll_exact_rounded (q : pll) (hq : q.clk_in = 26) (target : Nat)
    (ht : 403 ≤ target ∧ target ≤ 806) (bf : Bool) (r : Scan) (b : Best)
    (hs : clk_config_search solver_fuel q gpc_pll_params target bf = some r)
    (hb : scan_best r = some b) (h0 : b.best_delta = 0) :
    ∃ q1 f, clk_config_pll solver_fuel q gpc_pll_params target bf = some (Solve.ok q1 f) ∧
      q1.M = b.best_M ∧ q1.N = b.best_N ∧ q1.PL = b.best_PL ∧ q1.freq = f ∧
      f = achieved 26 q1.M q1.N q1.PL ∧
      rounded 26 q1.M q1.N q1.PL = target ∧
      (f = target ∨ f + 1 = target) := by
  obtain ⟨q1, f, hrun⟩ := clk_config_pll_26_ok q hq target ht bf
  obtain ⟨hM, hn1, hn2, hp1, hp2, hv1, hv2, -⟩ :=
    clk_config_pll_26_windows q hq target ht bf q1 f hrun
  have hfm : found_match q b = Solve.ok q1 f := by
    have h := hrun
    rw [clk_config_pll_eq_search, hs] at h
    rw [← scan_best_finish q r b hb]
    exact Option.some.inj h
  obtain ⟨-, -, hq1, -⟩ := found_match_ok q b q1 f hfm
  rw [hM, Nat.div_one] at hv1 hv2
  have hround : rounded 26 q1.M q1.N q1.PL < 10000 := by
    unfold rounded
    rw [hM, Nat.div_one]
    exact Nat.lt_of_le_of_lt (Nat.div_le_self _ _) (by omega)
  obtain ⟨r2, b2, hs2, hb2, -, -, hf, -, hfr, hbd, -⟩ :=
    clk_config_pll_ok_round solver_fuel q gpc_pll_params target bf q1 f hrun
      (by rw [hq]; show 26 * q1.N < 4294967296; omega)
      (by rw [hM]; show 1 * q1.PL < 4294967296; omega)
      (by rw [hq, hM, Nat.div_one]; show 26 * q1.N + q1.PL / 2 < 4294967296; omega)
      (by show target < 4294967296; omega)
      (by
        rw [hq]
        unfold absdiff
        split <;> omega)
  rw [hq] at hf hfr hbd
  rw [hs] at hs2
  cases Option.some.inj hs2
  rw [hb] at hb2
  cases Option.some.inj hb2
  rw [h0] at hbd
  have hrt := absdiff_eq_zero _ _ hbd.symm
  rw [hrt] at hfr
  exact ⟨q1, f, hrun, by rw [hq1], by rw [hq1], by rw [hq1], by rw [hq1], hf, hrt, hfr⟩

theorem clk_config_pll_exact_rounded_witness :
    ((⟨26, 1, 31, 1, 806⟩ : pll).clk_in = 26 ∧ 403 ≤ 406 ∧ 406 ≤ 806 ∧
      clk_config_search solver_fuel ⟨26, 1, 31, 1, 806⟩ gpc_pll_params 406 true
        = some (Scan.found ⟨0, 1, 78, 5⟩) ∧
      scan_best (Scan.found ⟨0, 1, 78, 5⟩) = some ⟨0, 1, 78, 5⟩ ∧
      (⟨0, 1, 78, 5⟩ : Best).best_delta = 0) ∧
    ∃ q1 f, clk_config_pll solver_fuel ⟨26, 1, 31, 1, 806⟩ gpc_pll_params 406 true
        = some (Solve.ok q1 f) ∧
      q1.M = 1 ∧ q1.N = 78 ∧ q1.PL = 5 ∧ q1.freq = f ∧
      f = achieved 26 q1.M q1.N q1.PL ∧
      rounded 26 q1.M q1.N q1.PL = 406 ∧
      (f = 406 ∨ f + 1 = 406) :=
  ⟨by decide,
   clk_config_pll_exact_rounded ⟨26, 1, 31, 1, 806⟩ rfl 406 (by decide) true
     (Scan.found ⟨0, 1, 78, 5⟩) ⟨0, 1, 78, 5⟩ (by decide) rfl rfl⟩

/-- C14, as stated, fails at target 406: the search ends in an exact match,
`best_delta == 0`, with M = 1, N = 78, PL = 5, and `clk_config_pll` stores and writes back
`26 * 78 / (1 * 5) = 405`, which is not the target. -/
theorem clk_config_pll_exact_not_target :
    clk_config_search solver_fuel ⟨26, 1, 31, 1, 806⟩ gpc_pll_params 406 true
      = some (Scan.found ⟨0, 1, 78, 5⟩) ∧
    (⟨0, 1, 78, 5⟩ : Best).best_delta = 0 ∧
    clk_config_pll solver_fuel ⟨26, 1, 31, 1, 806⟩ gpc_pll_params 406 true
      = some (Solve.ok ⟨26, 1, 78, 5, 405⟩ 405) ∧
    achieved 26 1 78 5 = 405 ∧ 405 ≠ 406 ∧ 403 ≤ 406 ∧ 406 ≤ 806 := by
  decide

/-! ## The cached frequency stays in the supported range -/

theorem freq_ok_low : ∀ i < 7, freq_ok (403 + i) = true := by
  decide!

theorem freq_ok_high : ∀ i < 6, freq_ok (801 + i) = true := by
  decide!

theorem clk_config_pll_26_freq (q : pll) (hq : q.clk_in = 26) (target : Nat)
    (ht : 403 ≤ target ∧ target ≤ 806) (q1 : pll) (f : Nat)
    (h : clk_config_pll solver_fuel q gpc_pll_params target true = some (Solve.ok q1 f)) :
    403 ≤ f ∧ f ≤ 806 := by
  have h0 := clk_config_pll_clk_in solver_fuel ⟨26, 1, 31, 1, 806⟩ q gpc_pll_params target true
    hq.symm q1 f h
  by_cases hlo : target < 410
  · have hk := freq_ok_low (target - 403) (by omega)
    rw [show 403 + (target - 403) = target by omega] at hk
    unfold freq_ok at hk
    rw [h0] at hk
    exact of_decide_eq_true hk
  · by_cases hhi : 800 < target
    · have hk := freq_ok_high (target - 801) (by omega)
      rw [show 801 + (target - 801) = target by omega] at hk
      unfold freq_ok at hk
      rw [h0] at hk
      exact of_decide_eq_true hk
    · have hall := best_rounded_all target ht
      unfold best_rounded at hall
      rw [h0] at hall
      simp only [Bool.and_eq_true, decide_eq_true_eq] at hall
      obtain ⟨⟨-, hd6⟩, -⟩ := hall
      obtain ⟨hM, -, -, hp1, -, -, -, -⟩ := clk_config_pll_26_windows q hq target ht true q1 f h
      obtain ⟨b, -, hq1, hf, -, -⟩ := clk_config_pll_gpc_ok q target ht true q1 f h
      have eM : q1.M = b.best_M := by rw [hq1]
      have eN : q1.N = b.best_N := by rw [hq1]
      have ePL : q1.PL = b.best_PL := by rw [hq1]
      rw [← eM, ← eN, ← ePL, hq, hM, Nat.one_mul] at hf
      have hr := div_round (26 * q1.N) q1.PL hp1
      rw [← hf] at hr
      have hd : absdiff ((26 * q1.N + q1.PL / 2) / q1.PL) target ≤ 6 := by
        have e : rounded 26 q1.M q1.N q1.PL = (26 * q1.N + q1.PL / 2) / q1.PL := by
          unfold rounded
          rw [hM, Nat.div_one]
        rw [← e]
        exact hd6
      generalize (26 * q1.N + q1.PL / 2) / q1.PL = w at hr hd
      unfold absdiff at hd
      split at hd <;> omega

/-- C19: in every state reachable from `gk20a_init_clk_setup_sw` through calls of
`gk20a_clk_set_rate`, whatever the requested rates, environments and traces, the cached
frequency `gk20a_clk_get_rate` returns lies in `[min_freq, max_freq] = [403, 806]`. -/
theorem gk20a_clk_get_rate_in_range (T : trim_sys) (clk : clk_gk20a) (h : Reachable T clk) :
    gpc_pll_params.min_freq ≤ gk20a_clk_get_rate clk ∧
    gk20a_clk_get_rate clk ≤ gpc_pll_params.max_freq ∧
    403 ≤ gk20a_clk_get_rate clk ∧ gk20a_clk_get_rate clk ≤ 806 := by
  have key : 403 ≤ clk.gpc_pll.freq ∧ clk.gpc_pll.freq ≤ 806 := by
    induction h with
    | init E clk tr h =>
      unfold gk20a_init_clk_setup_sw
      simp only [h, Bool.false_eq_true, if_false]
      split
      · show 403 ≤ 26 * 31 % U32 / (1 * 1 % U32) ∧ 26 * 31 % U32 / (1 * 1 % U32) ≤ 806
        decide
      · show 403 ≤ 26 * 31 % U32 / (1 * 1 % U32) ∧ 26 * 31 % U32 / (1 * 1 % U32) ≤ 806
        decide
    | set_rate E clk tr rate hr ih =>
      rcases gk20a_clk_set_rate_pll T E clk tr rate with hsame | ⟨q1, f, hs, hclk⟩
      · rw [hsame]
        exact ih
      · rw [hclk]
        obtain ⟨b, -, hq, hf, -, -⟩ := clk_config_pll_gpc_ok clk.gpc_pll (clamp_rate rate)
          (clamp_rate_range rate) true q1 f hs
        have hrange := clk_config_pll_26_freq clk.gpc_pll (reachable_inv T clk hr).1
          (clamp_rate rate) (clamp_rate_range rate) q1 f hs
        have e : q1.freq = f := by rw [hq, hf]
        show 403 ≤ q1.freq ∧ q1.freq ≤ 806
        rw [e]
        exact hrange
  exact ⟨key.1, key.2, key.1, key.2⟩

theorem gk20a_clk_get_rate_in_range_witness :
    Reachable trim_example clk_410 ∧
    gpc_pll_params.min_freq ≤ gk20a_clk_get_rate clk_410 ∧
    gk20a_clk_get_rate clk_410 ≤ gpc_pll_params.max_freq ∧
    403 ≤ gk20a_clk_get_rate clk_410 ∧ gk20a_clk_get_rate clk_410 ≤ 806 := by
  have h : Reachable trim_example clk_410 := by
    unfold clk_410
    exact Reachable.set_rate env_locked _ [] 410 (Reachable.init env_locked clk_fresh [] rfl)
  exact ⟨h, gk20a_clk_get_rate_in_range trim_example clk_410 h⟩

/-! ## Asking for the same rate twice -/

theorem apply_rate_level_run (T : trim_sys) (E : Env) (clk : clk_gk20a) (tr : List Ev)
    (freq : Nat) :
    ∃ seq : List Ev, dvfs_calls seq = [] ∧
      (apply_rate T E clk tr freq freq = ⟨Status.ret 0, clk, tr ++ seq⟩ ∨
       apply_rate T E clk tr freq freq = ⟨Status.bug, clk, tr ++ seq⟩) := by
  unfold apply_rate
  have hnu : ¬ freq > freq := by omega
  have hnd : ¬ freq < freq := by omega
  simp only [if_neg hnu, ne_eq, not_true_eq_false, if_false, if_neg hnd]
  obtain ⟨seq, hd, hc⟩ := clk_program_gpc_pll_cases T E clk tr
  refine ⟨seq, hd, ?_⟩
  rcases hc with hc | hc
  · left
    rw [hc]
    simp only [not_true_eq_false, if_false]
  · right
    rw [hc]

theorem gk20a_clk_set_rate_again (T : trim_sys) (E : Env) (clk1 : clk_gk20a) (tr1 : List Ev)
    (rate : Nat) (q0 : pll) (f : Nat)
    (hs : clk_config_pll solver_fuel q0 gpc_pll_params (clamp_rate rate) true
      = some (Solve.ok clk1.gpc_pll f))
    (hin : clk1.gpc_pll.clk_in = q0.clk_in) (hfreq : clk1.gpc_pll.freq = f) :
    ∃ seq : List Ev, dvfs_calls seq = [] ∧
      (gk20a_clk_set_rate T E clk1 tr1 rate = ⟨Status.ret 0, clk1, tr1 ++ seq⟩ ∨
       gk20a_clk_set_rate T E clk1 tr1 rate = ⟨Status.bug, clk1, tr1 ++ seq⟩) ∧
      (clamp_rate rate = f → gk20a_clk_set_rate T E clk1 tr1 rate = ⟨Status.ret 0, clk1, tr1⟩) := by
  subst hfreq
  by_cases hc : clamp_rate rate = clk1.gpc_pll.freq
  · have h : gk20a_clk_set_rate T E clk1 tr1 rate = ⟨Status.ret 0, clk1, tr1⟩ := by
      unfold gk20a_clk_set_rate
      simp only [hc, if_true]
    refine ⟨[], rfl, Or.inl ?_, fun _ => h⟩
    rw [h, List.append_nil]
  · have hs1 := clk_config_pll_clk_in solver_fuel clk1.gpc_pll q0 gpc_pll_params
      (clamp_rate rate) true hin clk1.gpc_pll _ hs
    have h : gk20a_clk_set_rate T E clk1 tr1 rate =
        apply_rate T E clk1 tr1 clk1.gpc_pll.freq clk1.gpc_pll.freq := by
      unfold gk20a_clk_set_rate
      simp only [hc, if_false, hs1]
    obtain ⟨seq, hd, hr⟩ := apply_rate_level_run T E clk1 tr1 clk1.gpc_pll.freq
    rw [h]
    exact ⟨seq, hd, hr, fun e => absurd e hc⟩

/-- C20, as the code has it: after a call `gk20a_clk_set_rate(r)` that returns 0, an
immediately following `gk20a_clk_set_rate(r)` makes no voltage call and leaves the clock
state, so M, N, PL and the cached frequency, as the first call left it; it returns 0 or
stops in the `BUG()` of the lock-wait loop; and when the frequency the first call cached
equals `r` brought into `[403, 806]`, it returns 0 and adds nothing to the trace, so no
register access at all.  This holds from every clock state, reachable or not. -/
theorem gk20a_clk_set_rate_twice (T : trim_sys) (E : Env) (clk : clk_gk20a) (tr : List Ev)
    (rate : Nat) (hok : (gk20a_clk_set_rate T E clk tr rate).status = Status.ret 0) :
    ∃ seq : List Ev,
      (gk20a_clk_set_rate T E (gk20a_clk_set_rate T E clk tr rate).clk
        (gk20a_clk_set_rate T E clk tr rate).trace rate).trace
          = (gk20a_clk_set_rate T E clk tr rate).trace ++ seq ∧
      dvfs_calls seq = [] ∧
      (gk20a_clk_set_rate T E (gk20a_clk_set_rate T E clk tr rate).clk
        (gk20a_clk_set_rate T E clk tr rate).trace rate).clk
          = (gk20a_clk_set_rate T E clk tr rate).clk ∧
      ((gk20a_clk_set_rate T E (gk20a_clk_set_rate T E clk tr rate).clk
          (gk20a_clk_set_rate T E clk tr rate).trace rate).status = Status.ret 0 ∨
       (gk20a_clk_set_rate T E (gk20a_clk_set_rate T E clk tr rate).clk
          (gk20a_clk_set_rate T E clk tr rate).trace rate).status = Status.bug) ∧
      (clamp_rate rate = gk20a_clk_get_rate (gk20a_clk_set_rate T E clk tr rate).clk →
        gk20a_clk_set_rate T E (gk20a_clk_set_rate T E clk tr rate).clk
          (gk20a_clk_set_rate T E clk tr rate).trace rate
          = ⟨Status.ret 0, (gk20a_clk_set_rate T E clk tr rate).clk,
              (gk20a_clk_set_rate T E clk tr rate).trace⟩) := by
  by_cases hc : clamp_rate rate = clk.gpc_pll.freq
  · have h1 : gk20a_clk_set_rate T E clk tr rate = ⟨Status.ret 0, clk, tr⟩ := by
      unfold gk20a_clk_set_rate
      simp only [hc, if_true]
    rw [h1]
    show ∃ seq : List Ev,
      (gk20a_clk_set_rate T E clk tr rate).trace = tr ++ seq ∧ dvfs_calls seq = [] ∧
      (gk20a_clk_set_rate T E clk tr rate).clk = clk ∧
      ((gk20a_clk_set_rate T E clk tr rate).status = Status.ret 0 ∨
       (gk20a_clk_set_rate T E clk tr rate).status = Status.bug) ∧
      (clamp_rate rate = gk20a_clk_get_rate clk →
        gk20a_clk_set_rate T E clk tr rate = ⟨Status.ret 0, clk, tr⟩)
    rw [h1]
    exact ⟨[], (List.append_nil _).symm, rfl, rfl, Or.inl rfl, fun _ => rfl⟩
  · cases hs : clk_config_pll solver_fuel clk.gpc_pll gpc_pll_params (clamp_rate rate) true with
    | none =>
      unfold gk20a_clk_set_rate at hok
      simp only [hc, if_false, hs] at hok
      exact Status.noConfusion hok
    | some r =>
      cases r with
      | bug =>
        unfold gk20a_clk_set_rate at hok
        simp only [hc, if_false, hs] at hok
        exact Status.noConfusion hok
      | div0 =>
        unfold gk20a_clk_set_rate at hok
        simp only [hc, if_false, hs] at hok
        exact Status.noConfusion hok
      | ok q1 f =>
        have h1 : gk20a_clk_set_rate T E clk tr rate =
            apply_rate T E { clk with gpc_pll := q1 } tr clk.gpc_pll.freq f := by
          unfold gk20a_clk_set_rate
          simp only [hc, if_false, hs]
        obtain ⟨r0, b, -, -, hfm⟩ := clk_config_pll_ok_search solver_fuel clk.gpc_pll
          gpc_pll_params (clamp_rate rate) true q1 f hs
        obtain ⟨-, -, hq1, -⟩ := found_match_ok clk.gpc_pll b q1 f hfm
        have hclk : (gk20a_clk_set_rate T E clk tr rate).clk = { clk with gpc_pll := q1 } := by
          rw [h1]
          exact apply_rate_clk T E _ tr _ f
        rw [hclk]
        generalize (gk20a_clk_set_rate T E clk tr rate).trace = tr1
        obtain ⟨seq, hd, hr, hsame⟩ := gk20a_clk_set_rate_again T E { clk with gpc_pll := q1 } tr1
          rate clk.gpc_pll f hs (by rw [hq1]) (by rw [hq1])
        have hf1 : q1.freq = f := by rw [hq1]
        refine ⟨seq, ?_, hd, ?_, ?_, fun e => hsame (e.trans hf1)⟩
        · rcases hr with hr | hr <;> rw [hr]
        · rcases hr with hr | hr <;> rw [hr]
        · rcases hr with hr | hr
          · exact Or.inl (by rw [hr])
          · exact Or.inr (by rw [hr])

theorem gk20a_clk_set_rate_twice_witness :
    (gk20a_clk_set_rate trim_example env_locked clk_quick [] 410).status = Status.ret 0 ∧
    ∃ seq : List Ev,
      (gk20a_clk_set_rate trim_example env_locked
        (gk20a_clk_set_rate trim_example env_locked clk_quick [] 410).clk
        (gk20a_clk_set_rate trim_example env_locked clk_quick [] 410).trace 410).trace
          = (gk20a_clk_set_rate trim_example env_locked clk_quick [] 410).trace ++ seq ∧
      dvfs_calls seq = [] ∧
      (gk20a_clk_set_rate trim_example env_locked
        (gk20a_clk_set_rate trim_example env_locked clk_quick [] 410).clk
        (gk20a_clk_set_rate trim_example env_locked clk_quick [] 410).trace 410).clk
          = (gk20a_clk_set_rate trim_example env_locked clk_quick [] 410).clk ∧
      ((gk20a_clk_set_rate trim_example env_locked
          (gk20a_clk_set_rate trim_example env_locked clk_quick [] 410).clk
          (gk20a_clk_set_rate trim_example env_locked clk_quick [] 410).trace 410).status
            = Status.ret 0 ∨
       (gk20a_clk_set_rate trim_example env_locked
          (gk20a_clk_set_rate trim_example env_locked clk_quick [] 410).clk
          (gk20a_clk_set_rate trim_example env_locked clk_quick [] 410).trace 410).status
            = Status.bug) ∧
      (clamp_rate 410 = gk20a_clk_get_rate
          (gk20a_clk_set_rate trim_example env_locked clk_quick [] 410).clk →
        gk20a_clk_set_rate trim_example env_locked
          (gk20a_clk_set_rate trim_example env_locked clk_quick [] 410).clk
          (gk20a_clk_set_rate trim_example env_locked clk_quick [] 410).trace 410
          = ⟨Status.ret 0, (gk20a_clk_set_rate trim_example env_locked clk_quick [] 410).clk,
              (gk20a_clk_set_rate trim_example env_locked clk_quick [] 410).trace⟩) :=
  ⟨by decide, gk20a_clk_set_rate_twice trim_example env_locked clk_quick [] 410 (by decide)⟩

/-- C20, as stated, fails at r = 410: from the state `gk20a_init_clk_setup_sw` leaves
behind, which is reachable, with the PLL locking at once, `gk20a_clk_set_rate(410)`
returns 0 and caches 409, the frequency of the coefficients the solver chose; the
immediately following `gk20a_clk_set_rate(410)` finds 410 different from 409, runs the
solver and the sequencer again and writes registers five times (it makes no voltage call
and returns 0). -/
theorem gk20a_clk_set_rate_twice_rewrites :
    Reachable trim_example (gk20a_init_clk_setup_sw env_locked clk_fresh []).clk ∧
    run_410.status = Status.ret 0 ∧ gk20a_clk_get_rate run_410.clk = 409 ∧
    run_410_again.status = Status.ret 0 ∧
    writes (run_410_again.trace.drop run_410.trace.length) ≠ [] ∧
    (writes (run_410_again.trace.drop run_410.trace.length)).length = 5 ∧
    dvfs_calls (run_410_again.trace.drop run_410.trace.length) = [] :=
  ⟨Reachable.init env_locked clk_fresh [] rfl, by decide⟩

/-! ## The record of the search -/

theorem try_candidate_log_fst (ref minv maxv t pl m n : Nat) (bf : Bool) (b : Best)
    (l : List Best) :
    (try_candidate_log ref minv maxv t pl m n bf b l).1 =
      try_candidate ref minv maxv t pl m n bf b := by
  unfold try_candidate_log try_candidate
  simp only []
  split
  · split
    · rfl
    · split
      · split <;> rfl
      · rfl
  · rfl

theorem n_loop_log_fst (p : pll_parms) (ref minv maxv t pl m n2 : Nat) (bf : Bool) :
    ∀ (fuel n : Nat) (b : Best) (l : List Best),
      (n_loop_log p ref minv maxv t pl m n2 bf fuel n b l).map Prod.fst =
        n_loop p ref minv maxv t pl m n2 bf fuel n b := by
  intro fuel
  induction fuel with
  | zero => intro n b l; rfl
  | succ fuel ih =>
    intro n b l
    unfold n_loop_log n_loop
    by_cases h1 : n ≤ n2
    · simp only [h1, if_true]
      by_cases h2 : n < p.min_N
      · simp only [h2, if_true]
        exact ih _ b l
      · simp only [h2, if_false]
        by_cases h3 : n > p.max_N
        · simp only [h3, if_true]
          rfl
        · simp only [h3, if_false]
          rw [← try_candidate_log_fst ref minv maxv t pl m n bf b l]
          rcases hc : try_candidate_log ref minv maxv t pl m n bf b l with ⟨r, l1⟩
          cases r with
          | next b1 => exact ih _ b1 l1
          | found b1 => rfl
          | div0 => rfl
    · simp only [h1, if_false]
      rfl

theorem m_loop_log_fst (p : pll_parms) (ref minv maxv t pl tv : Nat) (bf : Bool) :
    ∀ (fuel m : Nat) (b : Best) (l : List Best),
      (m_loop_log p ref minv maxv t pl tv bf fuel m b l).map Prod.fst =
        m_loop p ref minv maxv t pl tv bf fuel m b := by
  intro fuel
  induction fuel with
  | zero => intro m b l; rfl
  | succ fuel ih =>
    intro m b l
    unfold m_loop_log m_loop
    by_cases h1 : m ≤ p.max_M
    · simp only [h1, if_true]
      by_cases h0 : m = 0
      · simp only [h0, if_true]
        rfl
      · simp only [h0, if_false]
        by_cases h2 : ref / m < p.min_u
        · simp only [h2, if_true]
          rfl
        · simp only [h2, if_false]
          by_cases h3 : ref / m > p.max_u
          · simp only [h3, if_true]
            exact ih _ b l
          · simp only [h3, if_false]
            by_cases h4 : ref = 0
            · simp only [h4, if_true]
              rfl
            · simp only [h4, if_false]
              by_cases h5 : tv * m % U32 / ref > p.max_N
              · simp only [h5, if_true]
                rfl
              · simp only [h5, if_false]
                rw [← n_loop_log_fst p ref minv maxv t pl m
                  ((tv * m % U32 + (ref - 1)) % U32 / ref) bf fuel (tv * m % U32 / ref) b l]
                cases hn : n_loop_log p ref minv maxv t pl m
                    ((tv * m % U32 + (ref - 1)) % U32 / ref) bf fuel (tv * m % U32 / ref) b l with
                | none => rfl
                | some x =>
                  rcases x with ⟨r, l1⟩
                  cases r with
                  | next b1 => exact ih _ b1 l1
                  | found b1 => rfl
                  | div0 => rfl
    · simp only [h1, if_false]
      rfl

theorem pl_loop_log_fst (p : pll_parms) (ref minv maxv t lo : Nat) (bf : Bool) :
    ∀ (fuel pl : Nat) (b : Best) (l : List Best),
      (pl_loop_log p ref minv maxv t lo bf fuel pl b l).map Prod.fst =
        pl_loop p ref minv maxv t lo bf fuel pl b := by
  intro fuel
  induction fuel with
  | zero => intro pl b l; rfl
  | succ fuel ih =>
    intro pl b l
    unfold pl_loop_log pl_loop
    by_cases h1 : pl ≥ lo
    · simp only [h1, if_true]
      rw [← m_loop_log_fst p ref minv maxv t pl (t * pl % U32) bf fuel p.min_M b l]
      cases hm : m_loop_log p ref minv maxv t pl (t * pl % U32) bf fuel p.min_M b l with
      | none => rfl
      | some x =>
        rcases x with ⟨r, l1⟩
        cases r with
        | next b1 => exact ih _ b1 l1
        | found b1 => rfl
        | div0 => rfl
    · simp only [h1, if_false]
      rfl

theorem clk_config_search_log_fst (fuel : Nat) (q : pll) (p : pll_parms) (t : Nat) (bf : Bool) :
    (clk_config_search_log fuel q p t bf).map Prod.fst = clk_config_search fuel q p t bf := by
  unfold clk_config_search_log clk_config_search
  by_cases h0 : (t + t / 50) % U32 = 0
  · simp only [h0, if_true]
    rfl
  · simp only [h0, if_false]
    exact pl_loop_log_fst p q.clk_in _ _ t _ bf fuel _ _ []

theorem try_candidate_log_cases (ref minv maxv t pl m n : Nat) (bf : Bool) (b : Best)
    (l : List Best) :
    try_candidate_log ref minv maxv t pl m n bf b l = (Scan.div0, l) ∨
    try_candidate_log ref minv maxv t pl m n bf b l = (Scan.next b, l) ∨
    ((try_candidate_log ref minv maxv t pl m n bf b l =
        (Scan.next ⟨cand_delta ref t pl m n, m, n, pl⟩,
          l ++ [⟨cand_delta ref t pl m n, m, n, pl⟩]) ∨
      try_candidate_log ref minv maxv t pl m n bf b l =
        (Scan.found ⟨cand_delta ref t pl m n, m, n, pl⟩,
          l ++ [⟨cand_delta ref t pl m n, m, n, pl⟩])) ∧
     cand_delta ref t pl m n < b.best_delta) := by
  unfold try_candidate_log cand_delta cand_lwv
  by_cases hv : minv ≤ ref * n % U32 / m ∧ ref * n % U32 / m ≤ maxv
  · simp only [hv, and_self, if_true]
    by_cases hpl : pl = 0
    · simp only [hpl, if_true, true_or]
    · simp only [hpl, if_false]
      by_cases hd : abs_u32 ((((ref * n % U32 / m + pl / 2) % U32) / pl + U32 - t) % U32)
          < b.best_delta
      · simp only [hd, if_true]
        right; right
        refine ⟨?_, trivial⟩
        split
        · exact Or.inr rfl
        · exact Or.inl rfl
      · rw [if_neg hd]
        exact Or.inr (Or.inl rfl)
  · rw [if_neg hv]
    exact Or.inr (Or.inl rfl)

theorem n_loop_log_keeps (P : Best → List Best → Prop) (p : pll_parms)
    (ref minv maxv t pl m n2 : Nat) (bf : Bool)
    (hstep : ∀ n b l, P b l → cand_delta ref t pl m n < b.best_delta →
      P ⟨cand_delta ref t pl m n, m, n, pl⟩ (l ++ [⟨cand_delta ref t pl m n, m, n, pl⟩])) :
    ∀ (fuel n : Nat) (b : Best) (l : List Best) (r : Scan) (lt : List Best),
      n_loop_log p ref minv maxv t pl m n2 bf fuel n b l = some (r, lt) → P b l →
      ∀ b1, scan_best r = some b1 → P b1 lt := by
  intro fuel
  induction fuel with
  | zero =>
    intro n b l r lt h
    exact Option.noConfusion h
  | succ fuel ih =>
    intro n b l r lt h hb b1 hr
    unfold n_loop_log at h
    by_cases h1 : n ≤ n2
    · simp only [h1, if_true] at h
      by_cases h2 : n < p.min_N
      · simp only [h2, if_true] at h
        exact ih _ b l r lt h hb b1 hr
      · simp only [h2, if_false] at h
        by_cases h3 : n > p.max_N
        · simp only [h3, if_true] at h
          cases Option.some.inj h
          cases Option.some.inj hr
          exact hb
        · simp only [h3, if_false] at h
          rcases try_candidate_log_cases ref minv maxv t pl m n bf b l with
            hc | hc | ⟨hc | hc, hlt⟩
          · rw [hc] at h
            cases Option.some.inj h
            exact Option.noConfusion hr
          · rw [hc] at h
            exact ih _ b l r lt h hb b1 hr
          · rw [hc] at h
            exact ih _ _ _ r lt h (hstep n b l hb hlt) b1 hr
          · rw [hc] at h
            cases Option.some.inj h
            cases Option.some.inj hr
            exact hstep n b l hb hlt
    · simp only [h1, if_false] at h
      cases Option.some.inj h
      cases Option.some.inj hr
      exact hb

theorem m_loop_log_keeps (P : Best → List Best → Prop) (p : pll_parms)
    (ref minv maxv t pl tv : Nat) (bf : Bool)
    (hstep : ∀ m n b l, P b l → cand_delta ref t pl m n < b.best_delta →
      P ⟨cand_delta ref t pl m n, m, n, pl⟩ (l ++ [⟨cand_delta ref t pl m n, m, n, pl⟩])) :
    ∀ (fuel m : Nat) (b : Best) (l : List Best) (r : Scan) (lt : List Best),
      m_loop_log p ref minv maxv t pl tv bf fuel m b l = some (r, lt) → P b l →
      ∀ b1, scan_best r = some b1 → P b1 lt := by
  intro fuel
  induction fuel with
  | zero =>
    intro m b l r lt h
    exact Option.noConfusion h
  | succ fuel ih =>
    intro m b l r lt h hb b1 hr
    unfold m_loop_log at h
    by_cases h1 : m ≤ p.max_M
    · simp only [h1, if_true] at h
      by_cases h0 : m = 0
      · simp only [h0, if_true] at h
        cases Option.some.inj h
        exact Option.noConfusion hr
      · simp only [h0, if_false] at h
        by_cases h2 : ref / m < p.min_u
        · simp only [h2, if_true] at h
          cases Option.some.inj h
          cases Option.some.inj hr
          exact hb
        · simp only [h2, if_false] at h
          by_cases h3 : ref / m > p.max_u
          · simp only [h3, if_true] at h
            exact ih _ b l r lt h hb b1 hr
          · simp only [h3, if_false] at h
            by_cases h4 : ref = 0
            · simp only [h4, if_true] at h
              cases Option.some.inj h
              exact Option.noConfusion hr
            · simp only [h4, if_false] at h
              by_cases h5 : tv * m % U32 / ref > p.max_N
              · simp only [h5, if_true] at h
                cases Option.some.inj h
                cases Option.some.inj hr
                exact hb
              · simp only [h5, if_false] at h
                cases hn : n_loop_log p ref minv maxv t pl m
                    ((tv * m % U32 + (ref - 1)) % U32 / ref) bf fuel (tv * m % U32 / ref) b l with
                | none =>
                  rw [hn] at h
                  exact Option.noConfusion h
                | some x =>
                  rcases x with ⟨rn, ln⟩
                  rw [hn] at h
                  have hkeep := n_loop_log_keeps P p ref minv maxv t pl m _ bf (hstep m) fuel _ b l
                    rn ln hn hb
                  cases rn with
                  | next b2 => exact ih _ b2 ln r lt h (hkeep b2 rfl) b1 hr
                  | found b2 =>
                    cases Option.some.inj h
                    cases Option.some.inj hr
                    exact hkeep b1 rfl
                  | div0 =>
                    cases Option.some.inj h
                    exact Option.noConfusion hr
    · simp only [h1, if_false] at h
      cases Option.some.inj h
      cases Option.some.inj hr
      exact hb

theorem pl_loop_log_keeps (P : Best → List Best → Prop) (p : pll_parms)
    (ref minv maxv t lo : Nat) (bf : Bool)
    (hstep : ∀ pl m n b l, P b l → cand_delta ref t pl m n < b.best_delta →
      P ⟨cand_delta ref t pl m n, m, n, pl⟩ (l ++ [⟨cand_delta ref t pl m n, m, n, pl⟩])) :
    ∀ (fuel pl : Nat) (b : Best) (l : List Best) (r : Scan) (lt : List Best),
      pl_loop_log p ref minv maxv t lo bf fuel pl b l = some (r, lt) → P b l →
      ∀ b1, scan_best r = some b1 → P b1 lt := by
  intro fuel
  induction fuel with
  | zero =>
    intro pl b l r lt h
    exact Option.noConfusion h
  | succ fuel ih =>
    intro pl b l r lt h hb b1 hr
    unfold pl_loop_log at h
    by_cases h1 : pl ≥ lo
    · simp only [h1, if_true] at h
      cases hm : m_loop_log p ref minv maxv t pl (t * pl % U32) bf fuel p.min_M b l with
      | none =>
        rw [hm] at h
        exact Option.noConfusion h
      | some x =>
        rcases x with ⟨rm, lm⟩
        rw [hm] at h
        have hkeep := m_loop_log_keeps P p ref minv maxv t pl _ bf (hstep pl) fuel _ b l rm lm
          hm hb
        cases rm with
        | next b2 => exact ih _ b2 lm r lt h (hkeep b2 rfl) b1 hr
        | found b2 =>
          cases Option.some.inj h
          cases Option.some.inj hr
          exact hkeep b1 rfl
        | div0 =>
          cases Option.some.inj h
          exact Option.noConfusion hr
    · simp only [h1, if_false] at h
      cases Option.some.inj h
      cases Option.some.inj hr
      exact hb

theorem clk_config_search_log_keeps (P : Best → List Best → Prop) (fuel : Nat) (q : pll)
    (p : pll_parms) (t : Nat) (bf : Bool)
    (hstep : ∀ pl m n b l, P b l → cand_delta q.clk_in t pl m n < b.best_delta →
      P ⟨cand_delta q.clk_in t pl m n, m, n, pl⟩
        (l ++ [⟨cand_delta q.clk_in t pl m n, m, n, pl⟩]))
    (h0 : P ⟨U32 - 1, p.max_M, p.min_N, p.min_PL⟩ []) (r : Scan) (lt : List Best) (b : Best)
    (h : clk_config_search_log fuel q p t bf = some (r, lt)) (hr : scan_best r = some b) :
    P b lt := by
  unfold clk_config_search_log at h
  by_cases hz : (t + t / 50) % U32 = 0
  · simp only [hz, if_true] at h
    cases Option.some.inj h
    exact Option.noConfusion hr
  · simp only [hz, if_false] at h
    exact pl_loop_log_keeps P p q.clk_in _ _ t _ bf hstep fuel _ _ [] r lt h h0 b hr

/-! ## The two searches side by side -/

theorem try_candidate_lockstep (ref minv maxv t pl m n : Nat) (b : Best) (l : List Best) :
    (try_candidate_log ref minv maxv t pl m n true b l = (Scan.div0, l) ∧
      try_candidate ref minv maxv t pl m n false b = Scan.div0) ∨
    (try_candidate_log ref minv maxv t pl m n true b l = (Scan.next b, l) ∧
      try_candidate ref minv maxv t pl m n false b = Scan.next b) ∨
    (cand_delta ref t pl m n < b.best_delta ∧
      ((try_candidate_log ref minv maxv t pl m n true b l =
          (Scan.found ⟨cand_delta ref t pl m n, m, n, pl⟩,
            l ++ [⟨cand_delta ref t pl m n, m, n, pl⟩]) ∧
        try_candidate ref minv maxv t pl m n false b =
          Scan.found ⟨cand_delta ref t pl m n, m, n, pl⟩ ∧
        near ref ⟨cand_delta ref t pl m n, m, n, pl⟩ = false) ∨
       (try_candidate_log ref minv maxv t pl m n true b l =
          (Scan.next ⟨cand_delta ref t pl m n, m, n, pl⟩,
            l ++ [⟨cand_delta ref t pl m n, m, n, pl⟩]) ∧
        try_candidate ref minv maxv t pl m n false b =
          Scan.next ⟨cand_delta ref t pl m n, m, n, pl⟩ ∧
        near ref ⟨cand_delta ref t pl m n, m, n, pl⟩ = false) ∨
       (try_candidate_log ref minv maxv t pl m n true b l =
          (Scan.next ⟨cand_delta ref t pl m n, m, n, pl⟩,
            l ++ [⟨cand_delta ref t pl m n, m, n, pl⟩]) ∧
        try_candidate ref minv maxv t pl m n false b =
          Scan.found ⟨cand_delta ref t pl m n, m, n, pl⟩ ∧
        near ref ⟨cand_delta ref t pl m n, m, n, pl⟩ = true))) := by
  unfold try_candidate_log try_candidate cand_delta cand_lwv near
  by_cases hv : minv ≤ ref * n % U32 / m ∧ ref * n % U32 / m ≤ maxv
  · simp only [hv, and_self, if_true]
    by_cases hpl : pl = 0
    · left
      simp only [hpl, if_true, and_self]
    · simp only [hpl, if_false]
      generalize abs_u32 ((((ref * n % U32 / m + pl / 2) % U32) / pl + U32 - t) % U32) = d
      by_cases hd : d < b.best_delta
      · right; right
        refine ⟨hd, ?_⟩
        simp only [hd, if_true]
        by_cases hd0 : d = 0
        · left
          subst hd0
          simp only [true_or, if_true, Nat.div_zero, gt_iff_lt, Nat.not_lt_zero, decide_False,
            and_self]
        · right
          by_cases hr : ref * n % U32 / m / d > 218
          · right
            simp only [hd0, hr, false_or, Bool.true_eq_false, false_and, if_false, and_true,
              if_true, decide_True, and_self]
          · left
            simp only [hd0, hr, false_or, Bool.true_eq_false, false_and, if_false, and_false,
              decide_False, and_self]
      · right; left
        simp only [hd, if_false, and_self]
  · right; left
    simp only [hv, if_false, and_self]

theorem find_snoc_none (f : Best → Bool) (l : List Best) (c : Best)
    (hl : l.find? f = none) (hc : f c = false) : (l ++ [c]).find? f = none := by
  rw [List.find?_append, hl]
  simp only [List.find?, hc, Option.or]

theorem find_snoc_new (f : Best → Bool) (l : List Best) (c : Best)
    (hl : l.find? f = none) (hc : f c = true) : (l ++ [c]).find? f = some c := by
  rw [List.find?_append, hl]
  simp only [List.find?, hc, Option.or]

theorem find_snoc_old (f : Best → Bool) (l : List Best) (c x : Best)
    (hl : l.find? f = some x) : (l ++ [c]).find? f = some x := by
  rw [List.find?_append, hl]
  rfl

theorem sync_end (ref : Nat) (r : Scan) (l : List Best) (hl : l.find? (near ref) = none) :
    Sync ref (some (r, l)) (some r) := by
  intro rt lt b1 h _
  cases Option.some.inj h
  exact Or.inl ⟨rfl, hl⟩

theorem sync_none (ref : Nat) (x : Option Scan) : Sync ref none x := by
  intro rt lt b1 h _
  exact Option.noConfusion h

theorem sync_div0 (ref : Nat) (l : List Best) (x : Option Scan) :
    Sync ref (some (Scan.div0, l)) x := by
  intro rt lt b1 h hb
  cases Option.some.inj h
  exact Option.noConfusion hb

theorem after_near_step (ref t : Nat) (c : Best) (pl m n : Nat) (b : Best) (l : List Best)
    (h : l.find? (near ref) = some c ∧ b.best_delta ≤ c.best_delta)
    (hlt : cand_delta ref t pl m n < b.best_delta) :
    (l ++ [(⟨cand_delta ref t pl m n, m, n, pl⟩ : Best)]).find? (near ref) = some c ∧
    (⟨cand_delta ref t pl m n, m, n, pl⟩ : Best).best_delta ≤ c.best_delta :=
  ⟨find_snoc_old _ l _ c h.1, Nat.le_of_lt (Nat.lt_of_lt_of_le hlt h.2)⟩

theorem n_loop_lockstep (p : pll_parms) (ref minv maxv t pl m n2 : Nat) :
    ∀ (fuel n : Nat) (b : Best) (l : List Best), l.find? (near ref) = none →
      Sync ref (n_loop_log p ref minv maxv t pl m n2 true fuel n b l)
        (n_loop p ref minv maxv t pl m n2 false fuel n b) := by
  intro fuel
  induction fuel with
  | zero =>
    intro n b l _
    exact sync_none ref _
  | succ fuel ih =>
    intro n b l hl
    unfold n_loop_log n_loop
    by_cases h1 : n ≤ n2
    · simp only [h1, if_true]
      by_cases h2 : n < p.min_N
      · simp only [h2, if_true]
        exact ih _ b l hl
      · simp only [h2, if_false]
        by_cases h3 : n > p.max_N
        · simp only [h3, if_true]
          exact sync_end ref _ l hl
        · simp only [h3, if_false]
          rcases try_candidate_lockstep ref minv maxv t pl m n b l with
            ⟨ht, hf⟩ | ⟨ht, hf⟩ | ⟨hlt, ⟨ht, hf, hn⟩ | ⟨ht, hf, hn⟩ | ⟨ht, hf, hn⟩⟩
          · rw [ht, hf]
            exact sync_div0 ref l _
          · rw [ht, hf]
            exact ih _ b l hl
          · rw [ht, hf]
            exact sync_end ref _ _ (find_snoc_none _ l _ hl hn)
          · rw [ht, hf]
            exact ih _ _ _ (find_snoc_none _ l _ hl hn)
          · rw [ht, hf]
            intro rt lt b1 h hb1
            right
            refine ⟨_, rfl, ?_⟩
            exact n_loop_log_keeps
              (fun b l => l.find? (near ref) = some ⟨cand_delta ref t pl m n, m, n, pl⟩ ∧
                b.best_delta ≤ (⟨cand_delta ref t pl m n, m, n, pl⟩ : Best).best_delta)
              p ref minv maxv t pl m n2 true
              (fun n1 b0 l0 h0 hlt0 => after_near_step ref t _ pl m n1 b0 l0 h0 hlt0)
              fuel _ _ _ rt lt h ⟨find_snoc_new _ l _ hl hn, Nat.le_refl _⟩ b1 hb1
    · simp only [h1, if_false]
      exact sync_end ref _ l hl

theorem m_loop_lockstep (p : pll_parms) (ref minv maxv t pl tv : Nat) :
    ∀ (fuel m : Nat) (b : Best) (l : List Best), l.find? (near ref) = none →
      Sync ref (m_loop_log p ref minv maxv t pl tv true fuel m b l)
        (m_loop p ref minv maxv t pl tv false fuel m b) := by
  intro fuel
  induction fuel with
  | zero =>
    intro m b l _
    exact sync_none ref _
  | succ fuel ih =>
    intro m b l hl
    unfold m_loop_log m_loop
    by_cases h1 : m ≤ p.max_M
    · simp only [h1, if_true]
      by_cases h0 : m = 0
      · simp only [h0, if_true]
        exact sync_div0 ref l _
      · simp only [h0, if_false]
        by_cases h2 : ref / m < p.min_u
        · simp only [h2, if_true]
          exact sync_end ref _ l hl
        · simp only [h2, if_false]
          by_cases h3 : ref / m > p.max_u
          · simp only [h3, if_true]
            exact ih _ b l hl
          · simp only [h3, if_false]
            by_cases h4 : ref = 0
            · simp only [h4, if_true]
              exact sync_div0 _ l _
            · simp only [h4, if_false]
              by_cases h5 : tv * m % U32 / ref > p.max_N
              · simp only [h5, if_true]
                exact sync_end ref _ l hl
              · simp only [h5, if_false]
                have hin := n_loop_lockstep p ref minv maxv t pl m
                  ((tv * m % U32 + (ref - 1)) % U32 / ref) fuel (tv * m % U32 / ref) b l hl
                cases hn : n_loop_log p ref minv maxv t pl m
                    ((tv * m % U32 + (ref - 1)) % U32 / ref) true fuel (tv * m % U32 / ref) b l with
                | none => exact sync_none ref _
                | some x =>
                  rcases x with ⟨rn, ln⟩
                  rw [hn] at hin
                  cases rn with
                  | next b2 =>
                    rcases hin _ _ b2 rfl rfl with ⟨hf, hln⟩ | ⟨c, hf, hfind, hle⟩
                    · rw [hf]
                      exact ih _ b2 ln hln
                    · rw [hf]
                      intro rt lt b1 h hb1
                      exact Or.inr ⟨c, rfl, m_loop_log_keeps
                        (fun b l => l.find? (near ref) = some c ∧ b.best_delta ≤ c.best_delta)
                        p ref minv maxv t pl tv true
                        (fun m1 n1 b0 l0 h0 hlt0 => after_near_step ref t c pl m1 n1 b0 l0 h0 hlt0)
                        fuel _ _ _ rt lt h ⟨hfind, hle⟩ b1 hb1⟩
                  | found b2 =>
                    rcases hin _ _ b2 rfl rfl with ⟨hf, hln⟩ | ⟨c, hf, hfind, hle⟩
                    · rw [hf]
                      exact sync_end ref _ ln hln
                    · rw [hf]
                      intro rt lt b1 h hb1
                      cases Option.some.inj h
                      cases Option.some.inj hb1
                      exact Or.inr ⟨c, rfl, hfind, hle⟩
                  | div0 => exact sync_div0 ref ln _
    · simp only [h1, if_false]
      exact sync_end ref _ l hl

theorem pl_loop_lockstep (p : pll_parms) (ref minv maxv t lo : Nat) :
    ∀ (fuel pl : Nat) (b : Best) (l : List Best), l.find? (near ref) = none →
      Sync ref (pl_loop_log p ref minv maxv t lo true fuel pl b l)
        (pl_loop p ref minv maxv t lo false fuel pl b) := by
  intro fuel
  induction fuel with
  | zero =>
    intro pl b l _
    exact sync_none ref _
  | succ fuel ih =>
    intro pl b l hl
    unfold pl_loop_log pl_loop
    by_cases h1 : pl ≥ lo
    · simp only [h1, if_true]
      have hin := m_loop_lockstep p ref minv maxv t pl (t * pl % U32) fuel p.min_M b l hl
      cases hm : m_loop_log p ref minv maxv t pl (t * pl % U32) true fuel p.min_M b l with
      | none => exact sync_none ref _
      | some x =>
        rcases x with ⟨rm, lm⟩
        rw [hm] at hin
        cases rm with
        | next b2 =>
          rcases hin _ _ b2 rfl rfl with ⟨hf, hlm⟩ | ⟨c, hf, hfind, hle⟩
          · rw [hf]
            exact ih _ b2 lm hlm
          · rw [hf]
            intro rt lt b1 h hb1
            exact Or.inr ⟨c, rfl, pl_loop_log_keeps
              (fun b l => l.find? (near ref) = some c ∧ b.best_delta ≤ c.best_delta)
              p ref minv maxv t lo true
              (fun pl1 m1 n1 b0 l0 h0 hlt0 => after_near_step ref t c pl1 m1 n1 b0 l0 h0 hlt0)
              fuel _ _ _ rt lt h ⟨hfind, hle⟩ b1 hb1⟩
        | found b2 =>
          rcases hin _ _ b2 rfl rfl with ⟨hf, hlm⟩ | ⟨c, hf, hfind, hle⟩
          · rw [hf]
            exact sync_end ref _ lm hlm
          · rw [hf]
            intro rt lt b1 h hb1
            cases Option.some.inj h
            cases Option.some.inj hb1
            exact Or.inr ⟨c, rfl, hfind, hle⟩
        | div0 => exact sync_div0 ref lm _
    · simp only [h1, if_false]
      exact sync_end ref _ l hl

theorem clk_config_search_lockstep (fuel : Nat) (q : pll) (p : pll_parms) (t : Nat) :
    Sync q.clk_in (clk_config_search_log fuel q p t true) (clk_config_search fuel q p t false) := by
  unfold clk_config_search_log clk_config_search
  by_cases h0 : (t + t / 50) % U32 = 0
  · simp only [h0, if_true]
    exact sync_div0 _ _ _
  · simp only [h0, if_false]
    exact pl_loop_lockstep p q.clk_in _ _ t _ fuel _ _ [] rfl

/-! ## More fuel does not change a finished search -/

theorem n_loop_mono (p : pll_parms) (ref minv maxv t pl m n2 : Nat) (bf : Bool) :
    ∀ (fuel n : Nat) (b : Best) (r : Scan),
      n_loop p ref minv maxv t pl m n2 bf fuel n b = some r →
      ∀ k, fuel ≤ k → n_loop p ref minv maxv t pl m n2 bf k n b = some r := by
  intro fuel
  induction fuel with
  | zero =>
    intro n b r h
    exact Option.noConfusion h
  | succ fuel ih =>
    intro n b r h k hk
    cases k with
    | zero => omega
    | succ k =>
      have hk1 : fuel ≤ k := by omega
      unfold n_loop at h ⊢
      by_cases h1 : n ≤ n2
      · simp only [h1, if_true] at h ⊢
        by_cases h2 : n < p.min_N
        · simp only [h2, if_true] at h ⊢
          exact ih _ b r h k hk1
        · simp only [h2, if_false] at h ⊢
          by_cases h3 : n > p.max_N
          · simp only [h3, if_true] at h ⊢
            exact h
          · simp only [h3, if_false] at h ⊢
            cases hc : try_candidate ref minv maxv t pl m n bf b with
            | next b1 =>
              rw [hc] at h
              exact ih _ b1 r h k hk1
            | found b1 =>
              rw [hc] at h
              exact h
            | div0 =>
              rw [hc] at h
              exact h
      · simp only [h1, if_false] at h ⊢
        exact h

theorem m_loop_mono (p : pll_parms) (ref minv maxv t pl tv : Nat) (bf : Bool) :
    ∀ (fuel m : Nat) (b : Best) (r : Scan),
      m_loop p ref minv maxv t pl tv bf fuel m b = some r →
      ∀ k, fuel ≤ k → m_loop p ref minv maxv t pl tv bf k m b = some r := by
  intro fuel
  induction fuel with
  | zero =>
    intro m b r h
    exact Option.noConfusion h
  | succ fuel ih =>
    intro m b r h k hk
    cases k with
    | zero => omega
    | succ k =>
      have hk1 : fuel ≤ k := by omega
      unfold m_loop at h ⊢
      by_cases h1 : m ≤ p.max_M
      · simp only [h1, if_true] at h ⊢
        by_cases h0 : m = 0
        · simp only [h0, if_true] at h ⊢
          exact h
        · simp only [h0, if_false] at h ⊢
          by_cases h2 : ref / m < p.min_u
          · simp only [h2, if_true] at h ⊢
            exact h
          · simp only [h2, if_false] at h ⊢
            by_cases h3 : ref / m > p.max_u
            · simp only [h3, if_true] at h ⊢
              exact ih _ b r h k hk1
            · simp only [h3, if_false] at h ⊢
              by_cases h4 : ref = 0
              · simp only [h4, if_true] at h ⊢
                exact h
              · simp only [h4, if_false] at h ⊢
                by_cases h5 : tv * m % U32 / ref > p.max_N
                · simp only [h5, if_true] at h ⊢
                  exact h
                · simp only [h5, if_false] at h ⊢
                  cases hn : n_loop p ref minv maxv t pl m
                      ((tv * m % U32 + (ref - 1)) % U32 / ref) bf fuel (tv * m % U32 / ref) b with
                  | none =>
                    rw [hn] at h
                    exact Option.noConfusion h
                  | some rn =>
                    rw [hn] at h
                    rw [n_loop_mono p ref minv maxv t pl m _ bf fuel _ b rn hn k hk1]
                    cases rn with
                    | next b2 => exact ih _ b2 r h k hk1
                    | found b2 => exact h
                    | div0 => exact h
      · simp only [h1, if_false] at h ⊢
        exact h

theorem pl_loop_mono (p : pll_parms) (ref minv maxv t lo : Nat) (bf : Bool) :
    ∀ (fuel pl : Nat) (b : Best) (r : Scan),
      pl_loop p ref minv maxv t lo bf fuel pl b = some r →
      ∀ k, fuel ≤ k → pl_loop p ref minv maxv t lo bf k pl b = some r := by
  intro fuel
  induction fuel with
  | zero =>
    intro pl b r h
    exact Option.noConfusion h
  | succ fuel ih =>
    intro pl b r h k hk
    cases k with
    | zero => omega
    | succ k =>
      have hk1 : fuel ≤ k := by omega
      unfold pl_loop at h ⊢
      by_cases h1 : pl ≥ lo
      · simp only [h1, if_true] at h ⊢
        cases hm : m_loop p ref minv maxv t pl (t * pl % U32) bf fuel p.min_M b with
        | none =>
          rw [hm] at h
          exact Option.noConfusion h
        | some rm =>
          rw [hm] at h
          rw [m_loop_mono p ref minv maxv t pl _ bf fuel _ b rm hm k hk1]
          cases rm with
          | next b2 => exact ih _ b2 r h k hk1
          | found b2 => exact h
          | div0 => exact h
      · simp only [h1, if_false] at h ⊢
        exact h

theorem clk_config_search_mono (fuel : Nat) (q : pll) (p : pll_parms) (t : Nat) (bf : Bool)
    (r : Scan) (h : clk_config_search fuel q p t bf = some r) (k : Nat) (hk : fuel ≤ k) :
    clk_config_search k q p t bf = some r := by
  unfold clk_config_search at h ⊢
  by_cases h0 : (t + t / 50) % U32 = 0
  · simp only [h0, if_true] at h ⊢
    exact h
  · simp only [h0, if_false] at h ⊢
    exact pl_loop_mono p q.clk_in _ _ t _ bf fuel _ _ r h k hk

theorem clk_config_pll_mono (fuel : Nat) (q : pll) (p : pll_parms) (t : Nat) (bf : Bool)
    (s : Solve) (h : clk_config_pll fuel q p t bf = some s) (k : Nat) (hk : fuel ≤ k) :
    clk_config_pll k q p t bf = some s := by
  rw [clk_config_pll_eq_search] at h ⊢
  cases hs : clk_config_search fuel q p t bf with
  | none =>
    rw [hs] at h
    exact Option.noConfusion h
  | some r =>
    rw [hs] at h
    rw [clk_config_search_mono fuel q p t bf r hs k hk]
    exact h

theorem recorded_step (ref t : Nat) (init : Best) (pl m n : Nat) (b : Best) (l : List Best)
    (h : Recorded ref t init b l) (hlt : cand_delta ref t pl m n < b.best_delta) :
    Recorded ref t init ⟨cand_delta ref t pl m n, m, n, pl⟩
      (l ++ [(⟨cand_delta ref t pl m n, m, n, pl⟩ : Best)]) := by
  obtain ⟨-, hp, hmin, hc⟩ := h
  refine ⟨Or.inr (List.getLast?_concat _), ?_, ?_, ?_⟩
  · rw [List.pairwise_append]
    refine ⟨hp, List.pairwise_singleton _ _, ?_⟩
    intro x hx y hy
    cases List.mem_singleton.mp hy
    exact Nat.lt_of_lt_of_le hlt (hmin x hx)
  · intro x hx
    rcases List.mem_append.mp hx with hx | hx
    · exact Nat.le_of_lt (Nat.lt_of_lt_of_le hlt (hmin x hx))
    · cases List.mem_singleton.mp hx
      exact Nat.le_refl _
  · intro x hx
    rcases List.mem_append.mp hx with hx | hx
    · exact hc x hx
    · cases List.mem_singleton.mp hx
      rfl

theorem clk_config_search_log_recorded (fuel : Nat) (q : pll) (p : pll_parms) (t : Nat)
    (bf : Bool) (r : Scan) (l : List Best) (b : Best)
    (h : clk_config_search_log fuel q p t bf = some (r, l)) (hr : scan_best r = some b) :
    Recorded q.clk_in t ⟨U32 - 1, p.max_M, p.min_N, p.min_PL⟩ b l :=
  clk_config_search_log_keeps (Recorded q.clk_in t ⟨U32 - 1, p.max_M, p.min_N, p.min_PL⟩)
    fuel q p t bf
    (fun pl m n b0 l0 h0 hlt => recorded_step q.clk_in t _ pl m n b0 l0 h0 hlt)
    ⟨Or.inl ⟨rfl, rfl⟩, List.Pairwise.nil, fun _ hx => absurd hx (List.not_mem_nil _),
      fun _ hx => absurd hx (List.not_mem_nil _)⟩
    r l b h hr

/-- C15: for every reference clock, table and target on which `clk_config_pll` returns
0 both with `best_fit = false` and with `best_fit = true`: let `l` be the candidates the
best-fit search took, in search order (each passed `delta < best_delta`, so `best_delta`
strictly decreases along `l`, and the last one is the best-fit result).  Either no
candidate in `l` has `vco_f / best_delta > 218`, and then the two runs return the same
coefficients and frequency; or the run with `best_fit = false` left through
`goto found_match` at the first candidate in `l` with `vco_f / best_delta > 218` and
returns its M, N and PL.  In both cases `best_delta` of the best-fit run is at most that
of the other run. -/
theorem clk_config_pll_two_fits (fuel_f fuel_t : Nat) (q : pll) (p : pll_parms) (t : Nat)
    (qf qt : pll) (ff ft : Nat)
    (hf : clk_config_pll fuel_f q p t false = some (Solve.ok qf ff))
    (ht : clk_config_pll fuel_t q p t true = some (Solve.ok qt ft)) :
    ∃ rt l bt rf bfb,
      clk_config_search_log (max fuel_f fuel_t) q p t true = some (rt, l) ∧
      clk_config_search fuel_t q p t true = some rt ∧ scan_best rt = some bt ∧
      qt.M = bt.best_M ∧ qt.N = bt.best_N ∧ qt.PL = bt.best_PL ∧
      clk_config_search fuel_f q p t false = some rf ∧ scan_best rf = some bfb ∧
      qf.M = bfb.best_M ∧ qf.N = bfb.best_N ∧ qf.PL = bfb.best_PL ∧
      l.getLast? = some bt ∧
      l.Pairwise (fun x y => y.best_delta < x.best_delta) ∧
      (∀ x ∈ l, x.best_delta = cand_delta q.clk_in t x.best_PL x.best_M x.best_N) ∧
      ((l.find? (near q.clk_in) = none ∧ qf = qt ∧ ff = ft ∧ bfb = bt) ∨
       (l.find? (near q.clk_in) = some bfb ∧ rf = Scan.found bfb)) ∧
      bt.best_delta ≤ bfb.best_delta := by
  obtain ⟨rt, bt, hst, hbt, hfmt⟩ := clk_config_pll_ok_search fuel_t q p t true qt ft ht
  obtain ⟨rf, bfb, hsf, hbf, hfmf⟩ := clk_config_pll_ok_search fuel_f q p t false qf ff hf
  have hstK := clk_config_search_mono fuel_t q p t true rt hst (max fuel_f fuel_t)
    (le_max_right _ _)
  have hsfK := clk_config_search_mono fuel_f q p t false rf hsf (max fuel_f fuel_t)
    (le_max_left _ _)
  obtain ⟨hnet, -, hqt, -⟩ := found_match_ok q bt qt ft hfmt
  obtain ⟨-, -, hqf, -⟩ := found_match_ok q bfb qf ff hfmf
  have he := clk_config_search_log_fst (max fuel_f fuel_t) q p t true
  rw [hstK] at he
  cases hlog : clk_config_search_log (max fuel_f fuel_t) q p t true with
  | none =>
    rw [hlog] at he
    exact Option.noConfusion he
  | some x =>
    rcases x with ⟨r1, l⟩
    rw [hlog] at he
    cases Option.some.inj he
    have hrec := clk_config_search_log_recorded (max fuel_f fuel_t) q p t true _ l bt hlog hbt
    obtain ⟨hlast, hpair, -, hcand⟩ := hrec
    have hlast1 : l.getLast? = some bt := by
      rcases hlast with ⟨-, hinit⟩ | hlast
      · rw [hinit] at hnet
        exact absurd rfl hnet
      · exact hlast
    have hsync := clk_config_search_lockstep (max fuel_f fuel_t) q p t
    rw [hlog, hsfK] at hsync
    refine ⟨_, l, bt, rf, bfb, rfl, hst, hbt, by rw [hqt], by rw [hqt], by rw [hqt], hsf, hbf,
      by rw [hqf], by rw [hqf], by rw [hqf], hlast1, hpair, hcand, ?_⟩
    rcases hsync _ l bt rfl hbt with ⟨hA, hfind⟩ | ⟨c, hB, hfind, hle⟩
    · cases Option.some.inj hA
      rw [hbt] at hbf
      cases Option.some.inj hbf
      rw [hfmt] at hfmf
      injection hfmf with e1 e2
      exact ⟨Or.inl ⟨hfind, e1.symm, e2.symm, rfl⟩, Nat.le_refl _⟩
    · cases Option.some.inj hB
      cases Option.some.inj hbf
      exact ⟨Or.inr ⟨hfind, rfl⟩, hle⟩

theorem clk_config_pll_two_fits_witness :
    ∃ rt l bt rf bfb,
      clk_config_search_log (max solver_fuel solver_fuel) ⟨26, 1, 31, 1, 806⟩ gpc_pll_params
        403 true = some (rt, l) ∧
      clk_config_search solver_fuel ⟨26, 1, 31, 1, 806⟩ gpc_pll_params 403 true = some rt ∧
      scan_best rt = some bt ∧
      (⟨26, 1, 62, 4, 403⟩ : pll).M = bt.best_M ∧ (⟨26, 1, 62, 4, 403⟩ : pll).N = bt.best_N ∧
      (⟨26, 1, 62, 4, 403⟩ : pll).PL = bt.best_PL ∧
      clk_config_search solver_fuel ⟨26, 1, 31, 1, 806⟩ gpc_pll_params 403 false = some rf ∧
      scan_best rf = some bfb ∧
      (⟨26, 1, 77, 5, 400⟩ : pll).M = bfb.best_M ∧ (⟨26, 1, 77, 5, 400⟩ : pll).N = bfb.best_N ∧
      (⟨26, 1, 77, 5, 400⟩ : pll).PL = bfb.best_PL ∧
      l.getLast? = some bt ∧
      l.Pairwise (fun x y => y.best_delta < x.best_delta) ∧
      (∀ x ∈ l, x.best_delta =
        cand_delta (⟨26, 1, 31, 1, 806⟩ : pll).clk_in 403 x.best_PL x.best_M x.best_N) ∧
      ((l.find? (near (⟨26, 1, 31, 1, 806⟩ : pll).clk_in) = none ∧
          (⟨26, 1, 77, 5, 400⟩ : pll) = ⟨26, 1, 62, 4, 403⟩ ∧ 400 = 403 ∧ bfb = bt) ∨
       (l.find? (near (⟨26, 1, 31, 1, 806⟩ : pll).clk_in) = some bfb ∧ rf = Scan.found bfb)) ∧
      bt.best_delta ≤ bfb.best_delta :=
  clk_config_pll_two_fits solver_fuel solver_fuel ⟨26, 1, 31, 1, 806⟩ gpc_pll_params 403
    ⟨26, 1, 77, 5, 400⟩ ⟨26, 1, 62, 4, 403⟩ 400 403 (by decide) (by decide)

end Gk20a
